import Mathlib

/-!
Attendance backend: session registry, window state machine, submissions.

A shallow embedding of `Backend/main.go`, `Backend/group_manager.go` and
`Backend/student_manager.go`.

* Go maps (`map[string]V`) are association lists with unique keys
  (`mapGet`, `mapSet`); the list order stands for Go's unspecified iteration
  order.
* `time.Time` values are integers (nanoseconds); every `time.Now()` of the
  source is an explicit argument of the handler that reads the clock.
* `float64` and the library routines applied to it (`math.Sin`, `fmt.Sscanf`,
  `fmt.Sprintf`, `time.Format`, ...) are the fields of `Lib F`: the handlers
  are translated once for every interpretation `F` of `float64`, IEEE
  arithmetic with NaN included (no law is assumed about the operations).
* Replies of the remote store and the outcome of `os.Create` are arguments of
  the handler that issues the call.
* The two caches (`groupsCache`, `studentCache`) are separate values passed to
  and returned by the handlers that use them.
* Handlers run one at a time (each holds the session lock for its whole
  read-modify-write), so a handler is a function from the state before the
  call to the state after it, paired with the response.
-/

namespace Attendance

/-! ## Go maps -/

/-- Map lookup `m[k]` with the comma-ok result as an `Option`. -/
def mapGet {V : Type} (m : List (String × V)) (k : String) : Option V :=
  match m with
  | [] => none
  | e :: rest => if e.1 = k then some e.2 else mapGet rest k

/-- Map assignment `m[k] = v`: overwrite in place, or add a new entry. -/
def mapSet {V : Type} (m : List (String × V)) (k : String) (v : V) : List (String × V) :=
  match m with
  | [] => [(k, v)]
  | e :: rest => if e.1 = k then (k, v) :: rest else e :: mapSet rest k v

/-- Builtin `delete(m, k)`. -/
def mapDelete {V : Type} (m : List (String × V)) (k : String) : List (String × V) :=
  m.filter (fun e => decide (e.1 ≠ k))

/-- Key set of a map. -/
def mapKeys {V : Type} (m : List (String × V)) : List String :=
  m.map Prod.fst

/-! ## Library routines -/

/-- The `float64` type and the library routines the handlers call on it.
`scanFloat s` is `fmt.Sscanf(s, "%f", &x)` (`none` when it reports an error),
`le` is the Go comparison `<=`, `fmt0` is `fmt.Sprintf("%.0f", x)`,
`fmtStamp` and `fmtFileStamp` are `time.Format` with the layouts
`2006-01-02 15:04:05` and `20060102_150405`. -/
structure Lib (F : Type) where
  ofNat : Nat → F
  pi : F
  add : F → F → F
  sub : F → F → F
  mul : F → F → F
  div : F → F → F
  sin : F → F
  cos : F → F
  sqrt : F → F
  atan2 : F → F → F
  le : F → F → Bool
  scanFloat : String → Option F
  fmt0 : F → String
  fmtStamp : Int → String
  fmtFileStamp : Int → String

/-- Source `parseFloat`: the scanned value and whether the error is nil; the
result variable keeps its zero value when the scan fails. -/
def parseFloat {F : Type} (L : Lib F) (s : String) : F × Bool :=
  match L.scanFloat s with
  | some x => (x, true)
  | none => (L.ofNat 0, false)

/-- Source `haversine`: distance in meters between two GPS coordinates. -/
def haversine {F : Type} (L : Lib F) (lat1 lon1 lat2 lon2 : F) : F :=
  let R := L.ofNat 6371000
  let φ1 := L.div (L.mul lat1 L.pi) (L.ofNat 180)
  let φ2 := L.div (L.mul lat2 L.pi) (L.ofNat 180)
  let Δφ := L.div (L.mul (L.sub lat2 lat1) L.pi) (L.ofNat 180)
  let Δl := L.div (L.mul (L.sub lon2 lon1) L.pi) (L.ofNat 180)
  let a := L.add
    (L.mul (L.sin (L.div Δφ (L.ofNat 2))) (L.sin (L.div Δφ (L.ofNat 2))))
    (L.mul (L.mul (L.mul (L.cos φ1) (L.cos φ2)) (L.sin (L.div Δl (L.ofNat 2))))
      (L.sin (L.div Δl (L.ofNat 2))))
  let c := L.mul (L.ofNat 2) (L.atan2 (L.sqrt a) (L.sqrt (L.sub (L.ofNat 1) a)))
  L.mul R c

/-- Nanoseconds in one second (`time.Second`). -/
def second : Int := 1000000000

/-- The window length `10 * time.Minute`. -/
def tenMinutes : Int := 600 * second

/-! ## Data model -/

/-- Source `StudentLocation`. -/
structure StudentLocation (F : Type) where
  StudentID : String
  StudentName : String
  Latitude : F
  Longitude : F
  Distance : F
  Timestamp : String
  Status : String

/-- A CSV file as one `os.Create` call leaves it to its session: the path
(`name`), the rows flushed through the handle so far, and whether the
descriptor has been closed (writes to a closed descriptor fail and the
handlers ignore the error).  Every call is an object of its own.  `os.Create`
on a path that exists truncates the file, so two objects with the same `name`
stand for one file on disk, whose contents neither of them describes; the
statements about what a log holds carry the assumption `PathsApart`, which
says that no two objects of the registry share a path. -/
structure CsvFileObj where
  name : String
  rows : List (List String)
  closed : Bool
deriving DecidableEq

/-- Source `GroupData`.  `files` lists the files this session has created, in
creation order; `CSVFile` is the `*os.File` pointer and `CSVWriter` the file
the `*csv.Writer` wraps, both as positions in `files` (`none` is nil). -/
structure GroupData (F : Type) where
  ID : String
  Name : String
  AdminID : String
  AdminLat : F
  AdminLon : F
  ThresholdMeters : F
  WindowActive : Bool
  WindowStartTime : Int
  WindowEndTime : Int
  GroupOnly : Bool
  SubmittedStudents : List (String × Bool)
  StudentLocations : List (String × StudentLocation F)
  CSVFile : Option Nat
  CSVWriter : Option Nat
  files : List CsvFileObj

/-- The process state: the `groupManager.groups` registry and the auto-close
goroutines still sleeping, each with its group id and the instant its
`time.Sleep(10 * time.Minute)` ends. -/
structure State (F : Type) where
  groups : List (String × GroupData F)
  timers : List (String × Int)

/-- The registry at process start. -/
def State.init (F : Type) : State F :=
  { groups := [], timers := [] }

/-- Go reads of `SubmittedStudents[id]`: false when the key is missing. -/
def GroupData.hasSubmitted {F : Type} (g : GroupData F) (id : String) : Bool :=
  (mapGet g.SubmittedStudents id).getD false

/-- The zero-valued group `GetOrCreateGroup` allocates. -/
def newGroup {F : Type} (L : Lib F) (groupID : String) : GroupData F :=
  { ID := groupID, Name := "", AdminID := "", AdminLat := L.ofNat 0, AdminLon := L.ofNat 0,
    ThresholdMeters := L.ofNat 0, WindowActive := false, WindowStartTime := 0,
    WindowEndTime := 0, GroupOnly := false, SubmittedStudents := [], StudentLocations := [],
    CSVFile := none, CSVWriter := none, files := [] }

/-- Source `GroupManager.GetOrCreateGroup`: the registry afterwards and the
group returned. -/
def GetOrCreateGroup {F : Type} (L : Lib F) (st : State F) (groupID : String) :
    State F × GroupData F :=
  match mapGet st.groups groupID with
  | some group => (st, group)
  | none =>
    let group := newGroup L groupID
    ({ st with groups := mapSet st.groups groupID group }, group)

/-- Source `GroupManager.GetGroup`. -/
def GetGroup {F : Type} (st : State F) (groupID : String) : Option (GroupData F) :=
  mapGet st.groups groupID

/-- Write the fields of a group back through its pointer.  The pointer stays
valid when the registry entry is gone, but then no handler can reach the
object again, so the write is visible only while the entry exists. -/
def storeGroup {F : Type} (st : State F) (groupID : String) (g : GroupData F) : State F :=
  { st with groups := mapSet st.groups groupID g }

/-- The fallback every handler applies to the `group_id` parameter. -/
def effectiveGroupID (groupID : String) : String :=
  if groupID = "" then "default" else groupID

/-! ## Audit log primitives -/

/-- A `CSVWriter.Write(row)` followed by `Flush()`: the row reaches the file
the writer wraps unless that descriptor is closed.  The row is appended to the
file object of the handle; this is the file on disk as long as no other
`os.Create` has used the path (`PathsApart`). -/
def writeRow (files : List CsvFileObj) (w : Nat) (row : List String) : List CsvFileObj :=
  match files.get? w with
  | some f => if f.closed then files else files.set w { f with rows := f.rows ++ [row] }
  | none => files

/-- A `CSVFile.Close()`. -/
def closeFile (files : List CsvFileObj) (h : Nat) : List CsvFileObj :=
  match files.get? h with
  | some f => files.set h { f with closed := true }
  | none => files

/-- The header row both creators of a CSV file write. -/
def csvHeaders : List String := ["StudentName", "Time", "Distance(m)"]

/-! ## Set center -/

/-- Responses of `setCenterHandler`. -/
inductive SetCenterResult where
  | invalidLatitude
  | invalidLongitude
  | invalidThreshold
  | createFailed
  | centerSet
deriving DecidableEq

/-- Source `setCenterHandler`.  Each parsed value is assigned to the group
before its error is tested; `now` is the clock read for the file name and
`createOk` tells whether `os.Create` succeeds.  The file created is a new
object of the session, named `<name>_<stamp>.csv`; that `os.Create` truncates
a file already at that path is not part of the object model and is excluded
by `PathsApart` where file contents are stated. -/
def setCenterHandler {F : Type} (L : Lib F) (st : State F)
    (groupIDraw latStr lonStr sessionName thresholdStr : String) (now : Int)
    (createOk : Bool) : State F × SetCenterResult :=
  let groupID := effectiveGroupID groupIDraw
  let sg := GetOrCreateGroup L st groupID
  let lat := parseFloat L latStr
  let g1 := { sg.2 with AdminLat := lat.1 }
  if lat.2 = false then (storeGroup sg.1 groupID g1, SetCenterResult.invalidLatitude) else
  let lon := parseFloat L lonStr
  let g2 := { g1 with AdminLon := lon.1 }
  if lon.2 = false then (storeGroup sg.1 groupID g2, SetCenterResult.invalidLongitude) else
  let thr := parseFloat L thresholdStr
  let g3 := { g2 with ThresholdMeters := thr.1 }
  if thr.2 = false then (storeGroup sg.1 groupID g3, SetCenterResult.invalidThreshold) else
  let g4 := if sessionName ≠ "" then { g3 with Name := sessionName } else g3
  let filename := g4.Name ++ "_" ++ L.fmtFileStamp now ++ ".csv"
  if createOk = false then
    (storeGroup sg.1 groupID { g4 with CSVFile := none }, SetCenterResult.createFailed)
  else
    let h := g4.files.length
    let g5 := { g4 with
      files := g4.files ++ [{ name := filename, rows := [csvHeaders], closed := false }],
      CSVFile := some h, CSVWriter := some h }
    (storeGroup sg.1 groupID g5, SetCenterResult.centerSet)

/-! ## Window state machine -/

/-- The state-changing part of `startWindowHandler`, on the group object.
`dbMeta` is the store's answer for the group name and admin id (`none` when
the request fails or returns no row), `nowStart`, `nowEnd` and `nowFile` are
the three clock reads in source order.  The file created is a new object of
the session, named `<name>_<stamp>.csv` (`Group_<stamp>.csv` without a name);
that `os.Create` truncates a file already at that path is not part of the
object model and is excluded by `PathsApart` where file contents are
stated. -/
def startGroup {F : Type} (L : Lib F) (g : GroupData F) (groupID groupOnlyStr : String)
    (dbMeta : Option (String × String)) (nowStart nowEnd nowFile : Int) (createOk : Bool) :
    GroupData F :=
  let g1 := { g with GroupOnly := decide (groupOnlyStr = "true") }
  let g2 :=
    if g1.Name = "" ∧ groupID ≠ "default" then
      match dbMeta with
      | some m => { g1 with Name := m.1, AdminID := m.2 }
      | none => g1
    else g1
  let g3 := { g2 with
    WindowActive := true, WindowStartTime := nowStart, WindowEndTime := nowEnd + tenMinutes,
    SubmittedStudents := [], StudentLocations := [] }
  match g3.CSVFile with
  | some _ => g3
  | none =>
    if createOk = false then g3
    else
      let groupName := if g3.Name = "" then "Group" else g3.Name
      let filename := groupName ++ "_" ++ L.fmtFileStamp nowFile ++ ".csv"
      let h := g3.files.length
      { g3 with
        files := g3.files ++ [{ name := filename, rows := [csvHeaders], closed := false }],
        CSVFile := some h, CSVWriter := some h }

/-- Source `startWindowHandler`.  `nowSpawn` is the instant the auto-close
goroutine starts its ten-minute sleep (after the store has been updated). -/
def startWindowHandler {F : Type} (L : Lib F) (st : State F) (groupIDraw groupOnlyStr : String)
    (dbMeta : Option (String × String)) (nowStart nowEnd nowFile nowSpawn : Int)
    (createOk : Bool) : State F :=
  let groupID := effectiveGroupID groupIDraw
  let sg := GetOrCreateGroup L st groupID
  let g := startGroup L sg.2 groupID groupOnlyStr dbMeta nowStart nowEnd nowFile createOk
  { groups := (storeGroup sg.1 groupID g).groups,
    timers := sg.1.timers ++ [(groupID, nowSpawn + tenMinutes)] }

/-- Body of the auto-close goroutine of `startWindowHandler` once its sleep is
over: look the group id up again and clear the flag. -/
def autoClose {F : Type} (st : State F) (gID : String) : State F :=
  match GetGroup st gID with
  | some g => storeGroup st gID { g with WindowActive := false }
  | none => st

/-- The goroutine at position `i` of `timers` wakes up at instant `now`; it
cannot wake before its sleep is over. -/
def timerFire {F : Type} (st : State F) (i : Nat) (now : Int) : Option (State F) :=
  match st.timers.get? i with
  | some t =>
    if t.2 ≤ now then some (autoClose { st with timers := st.timers.eraseIdx i } t.1)
    else none
  | none => none

/-- Responses of `closeWindowHandler`. -/
inductive CloseResult where
  | groupNotFound
  | windowClosed
deriving DecidableEq

/-- Source `closeWindowHandler`. -/
def closeWindowHandler {F : Type} (st : State F) (groupIDraw : String) :
    State F × CloseResult :=
  let groupID := effectiveGroupID groupIDraw
  match GetGroup st groupID with
  | none => (st, CloseResult.groupNotFound)
  | some g =>
    let g1 := { g with WindowActive := false }
    let g2 :=
      match g1.CSVFile with
      | some h => { g1 with files := closeFile g1.files h }
      | none => g1
    (storeGroup st groupID g2, CloseResult.windowClosed)

/-! ## Submission -/

/-- Responses of `submitAttendanceHandler`: the rejections in source order,
then the accepted response with its `status`, `distance` and `timestamp`. -/
inductive SubmitResult where
  | groupNotFound
  | windowClosed
  | invalidStudentID
  | notMember
  | invalidLatitude
  | invalidLongitude
  | alreadySubmitted
  | accepted (status distance timestamp : String)
deriving DecidableEq

/-- Whether a submit response is the accepted one. -/
def SubmitResult.isAccepted : SubmitResult → Bool
  | SubmitResult.accepted _ _ _ => true
  | _ => false

/-- What the remote store answers during one submit: `uuid` is the result of
`getStudentUUIDByID` (empty when the student is unknown or the lookup fails),
`members` the number of rows the membership query decodes to, `none` when the
request itself returns an error. -/
structure SubmitStore where
  uuid : String
  members : Option Nat
deriving DecidableEq

/-- The form values of a submit request. -/
structure SubmitForm where
  student_name : String
  student_id : String
  lat : String
  lon : String
deriving DecidableEq

/-- The status the submit handler derives from a distance. -/
def classify {F : Type} (L : Lib F) (distance threshold : F) : String :=
  if L.le distance threshold = true then "Present" else "Absent"

/-- The group-only gate of `submitAttendanceHandler`: `none` lets the request
through, `some r` is the rejection. -/
def memberGate (groupOnly : Bool) (groupID : String) (store : SubmitStore) :
    Option SubmitResult :=
  if groupOnly = true ∧ groupID ≠ "default" then
    if store.uuid = "" then some SubmitResult.invalidStudentID
    else
      match store.members with
      | some 0 => some SubmitResult.notMember
      | _ => none
  else none

/-- The part of `submitAttendanceHandler` that runs under the exclusive lock:
parse the coordinates, check the ledger, then record the submission. -/
def submitLocked {F : Type} (L : Lib F) (group : GroupData F) (form : SubmitForm) (now : Int) :
    GroupData F × SubmitResult :=
  let lat := parseFloat L form.lat
  if lat.2 = false then (group, SubmitResult.invalidLatitude) else
  let lon := parseFloat L form.lon
  if lon.2 = false then (group, SubmitResult.invalidLongitude) else
  if group.hasSubmitted form.student_id = true then (group, SubmitResult.alreadySubmitted) else
  let distance := haversine L group.AdminLat group.AdminLon lat.1 lon.1
  let status := classify L distance group.ThresholdMeters
  let timestamp := L.fmtStamp now
  let files :=
    match group.CSVWriter with
    | some w => writeRow group.files w [form.student_name, timestamp, L.fmt0 distance]
    | none => group.files
  let loc : StudentLocation F :=
    { StudentID := form.student_id, StudentName := form.student_name, Latitude := lat.1,
      Longitude := lon.1, Distance := distance, Timestamp := timestamp, Status := status }
  ({ group with
      files := files,
      StudentLocations := mapSet group.StudentLocations form.student_id loc,
      SubmittedStudents := mapSet group.SubmittedStudents form.student_id true },
    SubmitResult.accepted status (L.fmt0 distance) timestamp)

/-- Source `submitAttendanceHandler`. -/
def submitAttendanceHandler {F : Type} (L : Lib F) (st : State F) (groupIDraw : String)
    (form : SubmitForm) (store : SubmitStore) (now : Int) : State F × SubmitResult :=
  let groupID := effectiveGroupID groupIDraw
  match GetGroup st groupID with
  | none => (st, SubmitResult.groupNotFound)
  | some group =>
    if group.WindowActive = false then (st, SubmitResult.windowClosed) else
    match memberGate group.GroupOnly groupID store with
    | some r => (st, r)
    | none =>
      let res := submitLocked L group form now
      (storeGroup st groupID res.1, res.2)

/-! ## Window status -/

/-- The fields of the status response the model keeps. -/
structure StatusResponse where
  active : Bool
  remaining_seconds : Int
  group_id : Option String
  session_name : String
deriving DecidableEq

/-- The expression `600 - int(time.Since(start).Seconds())`, clamped at zero;
the conversion to `int` truncates toward zero. -/
def remainingSeconds (start now : Int) : Int :=
  let remaining := 600 - Int.tdiv (now - start) second
  if remaining < 0 then 0 else remaining

/-- An entry of the `activeWindows` slice of the student branch. -/
structure ActiveWindow where
  group_id : String
  group_name : String
  group_only : Bool
  remaining_seconds : Int
deriving DecidableEq

/-- First loop of the student branch: the groups the student belongs to.  A
membership whose `group_id` is not a string is `none`; `clock gID` is the
instant at which group `gID` is inspected. -/
def memberWindows {F : Type} (st : State F) (clock : String → Int) :
    List (Option String) → List ActiveWindow → List ActiveWindow
  | [], acc => acc
  | none :: rest, acc => memberWindows st clock rest acc
  | some gID :: rest, acc =>
    match mapGet st.groups gID with
    | some group =>
      if group.WindowActive = true then
        memberWindows st clock rest
          (acc ++ [{ group_id := gID, group_name := group.Name, group_only := group.GroupOnly,
                     remaining_seconds := remainingSeconds group.WindowStartTime (clock gID) }])
      else memberWindows st clock rest acc
    | none => memberWindows st clock rest acc

/-- Second loop of the student branch: every group whose window is open to all
students, unless it is listed already. -/
def openWindows {F : Type} (clock : String → Int) :
    List (String × GroupData F) → List ActiveWindow → List ActiveWindow
  | [], acc => acc
  | e :: rest, acc =>
    if e.2.WindowActive = true ∧ e.2.GroupOnly = false then
      if acc.any (fun w => decide (w.group_id = e.1)) = true then openWindows clock rest acc
      else
        openWindows clock rest
          (acc ++ [{ group_id := e.1, group_name := e.2.Name, group_only := false,
                     remaining_seconds := remainingSeconds e.2.WindowStartTime (clock e.1) }])
    else openWindows clock rest acc

/-- The selection loop: keep the first window, replace it by a later one only
when that one has strictly more time remaining. -/
def bestWindow (best : ActiveWindow) : List ActiveWindow → ActiveWindow
  | [] => best
  | w :: rest =>
    if w.remaining_seconds > best.remaining_seconds then bestWindow w rest
    else bestWindow best rest

/-- The student branch of `getWindowStatusHandler`: the response when the
branch answers, `none` when the handler falls through to the group branch.
`uuid` is the result of `getStudentUUIDByID`, `memberships` the decoded
answer of the membership query (`none` when the request fails). -/
def statusByStudent {F : Type} (st : State F) (studentID uuid : String)
    (memberships : Option (List (Option String))) (clock : String → Int) :
    Option StatusResponse :=
  if studentID ≠ "" ∧ uuid ≠ "" then
    match memberships with
    | none => none
    | some ms =>
      match openWindows clock st.groups (memberWindows st clock ms []) with
      | [] => none
      | w :: rest =>
        let best := bestWindow w (w :: rest)
        some { active := true, remaining_seconds := best.remaining_seconds,
               group_id := some best.group_id, session_name := best.group_name }
  else none

/-- A row of the store describing an active window: the group name and the
parsed `window_start_time` and `window_end_time`. -/
structure RestoreRow where
  name : String
  startTime : Int
  endTime : Int
deriving DecidableEq

/-- The group branch of `getWindowStatusHandler`.  `restore` is the store row
used when the group is not in the registry (`none` when the request fails,
returns no row, or the row is not an active window with both times);
`nowRestore`, `nowAfter` and `nowSince` are the clock reads of
`time.Now().Before(endTime)`, `time.Now().After(group.WindowEndTime)` and
`time.Since(group.WindowStartTime)`. -/
def statusByGroup {F : Type} (L : Lib F) (st : State F) (groupIDraw : String)
    (restore : Option RestoreRow) (nowRestore nowAfter nowSince : Int) :
    State F × StatusResponse :=
  let groupID := effectiveGroupID groupIDraw
  let found : Option (State F × GroupData F) :=
    match GetGroup st groupID with
    | some g => some (st, g)
    | none =>
      if groupID ≠ "default" then
        match restore with
        | some r =>
          let sg := GetOrCreateGroup L st groupID
          let g := { sg.2 with
            Name := r.name, WindowStartTime := r.startTime, WindowEndTime := r.endTime,
            WindowActive := decide (nowRestore < r.endTime) }
          some (storeGroup sg.1 groupID g, g)
        | none => none
      else none
  match found with
  | none =>
    (st, { active := false, remaining_seconds := 0, group_id := none, session_name := "" })
  | some sg =>
    if sg.2.WindowActive = false ∨ nowAfter > sg.2.WindowEndTime then
      let st2 :=
        if sg.2.WindowActive = true then
          storeGroup sg.1 groupID { sg.2 with WindowActive := false }
        else sg.1
      (st2, { active := false, remaining_seconds := 0, group_id := some groupID,
              session_name := sg.2.Name })
    else
      (sg.1, { active := sg.2.WindowActive,
               remaining_seconds := remainingSeconds sg.2.WindowStartTime nowSince,
               group_id := some groupID, session_name := sg.2.Name })

/-- Source `getWindowStatusHandler`: the student branch when a `student_id`
is given and it finds an active window, the group branch otherwise. -/
def getWindowStatusHandler {F : Type} (L : Lib F) (st : State F) (studentID uuid : String)
    (memberships : Option (List (Option String))) (clock : String → Int)
    (groupIDraw : String) (restore : Option RestoreRow) (nowRestore nowAfter nowSince : Int) :
    State F × StatusResponse :=
  match statusByStudent st studentID uuid memberships clock with
  | some resp => (st, resp)
  | none => statusByGroup L st groupIDraw restore nowRestore nowAfter nowSince

/-! ## Participant records -/

/-- The loop of `getAllStudentLocationsHandler` over the attendance rows of the
store: each row is entered in both maps under its student id.  A row that
cannot be converted aborts the request after the rows before it have been
entered, which is the same as being handed those rows only. -/
def loadRecords {F : Type} (g : GroupData F) : List (StudentLocation F) → GroupData F
  | [] => g
  | loc :: rest =>
    loadRecords
      { g with
        StudentLocations := mapSet g.StudentLocations loc.StudentID loc,
        SubmittedStudents := mapSet g.SubmittedStudents loc.StudentID true } rest

/-- Source `getAllStudentLocationsHandler`.  `dbRecords` is the decoded answer
of the attendance query (`none` when the request or the decoding fails). -/
def getAllStudentLocationsHandler {F : Type} (L : Lib F) (st : State F) (groupIDraw : String)
    (dbRecords : Option (List (StudentLocation F))) : State F × List (StudentLocation F) :=
  let groupID := effectiveGroupID groupIDraw
  let found : Option (State F × GroupData F) :=
    match GetGroup st groupID with
    | some g => some (st, g)
    | none => if groupID ≠ "default" then some (GetOrCreateGroup L st groupID) else none
  match found with
  | none => (st, [])
  | some sg =>
    let group :=
      if sg.2.StudentLocations.length = 0 ∧ groupID ≠ "default" then
        match dbRecords with
        | some records => loadRecords sg.2 records
        | none => sg.2
      else sg.2
    (storeGroup sg.1 groupID group, group.StudentLocations.map Prod.snd)

/-! ## Runs -/

/-- One request (or one timer wake-up) with everything it reads from outside
the registry. -/
inductive Op (F : Type) where
  | setCenter (groupID latStr lonStr sessionName thresholdStr : String) (now : Int)
      (createOk : Bool)
  | startWindow (groupID groupOnlyStr : String) (dbMeta : Option (String × String))
      (nowStart nowEnd nowFile nowSpawn : Int) (createOk : Bool)
  | closeWindow (groupID : String)
  | submit (groupID : String) (form : SubmitForm) (store : SubmitStore) (now : Int)
  | windowStatus (studentID uuid : String) (memberships : Option (List (Option String)))
      (clock : String → Int) (groupID : String) (restore : Option RestoreRow)
      (nowRestore nowAfter nowSince : Int)
  | studentLocations (groupID : String) (dbRecords : Option (List (StudentLocation F)))
  | timer (i : Nat) (now : Int)

/-- State after one operation; a timer that is not due leaves it as it is. -/
def step {F : Type} (L : Lib F) (st : State F) : Op F → State F
  | Op.setCenter g lat lon name thr now ok => (setCenterHandler L st g lat lon name thr now ok).1
  | Op.startWindow g only dbMeta n1 n2 n3 n4 ok => startWindowHandler L st g only dbMeta n1 n2 n3 n4 ok
  | Op.closeWindow g => (closeWindowHandler st g).1
  | Op.submit g form store now => (submitAttendanceHandler L st g form store now).1
  | Op.windowStatus sid uuid ms clock g restore n1 n2 n3 =>
    (getWindowStatusHandler L st sid uuid ms clock g restore n1 n2 n3).1
  | Op.studentLocations g recs => (getAllStudentLocationsHandler L st g recs).1
  | Op.timer i now => (timerFire st i now).getD st

/-- State after a sequence of operations. -/
def run {F : Type} (L : Lib F) (st : State F) (ops : List (Op F)) : State F :=
  ops.foldl (step L) st

/-! ## A computable interpretation for concrete runs -/

/-- Decimal digits to a number, `none` on any other character. -/
def digitsToNat : List Char → Nat → Option Nat
  | [], acc => some acc
  | c :: cs, acc =>
    if c.isDigit = true then digitsToNat cs (acc * 10 + (c.toNat - 48)) else none

/-- Scanner of the test interpretation: optionally signed decimal integers. -/
def scanInt (s : String) : Option Int :=
  match s.data with
  | [] => none
  | '-' :: c :: cs => (digitsToNat (c :: cs) 0).map (fun n => - Int.ofNat n)
  | cs => (digitsToNat cs 0).map Int.ofNat

/-- A test interpretation of `Lib` over the integers, used to evaluate the
handlers on concrete requests: exact integer arithmetic, angles measured so
that `pi` is 180, and the trigonometric routines replaced by their leading
terms.  No general theorem below depends on it. -/
def testLib : Lib Int where
  ofNat := Int.ofNat
  pi := 180
  add := fun a b => a + b
  sub := fun a b => a - b
  mul := fun a b => a * b
  div := fun a b => Int.tdiv a b
  sin := fun a => a
  cos := fun _ => 1
  sqrt := fun a => a
  atan2 := fun y _ => y
  le := fun a b => decide (a ≤ b)
  scanFloat := scanInt
  fmt0 := fun a => toString a
  fmtStamp := fun t => toString (Int.tdiv t second)
  fmtFileStamp := fun t => toString (Int.tdiv t second)


/-! ## The ledger and the locations -/

/-- The key set of `StudentLocations` is the set of ids marked in
`SubmittedStudents`. -/
def LedgerMatches {F : Type} (g : GroupData F) : Prop :=
  ∀ p : String, p ∈ mapKeys g.StudentLocations ↔ g.hasSubmitted p = true

/-- Every session of the registry satisfies `LedgerMatches`. -/
def AllLedgersMatch {F : Type} (st : State F) : Prop :=
  ∀ e ∈ st.groups, LedgerMatches e.2


/-! ## Concrete runs -/

/-- Opening of the concrete runs, on session `g1`: the center is set with a
50 m threshold, then a members-only window is started at second 1; its
auto-close goroutine begins to sleep at second 3. -/
def demoStart : List (Op Int) :=
  [ Op.setCenter "g1" "0" "0" "Hall" "50" 0 true,
    Op.startWindow "g1" "true" none second second second (3 * second) true ]

/-- The registry after `demoStart`. -/
def demoState : State Int :=
  run testLib (State.init Int) demoStart

/-- Student `ST1` submits the center coordinates. -/
def demoForm : SubmitForm :=
  { student_name := "Ann", student_id := "ST1", lat := "0", lon := "0" }

/-- The store knows the student and lists one membership row. -/
def demoStore : SubmitStore :=
  { uuid := "u-1", members := some 1 }

/-- The run `demoStart` followed by the submission of `ST1` at second 5. -/
def demoOps : List (Op Int) :=
  demoStart ++ [Op.submit "g1" demoForm demoStore (5 * second)]

/-- Session `g1` after `demoStart`. -/
def demoOpenGroup : GroupData Int :=
  { ID := "g1", Name := "Hall", AdminID := "", AdminLat := 0, AdminLon := 0,
    ThresholdMeters := 50, WindowActive := true, WindowStartTime := 1000000000,
    WindowEndTime := 601000000000, GroupOnly := true,
    SubmittedStudents := [], StudentLocations := [],
    CSVFile := some 0, CSVWriter := some 0,
    files := [{ name := "Hall_0.csv", rows := [csvHeaders], closed := false }] }

/-- Session `g1` after `demoOps`. -/
def demoGroup : GroupData Int :=
  { demoOpenGroup with
    SubmittedStudents := [("ST1", true)],
    StudentLocations :=
      [("ST1", { StudentID := "ST1", StudentName := "Ann", Latitude := 0, Longitude := 0,
                 Distance := 0, Timestamp := "5", Status := "Present" })],
    files := [{ name := "Hall_0.csv", rows := [csvHeaders, ["Ann", "5", "0"]], closed := false }] }

/-- A restart on session `g1`: a window is started at second 0 and, five
minutes later and without any close, a second one at second 300. -/
def restartOps : List (Op Int) :=
  [ Op.startWindow "g1" "false" (some ("Hall", "admin-1")) 0 0 0 0 true,
    Op.startWindow "g1" "false" none (300 * second) (300 * second) (300 * second)
      (300 * second) true ]

/-- Session `g1` after `restartOps`: the second window is open until second
900. -/
def restartedGroup : GroupData Int :=
  { ID := "g1", Name := "Hall", AdminID := "admin-1", AdminLat := 0, AdminLon := 0,
    ThresholdMeters := 0, WindowActive := true, WindowStartTime := 300000000000,
    WindowEndTime := 900000000000, GroupOnly := false,
    SubmittedStudents := [], StudentLocations := [],
    CSVFile := some 0, CSVWriter := some 0,
    files := [{ name := "Hall_0.csv", rows := [csvHeaders], closed := false }] }

/-- Session `g1` after `demoStart` and an explicit close. -/
def demoClosedGroup : GroupData Int :=
  { demoOpenGroup with
    WindowActive := false,
    files := [{ name := "Hall_0.csv", rows := [csvHeaders], closed := true }] }

/-- A run on session `g2` whose threshold is 0 m: center set at the origin,
then a window open to all started at second 1. -/
def boundaryStart : List (Op Int) :=
  [ Op.setCenter "g2" "0" "0" "Yard" "0" 0 true,
    Op.startWindow "g2" "false" none second second second second true ]

/-- Session `g2` after `boundaryStart`. -/
def boundaryGroup : GroupData Int :=
  { ID := "g2", Name := "Yard", AdminID := "", AdminLat := 0, AdminLon := 0,
    ThresholdMeters := 0, WindowActive := true, WindowStartTime := 1000000000,
    WindowEndTime := 601000000000, GroupOnly := false,
    SubmittedStudents := [], StudentLocations := [],
    CSVFile := some 0, CSVWriter := some 0,
    files := [{ name := "Yard_0.csv", rows := [csvHeaders], closed := false }] }

/-! ## Deleting sessions -/

/-- Source `GroupManager.DeleteGroup`: the registry afterwards and the session
object taken out of it, as the call leaves that object (`none` when the id
is not registered).  The flush has nothing left to write, every row having
been flushed when it was written. -/
def DeleteGroup {F : Type} (st : State F) (groupID : String) :
    State F × Option (GroupData F) :=
  match GetGroup st groupID with
  | some group =>
    let g1 :=
      match group.CSVFile with
      | some h => { group with files := closeFile group.files h }
      | none => group
    ({ st with groups := mapDelete st.groups groupID }, some g1)
  | none => (st, none)

/-! ## The group-listing cache -/

/-- A row of the store's group listing (`select=id,name,status,created_at`). -/
structure GroupRow where
  id : String
  name : String
  status : String
  created_at : String
deriving DecidableEq

/-- Source `groupsCache`: the two maps keyed by admin id, `none` while nil. -/
structure GroupsCache where
  data : Option (List (String × List GroupRow))
  timestamps : Option (List (String × Int))
deriving DecidableEq

/-- The cache at process start: both maps nil. -/
def GroupsCache.init : GroupsCache :=
  { data := none, timestamps := none }

/-- The read `groupsCache.data[adminID]` with its comma-ok result. -/
def cacheData (c : GroupsCache) (adminID : String) : Option (List GroupRow) :=
  match c.data with
  | some m => mapGet m adminID
  | none => none

/-- The read `groupsCache.timestamps[adminID]` with its comma-ok result. -/
def cacheStamp (c : GroupsCache) (adminID : String) : Option Int :=
  match c.timestamps with
  | some m => mapGet m adminID
  | none => none

/-- The constant `groupsCacheDuration`, five minutes. -/
def groupsCacheDuration : Int := 5 * (60 * second)

/-- The block that `createGroupHandler` and the cache-bust branch of
`getMyGroupsHandler` both run: delete the admin's key from each map that is
not nil. -/
def invalidateAdmin (c : GroupsCache) (adminID : String) : GroupsCache :=
  { data := c.data.map (fun m => mapDelete m adminID),
    timestamps := c.timestamps.map (fun m => mapDelete m adminID) }

/-- The block of `deleteGroupHandler` that replaces each map that is not nil
by an empty one. -/
def invalidateAll (c : GroupsCache) : GroupsCache :=
  { data := c.data.map (fun _ => []),
    timestamps := c.timestamps.map (fun _ => []) }

/-- Answer of the store to a query that returns rows: the request fails, the
status is not one the handler accepts, the body cannot be decoded, or rows. -/
inductive StoreRows (R : Type) where
  | transportError
  | badStatus
  | undecodable
  | rows (rs : List R)

/-- Responses of `createGroupHandler`. -/
inductive CreateGroupResult where
  | missingFields
  | connectionError
  | createFailed
  | parseFailed
  | noData
  | created (id name : String)
deriving DecidableEq

/-- Source `createGroupHandler`.  `reply` is the store's answer to the insert,
its rows being the `(id, name)` pairs of the representation returned. -/
def createGroupHandler {F : Type} (L : Lib F) (st : State F) (cache : GroupsCache)
    (groupName adminID : String) (reply : StoreRows (String × String)) :
    State F × GroupsCache × CreateGroupResult :=
  if groupName = "" ∨ adminID = "" then (st, cache, CreateGroupResult.missingFields) else
  match reply with
  | StoreRows.transportError => (st, cache, CreateGroupResult.connectionError)
  | StoreRows.badStatus => (st, cache, CreateGroupResult.createFailed)
  | StoreRows.undecodable => (st, cache, CreateGroupResult.parseFailed)
  | StoreRows.rows [] => (st, cache, CreateGroupResult.noData)
  | StoreRows.rows (r :: _) =>
    let sg := GetOrCreateGroup L st r.1
    let g := { sg.2 with Name := r.2, AdminID := adminID }
    (storeGroup sg.1 r.1 g, invalidateAdmin cache adminID, CreateGroupResult.created r.1 r.2)

/-- Answer of the store to the delete request: the request fails, the status
is 204 or 200, or it is any other status. -/
inductive DeleteReply where
  | transportError
  | done
  | badStatus
deriving DecidableEq

/-- Responses of `deleteGroupHandler`. -/
inductive DeleteGroupResult where
  | missingGroupID
  | connectionError
  | deleted
  | deleteFailed
deriving DecidableEq

/-- Source `deleteGroupHandler`: the registry and the cache afterwards, the
session object taken out of the registry as the call leaves that object
(`none` when nothing is removed), and the response. -/
def deleteGroupHandler {F : Type} (st : State F) (cache : GroupsCache) (groupID : String)
    (reply : DeleteReply) :
    State F × GroupsCache × Option (GroupData F) × DeleteGroupResult :=
  if groupID = "" then (st, cache, none, DeleteGroupResult.missingGroupID) else
  match reply with
  | DeleteReply.transportError => (st, cache, none, DeleteGroupResult.connectionError)
  | DeleteReply.done =>
    ({ st with groups := mapDelete st.groups groupID }, invalidateAll cache,
      GetGroup st groupID, DeleteGroupResult.deleted)
  | DeleteReply.badStatus => (st, cache, none, DeleteGroupResult.deleteFailed)

/-- Responses of `getMyGroupsHandler`; `cacheHit` is the `X-Cache` header.
`panicked` is the assignment to a nil `timestamps` map. -/
inductive MyGroupsResult where
  | missingAdminID
  | connectionError
  | fetchFailed
  | parseFailed
  | panicked
  | listing (groups : List GroupRow) (count : Nat) (cacheHit : Bool)
deriving DecidableEq

/-- The cache test of `getMyGroupsHandler`: the cached listing when the admin
has a data entry and a timestamp entry and `time.Since(timestamp)` is below
`groupsCacheDuration`. -/
def freshListing (c : GroupsCache) (adminID : String) (now : Int) : Option (List GroupRow) :=
  match cacheData c adminID with
  | some cachedGroups =>
    match cacheStamp c adminID with
    | some timestamp => if now - timestamp < groupsCacheDuration then some cachedGroups else none
    | none => none
  | none => none

/-- The cache update of `getMyGroupsHandler`: allocate both maps when `data`
is nil, then assign the listing and the time; the flag is false when the
assignment to `timestamps` panics because that map is nil. -/
def putListing (c : GroupsCache) (adminID : String) (groups : List GroupRow) (now : Int) :
    GroupsCache × Bool :=
  let c1 : GroupsCache :=
    match c.data with
    | none => { data := some [], timestamps := some [] }
    | some _ => c
  let data := c1.data.map (fun m => mapSet m adminID groups)
  match c1.timestamps with
  | some t => ({ data := data, timestamps := some (mapSet t adminID now) }, true)
  | none => ({ data := data, timestamps := none }, false)

/-- Source `getMyGroupsHandler`.  `bust` is the `_t` query parameter,
`nowCheck` and `nowPut` the clock reads of the cache test and of the cache
update, `reply` the store's listing for the admin. -/
def getMyGroupsHandler (cache : GroupsCache) (adminID bust : String) (nowCheck nowPut : Int)
    (reply : StoreRows GroupRow) : GroupsCache × MyGroupsResult :=
  if adminID = "" then (cache, MyGroupsResult.missingAdminID) else
  let forceRefresh := decide (bust ≠ "")
  let c1 := if forceRefresh = true then invalidateAdmin cache adminID else cache
  let hit := if forceRefresh = true then none else freshListing c1 adminID nowCheck
  match hit with
  | some cachedGroups => (c1, MyGroupsResult.listing cachedGroups cachedGroups.length true)
  | none =>
    match reply with
    | StoreRows.transportError => (c1, MyGroupsResult.connectionError)
    | StoreRows.badStatus => (c1, MyGroupsResult.fetchFailed)
    | StoreRows.undecodable => (c1, MyGroupsResult.parseFailed)
    | StoreRows.rows groups =>
      let put := putListing c1 adminID groups nowPut
      if put.2 = true then (put.1, MyGroupsResult.listing groups groups.length false)
      else (put.1, MyGroupsResult.panicked)

/-! ## The participant directory and its cache -/

/-- A row of the store's student table (`select=id,student_id,student_name`). -/
structure StudentRecord where
  id : String
  student_id : String
  student_name : String
deriving DecidableEq

/-- An entry of the list view: the record with its default status. -/
structure StudentListItem where
  id : String
  student_id : String
  student_name : String
  status : String
deriving DecidableEq

/-- An entry of the full view: the record with status, distance, timestamp. -/
structure StudentFullItem (F : Type) where
  id : String
  student_id : String
  student_name : String
  status : String
  distance : F
  timestamp : String

/-- Source `studentCache`: `timestamp` is `none` for the zero `time.Time`, and
a nil `data` slice is the empty list. -/
structure StudentCache where
  data : List StudentListItem
  totalCount : Int
  timestamp : Option Int
deriving DecidableEq

/-- The cache at process start. -/
def StudentCache.init : StudentCache :=
  { data := [], totalCount := 0, timestamp := none }

/-- The constant `cacheDuration`, ten seconds. -/
def cacheDuration : Int := 10 * second

/-- Go `int` arithmetic: the 64-bit two's-complement value of an integer. -/
def wrapInt (x : Int) : Int :=
  (x + 2 ^ 63) % 2 ^ 64 - 2 ^ 63

/-- The `page` the handler works with: the parsed parameter when it is a
positive integer, 1 otherwise.  `atoi` is `strconv.Atoi`. -/
def effectivePage (atoi : String → Option Int) (pageStr : String) : Int :=
  if pageStr ≠ "" then
    match atoi pageStr with
    | some p => if p > 0 then p else 1
    | none => 1
  else 1

/-- The `limit` the handler works with: the parsed parameter when it lies in
1..200, 100 otherwise. -/
def effectiveLimit (atoi : String → Option Int) (limitStr : String) : Int :=
  if limitStr ≠ "" then
    match atoi limitStr with
    | some l => if l > 0 ∧ l ≤ 200 then l else 100
    | none => 100
  else 100

/-- The expression `(page - 1) * limit`. -/
def pageOffset (page limit : Int) : Int :=
  wrapInt ((page - 1) * limit)

/-- The page count both views report: `(total + limit - 1) / limit` when the
total is positive, 1 otherwise; Go division truncates toward zero. -/
def totalPagesOf (totalCount limit : Int) : Int :=
  if totalCount > 0 then Int.tdiv (wrapInt (totalCount + limit - 1)) limit else 1

/-- Answer of the store to the student query for a given limit and offset.
`total` is the count parsed from the `Content-Range` header, `none` when the
header is missing or malformed. -/
inductive StudentsReply where
  | transportError
  | badStatus
  | undecodable
  | rows (total : Option Int) (students : List StudentRecord)
deriving DecidableEq

/-- The `students` array of a response, in either view. -/
inductive StudentsPayload (F : Type) where
  | listView (items : List StudentListItem)
  | fullView (items : List (StudentFullItem F))

/-- The body of a successful `getAllStudentsHandler` response; `xCache` is the
`X-Cache` header (`some true` for `HIT`, `some false` for `MISS`, `none` when
the header is not set). -/
structure StudentsPage (F : Type) where
  students : StudentsPayload F
  count : Nat
  page : Int
  limit : Int
  hasMore : Bool
  totalPages : Int
  xCache : Option Bool

/-- Responses of `getAllStudentsHandler`. -/
inductive AllStudentsResult (F : Type) where
  | connectionError
  | fetchFailed
  | parseFailed
  | page (p : StudentsPage F)

/-- The loop body of the full view: status, distance and timestamp come from
the legacy globals `submittedStudents` and `studentLocations`. -/
def fullItem {F : Type} (L : Lib F) (submittedStudents : List (String × Bool))
    (studentLocations : List (String × StudentLocation F)) (student : StudentRecord) :
    StudentFullItem F :=
  let found : Option (StudentLocation F) :=
    if mapGet submittedStudents student.student_id = some true then
      mapGet studentLocations student.student_id
    else none
  match found with
  | some loc =>
    { id := student.id, student_id := student.student_id, student_name := student.student_name,
      status := loc.Status, distance := loc.Distance, timestamp := loc.Timestamp }
  | none =>
    { id := student.id, student_id := student.student_id, student_name := student.student_name,
      status := "Not Submitted", distance := L.ofNat 0, timestamp := "" }

/-- The loop body of the list view: the record with the default status. -/
def listItem (student : StudentRecord) : StudentListItem :=
  { id := student.id, student_id := student.student_id, student_name := student.student_name,
    status := "Not Submitted" }

/-- The cache test of `getAllStudentsHandler`: list view, page 1, a timestamp
that is not zero, `time.Since(timestamp)` below `cacheDuration`, and a cached
listing that is not empty. -/
def studentCacheHit (cache : StudentCache) (isListView : Bool) (page now : Int) : Bool :=
  if isListView = true ∧ page = 1 then
    match cache.timestamp with
    | some ts => decide (now - ts < cacheDuration ∧ cache.data.length > 0)
    | none => false
  else false

/-- Source `getAllStudentsHandler`.  `pageStr`, `limitStr`, `bust` and `view`
are the query parameters `page`, `limit`, `_t` and `view`; `store limit offset`
is the store's answer to the paginated query; `nowCheck` and `nowPut` are the
clock reads of the cache test and of the cache update; `submittedStudents` and
`studentLocations` are the legacy globals the full view reads.  The encoding
of the response body is not modelled. -/
def getAllStudentsHandler {F : Type} (L : Lib F) (atoi : String → Option Int)
    (cache : StudentCache) (submittedStudents : List (String × Bool))
    (studentLocations : List (String × StudentLocation F))
    (pageStr limitStr bust view : String) (store : Int → Int → StudentsReply)
    (nowCheck nowPut : Int) : StudentCache × AllStudentsResult F :=
  let page := effectivePage atoi pageStr
  let limit := effectiveLimit atoi limitStr
  let c1 : StudentCache :=
    if bust ≠ "" then { data := [], totalCount := 0, timestamp := none } else cache
  let offset := pageOffset page limit
  let isListView := decide (view = "list")
  if studentCacheHit c1 isListView page nowCheck = true then
    (c1, AllStudentsResult.page
      { students := StudentsPayload.listView c1.data, count := c1.data.length, page := page,
        limit := limit, hasMore := decide ((c1.data.length : Int) = limit),
        totalPages := totalPagesOf c1.totalCount limit, xCache := some true })
  else
    match store limit offset with
    | StudentsReply.transportError => (c1, AllStudentsResult.connectionError)
    | StudentsReply.badStatus => (c1, AllStudentsResult.fetchFailed)
    | StudentsReply.undecodable => (c1, AllStudentsResult.parseFailed)
    | StudentsReply.rows total students =>
      let totalCount := total.getD 0
      if isListView = true then
        let studentList : List StudentListItem := students.map listItem
        let c2 : StudentCache :=
          if page = 1 then
            { data := studentList, totalCount := totalCount, timestamp := some nowPut }
          else c1
        (c2, AllStudentsResult.page
          { students := StudentsPayload.listView studentList, count := studentList.length,
            page := page, limit := limit, hasMore := decide ((students.length : Int) = limit),
            totalPages := totalPagesOf totalCount limit, xCache := some false })
      else
        let studentList := students.map (fullItem L submittedStudents studentLocations)
        (c1, AllStudentsResult.page
          { students := StudentsPayload.fullView studentList, count := studentList.length,
            page := page, limit := limit, hasMore := decide ((students.length : Int) = limit),
            totalPages := totalPagesOf totalCount limit, xCache := none })

/-- Answer of the store to the insert of `addStudentHandler`: the request
fails, the status is neither 201 nor 200, the body is an array with that many
created rows, a single object, or neither. -/
inductive AddStudentReply where
  | transportError
  | badStatus
  | array (n : Nat)
  | single
  | unparsable
deriving DecidableEq

/-- Responses of `addStudentHandler`. -/
inductive AddStudentResult where
  | invalidJSON
  | missingFields
  | alreadyExists
  | connectionError
  | createFailed
  | parseFailed
  | noData
  | added
deriving DecidableEq

/-- Source `addStudentHandler`.  `body` is the decoded request (`none` when it
is not JSON), `existing` the number of rows the duplicate check decodes to
(`none` when the check fails or cannot be decoded), `reply` the answer to the
insert.  The source never mentions `studentCache`; the cache is threaded
through so that this can be stated. -/
def addStudentHandler (cache : StudentCache) (body : Option (String × String))
    (existing : Option Nat) (reply : AddStudentReply) : StudentCache × AddStudentResult :=
  match body with
  | none => (cache, AddStudentResult.invalidJSON)
  | some data =>
    if data.1 = "" ∨ data.2 = "" then (cache, AddStudentResult.missingFields) else
    if (existing.getD 0) > 0 then (cache, AddStudentResult.alreadyExists) else
    match reply with
    | AddStudentReply.transportError => (cache, AddStudentResult.connectionError)
    | AddStudentReply.badStatus => (cache, AddStudentResult.createFailed)
    | AddStudentReply.unparsable => (cache, AddStudentResult.parseFailed)
    | AddStudentReply.single => (cache, AddStudentResult.added)
    | AddStudentReply.array 0 => (cache, AddStudentResult.noData)
    | AddStudentReply.array (_ + 1) => (cache, AddStudentResult.added)

/-- A group-listing cache holding a listing for admin `a1` stored at second 10
and one for admin `a2` stored at second 20. -/
def demoCache : GroupsCache :=
  { data := some
      [("a1", [{ id := "g1", name := "Hall", status := "inactive", created_at := "d1" }]),
       ("a2", [])],
    timestamps := some [("a1", 10 * second), ("a2", 20 * second)] }

/-- A participant-directory cache filled at second 0 with the one-student
listing the store had then. -/
def demoStudentCache : StudentCache :=
  { data := [{ id := "u-1", student_id := "ST1", student_name := "Ann", status := "Not Submitted" }],
    totalCount := 1, timestamp := some 0 }

/-- The store once student `ST2` has been added: two students on every page. -/
def demoStudentStore : Int → Int → StudentsReply :=
  fun _ _ => StudentsReply.rows (some 2)
    [{ id := "u-1", student_id := "ST1", student_name := "Ann" },
     { id := "u-2", student_id := "ST2", student_name := "Bob" }]

/-! ## The audit log across operations -/

/-- The session keeps its audit log as it is: same file pointer, same writer,
same files with the same contents. -/
def SameLog {F : Type} (g g2 : GroupData F) : Prop :=
  g2.CSVFile = g.CSVFile ∧ g2.CSVWriter = g.CSVWriter ∧ g2.files = g.files

/-- The session gets a newly created audit log: one more file, holding the
header row only and open, to which both the file pointer and the writer now
refer; the files it had are untouched. -/
def FreshLog {F : Type} (g g2 : GroupData F) : Prop :=
  ∃ fname : String,
    g2.files = g.files ++ [{ name := fname, rows := [csvHeaders], closed := false }] ∧
    g2.CSVFile = some g.files.length ∧ g2.CSVWriter = some g.files.length

/-- The rows written through a writer, in order (nothing without a writer). -/
def applyRows (w : Option Nat) (files : List CsvFileObj) (rows : List (List String)) :
    List CsvFileObj :=
  match w with
  | some i => rows.foldl (fun fs r => writeRow fs i r) files
  | none => files

/-- Session `g3` with its center at (12, 77), threshold 50 and name `Quad`. -/
def centeredState : State Int :=
  run testLib (State.init Int) [Op.setCenter "g3" "12" "77" "Quad" "50" 0 true]

/-- Session `g3` of `centeredState`. -/
def centeredGroup : GroupData Int :=
  { ID := "g3", Name := "Quad", AdminID := "", AdminLat := 12, AdminLon := 77,
    ThresholdMeters := 50, WindowActive := false, WindowStartTime := 0,
    WindowEndTime := 0, GroupOnly := false,
    SubmittedStudents := [], StudentLocations := [],
    CSVFile := some 0, CSVWriter := some 0,
    files := [{ name := "Quad_0.csv", rows := [csvHeaders], closed := false }] }

/-- The row of the store read by `getAdminLocationHandler`
(`select=location_lat,location_lon,threshold_meters,name`); a null column is
`none`. -/
structure StoreCenter (F : Type) where
  location_lat : Option F
  location_lon : Option F
  threshold_meters : Option F
  name : String

/-- The legacy globals `adminLat`, `adminLon`, `sessionName`,
`thresholdMeters`, `attendanceActive`. -/
structure LegacyGlobals (F : Type) where
  adminLat : F
  adminLon : F
  sessionName : String
  thresholdMeters : F
  attendanceActive : Bool

/-- Responses of `getAdminLocationHandler`: the location answered (its
`threshold` is null when the store column is), or `Admin location not set`. -/
inductive AdminLocationResult (F : Type) where
  | location (lat lon : F) (session_name : String) (threshold : Option F)
      (window_active : Bool)
  | notSet

/-- The assignments `getAdminLocationHandler` makes to the session object when
the store returned a center: the coordinates, the threshold when the row has
one, the name when the row has a non-empty one. -/
def loadCenter {F : Type} (g : GroupData F) (lat lon : F) (r : StoreCenter F) : GroupData F :=
  let g1 := { g with AdminLat := lat, AdminLon := lon }
  let g2 :=
    match r.threshold_meters with
    | some t => { g1 with ThresholdMeters := t }
    | none => g1
  if r.name ≠ "" then { g2 with Name := r.name } else g2

/-- Source `getAdminLocationHandler`.  `nonZero x` is the Go test `x != 0`,
`legacy` the legacy globals, `row` the first row the store returns for the
group (`none` when the request fails, cannot be decoded or returns no row). -/
def getAdminLocationHandler {F : Type} (L : Lib F) (nonZero : F → Bool) (st : State F)
    (legacy : LegacyGlobals F) (groupIDraw : String) (row : Option (StoreCenter F)) :
    State F × AdminLocationResult F :=
  let groupID := effectiveGroupID groupIDraw
  let fromMemory : Option (AdminLocationResult F) :=
    match GetGroup st groupID with
    | some group =>
      if nonZero group.AdminLat = true ∧ nonZero group.AdminLon = true then
        some (AdminLocationResult.location group.AdminLat group.AdminLon group.Name
          (some group.ThresholdMeters) group.WindowActive)
      else none
    | none => none
  let fallback : State F × AdminLocationResult F :=
    if nonZero legacy.adminLat = false ∧ nonZero legacy.adminLon = false then
      (st, AdminLocationResult.notSet)
    else
      (st, AdminLocationResult.location legacy.adminLat legacy.adminLon legacy.sessionName
        (some legacy.thresholdMeters) legacy.attendanceActive)
  match fromMemory with
  | some resp => (st, resp)
  | none =>
    if groupID ≠ "default" then
      match row with
      | some r =>
        match r.location_lat, r.location_lon with
        | some lat, some lon =>
          if nonZero lat = true ∧ nonZero lon = true then
            let sg := GetOrCreateGroup L st groupID
            (storeGroup sg.1 groupID (loadCenter sg.2 lat lon r),
              AdminLocationResult.location lat lon r.name r.threshold_meters false)
          else fallback
        | _, _ => fallback
      | none => fallback
    else fallback

/-- The operations of a run together with the load of the center from the
store. -/
inductive ExtOp (F : Type) where
  | core (op : Op F)
  | adminLocation (nonZero : F → Bool) (legacy : LegacyGlobals F) (groupID : String)
      (row : Option (StoreCenter F))

/-- State after one operation of the extended kind. -/
def stepExt {F : Type} (L : Lib F) (st : State F) : ExtOp F → State F
  | ExtOp.core op => step L st op
  | ExtOp.adminLocation nonZero legacy g row =>
    (getAdminLocationHandler L nonZero st legacy g row).1

/-- State after a sequence of operations of the extended kind. -/
def runExt {F : Type} (L : Lib F) (st : State F) (ops : List (ExtOp F)) : State F :=
  ops.foldl (stepExt L) st

/-- The threshold of the session is at least zero (Go `0 <= t`). -/
def ThresholdNonneg {F : Type} (L : Lib F) (g : GroupData F) : Prop :=
  L.le (L.ofNat 0) g.ThresholdMeters = true

/-- Every threshold the operation supplies is at least zero: the threshold a
set-center parses, and the threshold column of the row a load of the center
reads. -/
def suppliesNonneg {F : Type} (L : Lib F) : ExtOp F → Prop
  | ExtOp.core (Op.setCenter _ _ _ _ thresholdStr _ _) =>
    ∀ x, L.scanFloat thresholdStr = some x → L.le (L.ofNat 0) x = true
  | ExtOp.adminLocation _ _ _ (some row) =>
    ∀ x, row.threshold_meters = some x → L.le (L.ofNat 0) x = true
  | _ => True

/-- Every session of the registry satisfies the property. -/
def AllGroups {F : Type} (P : GroupData F → Prop) (st : State F) : Prop :=
  ∀ e ∈ st.groups, P e.2

/-- A run in which the administrator sets a center with threshold `-5`. -/
def negativeThresholdOps : List (ExtOp Int) :=
  [ExtOp.core (Op.setCenter "g1" "0" "0" "Hall" "-5" 0 true)]

/-- A run in which the center of session `g2` is loaded from a store row whose
threshold is `-5`. -/
def negativeStoreOps : List (ExtOp Int) :=
  [ExtOp.adminLocation (fun x => decide (x ≠ 0))
    { adminLat := 0, adminLon := 0, sessionName := "", thresholdMeters := 0,
      attendanceActive := false }
    "g2"
    (some { location_lat := some 12, location_lon := some 77, threshold_meters := some (-5),
            name := "Quad" })]

/-- A run with thresholds that are not negative: a center set with threshold
`50`, a center loaded from the store with threshold `30`, a start, a submit
and a close. -/
def nonnegOps : List (ExtOp Int) :=
  [ ExtOp.core (Op.setCenter "g1" "0" "0" "Hall" "50" 0 true),
    ExtOp.adminLocation (fun x => decide (x ≠ 0))
      { adminLat := 0, adminLon := 0, sessionName := "", thresholdMeters := 0,
        attendanceActive := false }
      "g2"
      (some { location_lat := some 12, location_lon := some 77, threshold_meters := some 30,
              name := "Quad" }),
    ExtOp.core (Op.startWindow "g1" "true" none second second second (3 * second) true),
    ExtOp.core (Op.submit "g1" demoForm demoStore (5 * second)),
    ExtOp.core (Op.closeWindow "g1") ]

/-! ## The store calls of a submit -/

/-- What the identity request of `getStudentUUIDsByIDs` comes back with: an
error of the request, a status other than 200, a body that does not decode,
or the decoded rows as pairs (`student_id`, `id`). -/
inductive IdentityReply where
  | transportError
  | errorStatus
  | undecodable
  | rows (students : List (String × String))

/-- Source `getStudentUUIDsByIDs` on one id: the map built from the reply. -/
def getStudentUUIDsByIDs : IdentityReply → List (String × String)
  | IdentityReply.rows students => students.foldl (fun m s => mapSet m s.1 s.2) []
  | _ => []

/-- Source `getStudentUUIDByID`: the entry of the map, empty when missing. -/
def getStudentUUIDByID (reply : IdentityReply) (studentID : String) : String :=
  (mapGet (getStudentUUIDsByIDs reply) studentID).getD ""

/-- What the membership request of the submit handler comes back with: an
error of the request, a body that does not decode into a list (`results`
stays nil), or a list of `n` rows. -/
inductive MembershipReply where
  | transportError
  | undecodable
  | rows (n : Nat)

/-- The length of `results` after the membership request, `none` when
`err != nil`. -/
def membersOf : MembershipReply → Option Nat
  | MembershipReply.transportError => none
  | MembershipReply.undecodable => some 0
  | MembershipReply.rows n => some n

/-- The answers of the store during one submit, from the two replies. -/
def submitStoreOf (identity : IdentityReply) (membership : MembershipReply)
    (studentID : String) : SubmitStore :=
  { uuid := getStudentUUIDByID identity studentID, members := membersOf membership }

/-- The session `default` set up and started as members-only. -/
def defaultOnlyState : State Int :=
  run testLib (State.init Int)
    [ Op.setCenter "" "0" "0" "Hall" "50" 0 true,
      Op.startWindow "" "true" none second second second (3 * second) true ]

/-- The store knows the student and lists no membership row. -/
def nonMemberStore : SubmitStore :=
  { uuid := "u-1", members := some 0 }

/-- The identity request finds student `ST1`. -/
def demoIdentity : IdentityReply :=
  IdentityReply.rows [("ST1", "u-1")]

/-! ## Persistence after an acceptance -/

/-- How the attendance POST that follows an acceptance ends. -/
inductive PostOutcome where
  | succeeded
  | errorStatus
  | transportError
deriving DecidableEq

/-- What the store does during the persistence step of one submit: the reply
to the identity request and the end of the attendance POST. -/
structure PersistStore where
  identity : IdentityReply
  post : PostOutcome

/-- The body of the attendance POST. -/
structure AttendancePost (F : Type) where
  group_id : String
  student_id : String
  status : String
  distance : F
  latitude : F
  longitude : F

/-- The POST the submit handler issues after an acceptance: none for the
session `default`, none when the identity lookup gives an empty id. -/
def attendancePost {F : Type} (groupID : String) (loc : StudentLocation F)
    (identity : IdentityReply) : Option (AttendancePost F) :=
  if groupID ≠ "default" then
    let studentUUID := getStudentUUIDByID identity loc.StudentID
    if studentUUID ≠ "" then
      some { group_id := groupID, student_id := studentUUID, status := loc.Status,
             distance := loc.Distance, latitude := loc.Latitude, longitude := loc.Longitude }
    else none
  else none

/-- Source `submitAttendanceHandler` with its persistence step: the registry
afterwards, the response, and the POST issued together with how it ended.
The handler discards what `http.DefaultClient.Do` returns. -/
def submitAttendanceWithStore {F : Type} (L : Lib F) (st : State F) (groupIDraw : String)
    (form : SubmitForm) (store : SubmitStore) (persist : PersistStore) (now : Int) :
    State F × SubmitResult × Option (AttendancePost F × PostOutcome) :=
  let groupID := effectiveGroupID groupIDraw
  let r := submitAttendanceHandler L st groupIDraw form store now
  match r.2 with
  | SubmitResult.accepted _ _ _ =>
    match (GetGroup r.1 groupID).bind (fun g => mapGet g.StudentLocations form.student_id) with
    | some loc =>
      match attendancePost groupID loc persist.identity with
      | some post => (r.1, r.2, some (post, persist.post))
      | none => (r.1, r.2, none)
    | none => (r.1, r.2, none)
  | _ => (r.1, r.2, none)

/-! ## Two submit calls running at once

Each call of `submitAttendanceHandler` goes through three sections that touch
shared memory: the lookup of the session under the read lock of the registry,
the read of `WindowActive` and `GroupOnly` under the read lock of the session,
and the section under the exclusive lock of the session (coordinates,
duplicate check, recording).  The window check and the membership gate between
the second and the third work on the call's own copies.  A section runs as one
step; a schedule says which call takes the next step. -/

/-- One submit request: the parameters, the answers of the store and the
clock read of the locked section. -/
structure SubmitCall where
  groupIDraw : String
  form : SubmitForm
  store : SubmitStore
  now : Int

/-- How far a call has got: before the lookup, holding the session pointer,
holding its copies of the two flags, or answered. -/
inductive Progress where
  | start
  | found
  | flags (windowActive groupOnly : Bool)
  | done (r : SubmitResult)
deriving DecidableEq

/-- Number of sections a call has been through. -/
def Progress.rank : Progress → Nat
  | Progress.start => 0
  | Progress.found => 1
  | Progress.flags _ _ => 2
  | Progress.done _ => 3

/-- One section of a call on the shared registry.  The call keeps the session
by pointer; the registry is not changed by submits, so the pointer is read
through the id, and the branches for a session that has gone are fillers. -/
def submitAdvance {F : Type} (L : Lib F) (st : State F) (c : SubmitCall) :
    Progress → State F × Progress
  | Progress.start =>
    match GetGroup st (effectiveGroupID c.groupIDraw) with
    | none => (st, Progress.done SubmitResult.groupNotFound)
    | some _ => (st, Progress.found)
  | Progress.found =>
    match GetGroup st (effectiveGroupID c.groupIDraw) with
    | none => (st, Progress.done SubmitResult.groupNotFound)
    | some group => (st, Progress.flags group.WindowActive group.GroupOnly)
  | Progress.flags windowActive groupOnly =>
    if windowActive = false then (st, Progress.done SubmitResult.windowClosed) else
    match memberGate groupOnly (effectiveGroupID c.groupIDraw) c.store with
    | some r => (st, Progress.done r)
    | none =>
      match GetGroup st (effectiveGroupID c.groupIDraw) with
      | none => (st, Progress.done SubmitResult.groupNotFound)
      | some group =>
        let res := submitLocked L group c.form c.now
        (storeGroup st (effectiveGroupID c.groupIDraw) res.1, Progress.done res.2)
  | Progress.done r => (st, Progress.done r)

/-- The shared registry and the progress of the two calls. -/
structure Config (F : Type) where
  st : State F
  a : Progress
  b : Progress

/-- One step of the pair: `true` lets the first call run its next section,
`false` the second. -/
def pairStep {F : Type} (L : Lib F) (ca cb : SubmitCall) (cfg : Config F) (pick : Bool) :
    Config F :=
  if pick = true then
    let r := submitAdvance L cfg.st ca cfg.a
    { cfg with st := r.1, a := r.2 }
  else
    let r := submitAdvance L cfg.st cb cfg.b
    { cfg with st := r.1, b := r.2 }

/-- The pair under a schedule. -/
def interleave {F : Type} (L : Lib F) (ca cb : SubmitCall) (cfg : Config F)
    (sched : List Bool) : Config F :=
  sched.foldl (pairStep L ca cb) cfg

/-- A call run alone. -/
def submitAlone {F : Type} (L : Lib F) (st : State F) (c : SubmitCall) : State F × SubmitResult :=
  submitAttendanceHandler L st c.groupIDraw c.form c.store c.now

/-- The call is still on its way and what it holds agrees with session `g`. -/
def Pending {F : Type} (g : GroupData F) : Progress → Prop
  | Progress.start => True
  | Progress.found => True
  | Progress.flags windowActive groupOnly =>
    windowActive = g.WindowActive ∧ groupOnly = g.GroupOnly
  | Progress.done _ => False

/-- The configuration is what some order of the two calls, each run alone,
gives for the calls that have answered. -/
def Linear {F : Type} (L : Lib F) (ca cb : SubmitCall) (st : State F) (g : GroupData F)
    (cfg : Config F) : Prop :=
  (cfg.st = st ∧ Pending g cfg.a ∧ Pending g cfg.b) ∨
  (cfg.st = (submitAlone L st ca).1 ∧ cfg.a = Progress.done (submitAlone L st ca).2 ∧
    Pending g cfg.b) ∨
  (cfg.st = (submitAlone L st cb).1 ∧ Pending g cfg.a ∧
    cfg.b = Progress.done (submitAlone L st cb).2) ∨
  (cfg.st = (submitAlone L (submitAlone L st ca).1 cb).1 ∧
    cfg.a = Progress.done (submitAlone L st ca).2 ∧
    cfg.b = Progress.done (submitAlone L (submitAlone L st ca).1 cb).2) ∨
  (cfg.st = (submitAlone L (submitAlone L st cb).1 ca).1 ∧
    cfg.a = Progress.done (submitAlone L (submitAlone L st cb).1 ca).2 ∧
    cfg.b = Progress.done (submitAlone L st cb).2)

/-- Two calls started together on registry `st` and run under a schedule. -/
def runPair {F : Type} (L : Lib F) (st : State F) (ca cb : SubmitCall) (sched : List Bool) :
    Config F :=
  interleave L ca cb { st := st, a := Progress.start, b := Progress.start } sched

/-- Student `ST1` submits to session `g1`. -/
def callAnn : SubmitCall :=
  { groupIDraw := "g1", form := demoForm, store := demoStore, now := 5 * second }

/-- Student `ST2` submits to session `g1`. -/
def callBob : SubmitCall :=
  { groupIDraw := "g1",
    form := { student_name := "Bob", student_id := "ST2", lat := "0", lon := "0" },
    store := { uuid := "u-2", members := some 1 }, now := 6 * second }

/-- Student `ST1` submits to session `g1` a second time, from another device. -/
def callAnnAgain : SubmitCall :=
  { groupIDraw := "g1", form := demoForm, store := demoStore, now := 6 * second }

/-- Both calls look the session up and read the flags before either enters
its locked section; the second call enters first. -/
def crossedSchedule : List Bool :=
  [true, false, true, false, false, true]

/-! ## Distance of a point to itself -/

/-- The facts about the arithmetic that make `haversine` return zero for a
point against itself.  `cos_mul_zero` is the one that depends on the latitude:
the product of the two cosines with zero has to be zero. -/
structure SelfDistanceLaws {F : Type} (L : Lib F) (lat lon : F) : Prop where
  sub_lat : L.sub lat lat = L.ofNat 0
  sub_lon : L.sub lon lon = L.ofNat 0
  zero_angle : L.div (L.mul (L.ofNat 0) L.pi) (L.ofNat 180) = L.ofNat 0
  half_zero : L.div (L.ofNat 0) (L.ofNat 2) = L.ofNat 0
  sin_zero : L.sin (L.ofNat 0) = L.ofNat 0
  zero_mul_zero : L.mul (L.ofNat 0) (L.ofNat 0) = L.ofNat 0
  cos_mul_zero :
    L.mul (L.mul (L.mul (L.cos (L.div (L.mul lat L.pi) (L.ofNat 180)))
      (L.cos (L.div (L.mul lat L.pi) (L.ofNat 180)))) (L.ofNat 0)) (L.ofNat 0) = L.ofNat 0
  add_zero : L.add (L.ofNat 0) (L.ofNat 0) = L.ofNat 0
  sqrt_zero : L.sqrt (L.ofNat 0) = L.ofNat 0
  one_sub_zero : L.sub (L.ofNat 1) (L.ofNat 0) = L.ofNat 1
  sqrt_one : L.sqrt (L.ofNat 1) = L.ofNat 1
  atan2_zero : L.atan2 (L.ofNat 0) (L.ofNat 1) = L.ofNat 0
  two_mul_zero : L.mul (L.ofNat 2) (L.ofNat 0) = L.ofNat 0
  radius_mul_zero : L.mul (L.ofNat 6371000) (L.ofNat 0) = L.ofNat 0

/-! ## The full view and the legacy globals -/

/-- The global `submittedStudents`: `main` makes it empty and nothing in the
program writes to it afterwards. -/
def legacySubmittedStudents : List (String × Bool) := []

/-- The global `studentLocations`: `main` makes it empty and nothing in the
program writes to it afterwards. -/
def legacyStudentLocations (F : Type) : List (String × StudentLocation F) := []

/-- The body of a response of `getAllStudentsHandler`, when it has one. -/
def pageOf {F : Type} : AllStudentsResult F → Option (StudentsPage F)
  | AllStudentsResult.page p => some p
  | _ => none

/-- Id, status, distance and timestamp of every student of a full-view
response. -/
def fullViewRows {F : Type} : AllStudentsResult F → List (String × String × F × String)
  | AllStudentsResult.page p =>
    match p.students with
    | StudentsPayload.fullView items =>
      items.map (fun i => (i.student_id, i.status, i.distance, i.timestamp))
    | StudentsPayload.listView _ => []
  | _ => []

/-- A store with three students that honours limit and offset. -/
def threeStudentStore : Int → Int → StudentsReply :=
  fun limit offset => StudentsReply.rows (some 3)
    (([{ id := "u-1", student_id := "ST1", student_name := "Ann" },
       { id := "u-2", student_id := "ST2", student_name := "Bob" },
       { id := "u-3", student_id := "ST3", student_name := "Cy" }].drop offset.toNat).take
      limit.toNat)

/-! ## Pagination -/

/-- A stand-in for `strconv.Atoi` on decimal text: the value when it fits the
64-bit `int`, an error otherwise. -/
def goAtoi (s : String) : Option Int :=
  match scanInt s with
  | some n => if -(2 ^ 63) ≤ n ∧ n < 2 ^ 63 then some n else none
  | none => none

/-! ## Visible windows -/

/-- Session `g`, registered under `gid`, has an active window the student may
use: the student is a member of the session or the window is open to all. -/
def VisibleWindow {F : Type} (st : State F) (ms : List (Option String)) (gid : String)
    (g : GroupData F) : Prop :=
  mapGet st.groups gid = some g ∧ g.WindowActive = true ∧ (some gid ∈ ms ∨ g.GroupOnly = false)

/-- The entry `w` of the `activeWindows` slice describes session `g` inspected
at `clock gid`. -/
def Shows {F : Type} (clock : String → Int) (w : ActiveWindow) (gid : String)
    (g : GroupData F) : Prop :=
  w.group_id = gid ∧ w.group_name = g.Name ∧
    w.remaining_seconds = remainingSeconds g.WindowStartTime (clock gid)

/-- The `activeWindows` slice the student branch builds. -/
def activeWindowsOf {F : Type} (st : State F) (ms : List (Option String))
    (clock : String → Int) : List ActiveWindow :=
  openWindows clock st.groups (memberWindows st clock ms [])

/-- Session `g1` members-only and started at second 1, session `g2` open to
all and started at second 31. -/
def twoWindowState : State Int :=
  run testLib (State.init Int)
    (demoStart ++
      [ Op.setCenter "g2" "0" "0" "Lab" "50" (30 * second) true,
        Op.startWindow "g2" "false" none (31 * second) (31 * second) (31 * second)
          (33 * second) true ])

/-! ## The record of a participant across operations -/

/-- The slice with every entry dropped whose group id occurred earlier (or is
in `seen`): each session listed once, in the order first found. -/
def firstById : List ActiveWindow → List String → List ActiveWindow
  | [], _ => []
  | w :: rest, seen =>
    if w.group_id ∈ seen then firstById rest seen
    else w :: firstById rest (w.group_id :: seen)

/-! ## File objects and paths -/

/-- Every file object of the registry, session by session, in creation
order. -/
def allFiles {F : Type} (st : State F) : List CsvFileObj :=
  (st.groups.map (fun e => e.2.files)).flatten

/-- No two file objects of the registry have the same path: no `os.Create` of
the run so far has hit a path used by an earlier one, so no log has been
truncated under a handle. -/
def PathsApart {F : Type} (st : State F) : Prop :=
  ((allFiles st).map (fun f => f.name)).Nodup

/-- Two sessions without a name, started in the same second. -/
def sharedPathOps : List (Op Int) :=
  [ Op.startWindow "ga" "false" none second second second second true,
    Op.startWindow "gb" "false" none second second second second true ]

/-! # Theorems -/

/-! ## Map lemmas -/

theorem mapGet_mapSet_self {V : Type} (m : List (String × V)) (k : String) (v : V) :
    mapGet (mapSet m k v) k = some v := by
  induction m with
  | nil => simp [mapSet, mapGet]
  | cons e rest ih =>
    by_cases h : e.1 = k
    · simp [mapSet, mapGet, h]
    · simp [mapSet, mapGet, h, ih]

theorem mapGet_mapSet_ne {V : Type} (m : List (String × V)) (k k2 : String) (v : V)
    (hne : k ≠ k2) : mapGet (mapSet m k v) k2 = mapGet m k2 := by
  induction m with
  | nil => simp [mapSet, mapGet, hne]
  | cons e rest ih =>
    by_cases h : e.1 = k
    · have h2 : ¬ e.1 = k2 := fun h3 => hne (h.symm.trans h3)
      simp [mapSet, mapGet, h, h2, hne]
    · by_cases h2 : e.1 = k2
      · simp only [mapSet, if_neg h, mapGet, if_pos h2]
      · simp only [mapSet, if_neg h, mapGet, if_neg h2, ih]

theorem mapSet_of_mapGet {V : Type} (m : List (String × V)) (k : String) (v : V)
    (hget : mapGet m k = some v) : mapSet m k v = m := by
  induction m with
  | nil => simp [mapGet] at hget
  | cons e rest ih =>
    by_cases h : e.1 = k
    · simp [mapGet, h] at hget
      have he : e = (k, v) := Prod.ext h hget
      simp [mapSet, h, he]
    · simp [mapGet, h] at hget
      simp [mapSet, h, ih hget]

theorem mem_mapSet {V : Type} (m : List (String × V)) (k : String) (v : V) (e : String × V)
    (he : e ∈ mapSet m k v) : e = (k, v) ∨ e ∈ m := by
  induction m with
  | nil => simpa [mapSet] using he
  | cons a rest ih =>
    by_cases h : a.1 = k
    · simp [mapSet, h] at he
      rcases he with he | he
      · exact Or.inl he
      · exact Or.inr (List.mem_cons_of_mem _ he)
    · simp [mapSet, h] at he
      rcases he with he | he
      · exact Or.inr (by simp [he])
      · rcases ih he with h2 | h2
        · exact Or.inl h2
        · exact Or.inr (List.mem_cons_of_mem _ h2)

theorem mem_of_mapGet {V : Type} (m : List (String × V)) (k : String) (v : V)
    (hget : mapGet m k = some v) : (k, v) ∈ m := by
  induction m with
  | nil => simp [mapGet] at hget
  | cons e rest ih =>
    by_cases h : e.1 = k
    · simp [mapGet, h] at hget
      have he : e = (k, v) := Prod.ext h hget
      simp [he]
    · simp [mapGet, h] at hget
      exact List.mem_cons_of_mem _ (ih hget)

theorem mem_mapKeys_iff {V : Type} (m : List (String × V)) (k : String) :
    k ∈ mapKeys m ↔ (mapGet m k).isSome = true := by
  induction m with
  | nil => simp [mapKeys, mapGet]
  | cons e rest ih =>
    by_cases h : e.1 = k
    · simp [mapKeys, mapGet, h]
    · have ih2 : k ∈ List.map Prod.fst rest ↔ (mapGet rest k).isSome = true := ih
      have h3 : ¬ k = e.1 := fun h4 => h h4.symm
      simp only [mapKeys, mapGet, h, List.map_cons, List.mem_cons, h3, false_or, if_false]
      exact ih2

theorem mem_mapKeys_mapSet {V : Type} (m : List (String × V)) (k p : String) (v : V) :
    p ∈ mapKeys (mapSet m k v) ↔ p = k ∨ p ∈ mapKeys m := by
  rw [mem_mapKeys_iff, mem_mapKeys_iff]
  by_cases h : k = p
  · subst h
    simp [mapGet_mapSet_self]
  · have h2 : ¬ p = k := fun h3 => h h3.symm
    simp [mapGet_mapSet_ne m k p v h, h2]

/-! ## The ledger and the locations: lemmas -/

theorem ledgerMatches_congr {F : Type} (g g2 : GroupData F)
    (h1 : g2.StudentLocations = g.StudentLocations)
    (h2 : g2.SubmittedStudents = g.SubmittedStudents) (h : LedgerMatches g) :
    LedgerMatches g2 := by
  intro p
  have := h p
  simpa [GroupData.hasSubmitted, h1, h2] using this

theorem ledgerMatches_empty {F : Type} (g : GroupData F) (h1 : g.StudentLocations = [])
    (h2 : g.SubmittedStudents = []) : LedgerMatches g := by
  intro p
  simp [GroupData.hasSubmitted, h1, h2, mapKeys, mapGet]

theorem hasSubmitted_mapSet {F : Type} (g : GroupData F) (k p : String) :
    (mapGet (mapSet g.SubmittedStudents k true) p).getD false = true ↔
      p = k ∨ g.hasSubmitted p = true := by
  by_cases h : k = p
  · subst h
    simp [mapGet_mapSet_self]
  · have h2 : ¬ p = k := fun h3 => h h3.symm
    simp [mapGet_mapSet_ne _ k p true h, h2, GroupData.hasSubmitted]

theorem ledgerMatches_record {F : Type} (g g2 : GroupData F) (k : String)
    (loc : StudentLocation F)
    (h1 : g2.StudentLocations = mapSet g.StudentLocations k loc)
    (h2 : g2.SubmittedStudents = mapSet g.SubmittedStudents k true) (h : LedgerMatches g) :
    LedgerMatches g2 := by
  intro p
  have hp := h p
  unfold GroupData.hasSubmitted
  rw [h1, h2, mem_mapKeys_mapSet, hasSubmitted_mapSet, hp]

theorem allLedgersMatch_storeGroup {F : Type} (st : State F) (gid : String) (g : GroupData F)
    (hst : AllLedgersMatch st) (hg : LedgerMatches g) :
    AllLedgersMatch (storeGroup st gid g) := by
  intro e he
  rcases mem_mapSet st.groups gid g e he with h | h
  · rw [h]; exact hg
  · exact hst e h

theorem ledgerMatches_of_getGroup {F : Type} (st : State F) (gid : String) (g : GroupData F)
    (hst : AllLedgersMatch st) (hget : GetGroup st gid = some g) : LedgerMatches g :=
  hst (gid, g) (mem_of_mapGet st.groups gid g hget)

theorem allLedgersMatch_getOrCreate {F : Type} (L : Lib F) (st : State F) (gid : String)
    (hst : AllLedgersMatch st) :
    AllLedgersMatch (GetOrCreateGroup L st gid).1 ∧ LedgerMatches (GetOrCreateGroup L st gid).2 := by
  unfold GetOrCreateGroup
  cases hget : mapGet st.groups gid with
  | some g => exact ⟨hst, ledgerMatches_of_getGroup st gid g hst hget⟩
  | none =>
    have hnew : LedgerMatches (newGroup L gid) := ledgerMatches_empty _ rfl rfl
    exact ⟨allLedgersMatch_storeGroup st gid _ hst hnew, hnew⟩


/-! ## Each handler keeps the ledger and the locations in step -/

theorem startGroup_maps {F : Type} (L : Lib F) (g : GroupData F) (groupID groupOnlyStr : String)
    (dbMeta : Option (String × String)) (nowStart nowEnd nowFile : Int) (createOk : Bool) :
    (startGroup L g groupID groupOnlyStr dbMeta nowStart nowEnd nowFile createOk).StudentLocations
        = [] ∧
    (startGroup L g groupID groupOnlyStr dbMeta nowStart nowEnd nowFile createOk).SubmittedStudents
        = [] := by
  unfold startGroup
  constructor <;> (simp only []; split <;> [rfl; (split <;> rfl)])

theorem allLedgersMatch_setCenter {F : Type} (L : Lib F) (st : State F)
    (groupIDraw latStr lonStr sessionName thresholdStr : String) (now : Int) (createOk : Bool)
    (hst : AllLedgersMatch st) :
    AllLedgersMatch
      (setCenterHandler L st groupIDraw latStr lonStr sessionName thresholdStr now createOk).1 := by
  have hsg := allLedgersMatch_getOrCreate L st (effectiveGroupID groupIDraw) hst
  unfold setCenterHandler
  simp only []
  split_ifs <;>
    exact allLedgersMatch_storeGroup _ _ _ hsg.1 (ledgerMatches_congr _ _ rfl rfl hsg.2)

theorem allLedgersMatch_startWindow {F : Type} (L : Lib F) (st : State F)
    (groupIDraw groupOnlyStr : String) (dbMeta : Option (String × String))
    (nowStart nowEnd nowFile nowSpawn : Int) (createOk : Bool) (hst : AllLedgersMatch st) :
    AllLedgersMatch
      (startWindowHandler L st groupIDraw groupOnlyStr dbMeta nowStart nowEnd nowFile nowSpawn
        createOk) := by
  have hsg := allLedgersMatch_getOrCreate L st (effectiveGroupID groupIDraw) hst
  have hmaps := startGroup_maps L (GetOrCreateGroup L st (effectiveGroupID groupIDraw)).2
    (effectiveGroupID groupIDraw) groupOnlyStr dbMeta nowStart nowEnd nowFile createOk
  exact allLedgersMatch_storeGroup _ _ _ hsg.1 (ledgerMatches_empty _ hmaps.1 hmaps.2)

theorem allLedgersMatch_autoClose {F : Type} (st : State F) (gID : String)
    (hst : AllLedgersMatch st) : AllLedgersMatch (autoClose st gID) := by
  unfold autoClose
  cases hget : GetGroup st gID with
  | none => exact hst
  | some g =>
    exact allLedgersMatch_storeGroup _ _ _ hst
      (ledgerMatches_congr _ _ rfl rfl (ledgerMatches_of_getGroup st gID g hst hget))

theorem allLedgersMatch_timer {F : Type} (st : State F) (i : Nat) (now : Int)
    (hst : AllLedgersMatch st) : AllLedgersMatch ((timerFire st i now).getD st) := by
  unfold timerFire
  cases st.timers.get? i with
  | none => exact hst
  | some t =>
    simp only []
    split_ifs
    · exact allLedgersMatch_autoClose _ _ hst
    · exact hst

theorem allLedgersMatch_closeWindow {F : Type} (st : State F) (groupIDraw : String)
    (hst : AllLedgersMatch st) : AllLedgersMatch (closeWindowHandler st groupIDraw).1 := by
  unfold closeWindowHandler
  simp only []
  cases hget : GetGroup st (effectiveGroupID groupIDraw) with
  | none => exact hst
  | some g =>
    have hg := ledgerMatches_of_getGroup st _ g hst hget
    simp only []
    apply allLedgersMatch_storeGroup _ _ _ hst
    cases g.CSVFile <;> exact ledgerMatches_congr _ _ rfl rfl hg

theorem ledgerMatches_submitLocked {F : Type} (L : Lib F) (g : GroupData F) (form : SubmitForm)
    (now : Int) (hg : LedgerMatches g) : LedgerMatches (submitLocked L g form now).1 := by
  unfold submitLocked
  simp only []
  split_ifs
  · exact hg
  · exact hg
  · exact hg
  · exact ledgerMatches_record g _ form.student_id _ rfl rfl hg

theorem allLedgersMatch_submit {F : Type} (L : Lib F) (st : State F) (groupIDraw : String)
    (form : SubmitForm) (store : SubmitStore) (now : Int) (hst : AllLedgersMatch st) :
    AllLedgersMatch (submitAttendanceHandler L st groupIDraw form store now).1 := by
  unfold submitAttendanceHandler
  simp only []
  cases hget : GetGroup st (effectiveGroupID groupIDraw) with
  | none => exact hst
  | some g =>
    simp only []
    split_ifs
    · exact hst
    · cases memberGate g.GroupOnly (effectiveGroupID groupIDraw) store with
      | some r => exact hst
      | none =>
        exact allLedgersMatch_storeGroup _ _ _ hst
          (ledgerMatches_submitLocked L g form now (ledgerMatches_of_getGroup st _ g hst hget))

theorem allLedgersMatch_statusByGroup {F : Type} (L : Lib F) (st : State F)
    (groupIDraw : String) (restore : Option RestoreRow) (nowRestore nowAfter nowSince : Int)
    (hst : AllLedgersMatch st) :
    AllLedgersMatch (statusByGroup L st groupIDraw restore nowRestore nowAfter nowSince).1 := by
  have hsg := allLedgersMatch_getOrCreate L st (effectiveGroupID groupIDraw) hst
  unfold statusByGroup
  simp only []
  cases hget : GetGroup st (effectiveGroupID groupIDraw) with
  | some g =>
    have hg := ledgerMatches_of_getGroup st _ g hst hget
    simp only []
    split_ifs
    · exact allLedgersMatch_storeGroup _ _ _ hst (ledgerMatches_congr _ _ rfl rfl hg)
    · exact hst
    · exact hst
  | none =>
    simp only []
    split_ifs with hd
    · cases restore with
      | none => exact hst
      | some r =>
        have hr : LedgerMatches
            { (GetOrCreateGroup L st (effectiveGroupID groupIDraw)).2 with
              Name := r.name, WindowStartTime := r.startTime, WindowEndTime := r.endTime,
              WindowActive := decide (nowRestore < r.endTime) } :=
          ledgerMatches_congr _ _ rfl rfl hsg.2
        have hst1 := allLedgersMatch_storeGroup _ (effectiveGroupID groupIDraw) _ hsg.1 hr
        simp only []
        split_ifs
        · exact allLedgersMatch_storeGroup _ _ _ hst1 (ledgerMatches_congr _ _ rfl rfl hr)
        · exact hst1
        · exact hst1
    · exact hst

theorem allLedgersMatch_status {F : Type} (L : Lib F) (st : State F) (studentID uuid : String)
    (memberships : Option (List (Option String))) (clock : String → Int)
    (groupIDraw : String) (restore : Option RestoreRow) (nowRestore nowAfter nowSince : Int)
    (hst : AllLedgersMatch st) :
    AllLedgersMatch
      (getWindowStatusHandler L st studentID uuid memberships clock groupIDraw restore
        nowRestore nowAfter nowSince).1 := by
  unfold getWindowStatusHandler
  cases statusByStudent st studentID uuid memberships clock with
  | some resp => exact hst
  | none => exact allLedgersMatch_statusByGroup L st groupIDraw restore _ _ _ hst

theorem ledgerMatches_loadRecords {F : Type} (records : List (StudentLocation F))
    (g : GroupData F) (hg : LedgerMatches g) : LedgerMatches (loadRecords g records) := by
  induction records generalizing g with
  | nil => exact hg
  | cons loc rest ih =>
    exact ih _ (ledgerMatches_record g _ loc.StudentID loc rfl rfl hg)

theorem allLedgersMatch_studentLocations {F : Type} (L : Lib F) (st : State F)
    (groupIDraw : String) (dbRecords : Option (List (StudentLocation F)))
    (hst : AllLedgersMatch st) :
    AllLedgersMatch (getAllStudentLocationsHandler L st groupIDraw dbRecords).1 := by
  have hsg := allLedgersMatch_getOrCreate L st (effectiveGroupID groupIDraw) hst
  have key : ∀ (st1 : State F) (g : GroupData F), AllLedgersMatch st1 → LedgerMatches g →
      AllLedgersMatch (storeGroup st1 (effectiveGroupID groupIDraw)
        (if g.StudentLocations.length = 0 ∧ effectiveGroupID groupIDraw ≠ "default" then
          match dbRecords with
          | some records => loadRecords g records
          | none => g
        else g)) := by
    intro st1 g h1 hg
    apply allLedgersMatch_storeGroup _ _ _ h1
    split_ifs
    · cases dbRecords with
      | none => exact hg
      | some records => exact ledgerMatches_loadRecords records g hg
    · exact hg
  unfold getAllStudentLocationsHandler
  simp only []
  cases hget : GetGroup st (effectiveGroupID groupIDraw) with
  | some g => exact key st g hst (ledgerMatches_of_getGroup st _ g hst hget)
  | none =>
    simp only []
    split_ifs
    · exact key _ _ hsg.1 hsg.2
    · exact hst

theorem allLedgersMatch_step {F : Type} (L : Lib F) (st : State F) (op : Op F)
    (hst : AllLedgersMatch st) : AllLedgersMatch (step L st op) := by
  cases op with
  | setCenter g lat lon name thr now ok => exact allLedgersMatch_setCenter L st _ _ _ _ _ _ _ hst
  | startWindow g only dbMeta n1 n2 n3 n4 ok =>
    exact allLedgersMatch_startWindow L st _ _ _ _ _ _ _ _ hst
  | closeWindow g => exact allLedgersMatch_closeWindow st _ hst
  | submit g form store now => exact allLedgersMatch_submit L st _ _ _ _ hst
  | windowStatus sid uuid ms clock g restore n1 n2 n3 =>
    exact allLedgersMatch_status L st _ _ _ _ _ _ _ _ _ hst
  | studentLocations g recs => exact allLedgersMatch_studentLocations L st _ _ hst
  | timer i now => exact allLedgersMatch_timer st i now hst

theorem allLedgersMatch_run {F : Type} (L : Lib F) (ops : List (Op F)) (st : State F)
    (hst : AllLedgersMatch st) : AllLedgersMatch (run L st ops) := by
  induction ops generalizing st with
  | nil => exact hst
  | cons op rest ih => exact ih _ (allLedgersMatch_step L st op hst)


/-! ## Submission: shape of the handler -/

theorem storeGroup_self {F : Type} (st : State F) (gid : String) (g : GroupData F)
    (hget : GetGroup st gid = some g) : storeGroup st gid g = st := by
  unfold storeGroup
  rw [mapSet_of_mapGet st.groups gid g hget]

theorem getGroup_storeGroup_self {F : Type} (st : State F) (gid : String) (g : GroupData F) :
    GetGroup (storeGroup st gid g) gid = some g :=
  mapGet_mapSet_self st.groups gid g

theorem getGroup_storeGroup_ne {F : Type} (st : State F) (gid gid2 : String) (g : GroupData F)
    (hne : gid ≠ gid2) : GetGroup (storeGroup st gid g) gid2 = GetGroup st gid2 :=
  mapGet_mapSet_ne st.groups gid gid2 g hne

/-- Past the window check and the membership gate the handler is the locked
part applied to the group found in the registry. -/
theorem submit_of_open {F : Type} (L : Lib F) (st : State F) (groupIDraw : String)
    (form : SubmitForm) (store : SubmitStore) (now : Int) (g : GroupData F)
    (hget : GetGroup st (effectiveGroupID groupIDraw) = some g) (hact : g.WindowActive = true)
    (hgate : memberGate g.GroupOnly (effectiveGroupID groupIDraw) store = none) :
    submitAttendanceHandler L st groupIDraw form store now =
      (storeGroup st (effectiveGroupID groupIDraw) (submitLocked L g form now).1,
        (submitLocked L g form now).2) := by
  unfold submitAttendanceHandler
  simp [hget, hact, hgate]

/-- The locked part on a request it accepts. -/
theorem submitLocked_accept {F : Type} (L : Lib F) (g : GroupData F) (form : SubmitForm)
    (now : Int) (lat lon : F) (hlat : L.scanFloat form.lat = some lat)
    (hlon : L.scanFloat form.lon = some lon) (hnew : g.hasSubmitted form.student_id = false) :
    submitLocked L g form now =
      ({ g with
          files :=
            match g.CSVWriter with
            | some w =>
              writeRow g.files w [form.student_name, L.fmtStamp now,
                L.fmt0 (haversine L g.AdminLat g.AdminLon lat lon)]
            | none => g.files,
          StudentLocations := mapSet g.StudentLocations form.student_id
            { StudentID := form.student_id, StudentName := form.student_name, Latitude := lat,
              Longitude := lon, Distance := haversine L g.AdminLat g.AdminLon lat lon,
              Timestamp := L.fmtStamp now,
              Status := classify L (haversine L g.AdminLat g.AdminLon lat lon) g.ThresholdMeters },
          SubmittedStudents := mapSet g.SubmittedStudents form.student_id true },
        SubmitResult.accepted
          (classify L (haversine L g.AdminLat g.AdminLon lat lon) g.ThresholdMeters)
          (L.fmt0 (haversine L g.AdminLat g.AdminLon lat lon)) (L.fmtStamp now)) := by
  unfold submitLocked
  simp [parseFloat, hlat, hlon, hnew]

/-- The locked part on a duplicate with well-formed coordinates. -/
theorem submitLocked_duplicate {F : Type} (L : Lib F) (g : GroupData F) (form : SubmitForm)
    (now : Int) (hlat : (parseFloat L form.lat).2 = true)
    (hlon : (parseFloat L form.lon).2 = true) (hdup : g.hasSubmitted form.student_id = true) :
    submitLocked L g form now = (g, SubmitResult.alreadySubmitted) := by
  unfold submitLocked
  simp [hlat, hlon, hdup]

/-- The locked part returns the group untouched unless it accepts, and it
accepts only new participants with well-formed coordinates. -/
theorem submitLocked_cases {F : Type} (L : Lib F) (g : GroupData F) (form : SubmitForm)
    (now : Int) :
    ((submitLocked L g form now).2.isAccepted = false ∧ (submitLocked L g form now).1 = g) ∨
    ((submitLocked L g form now).2.isAccepted = true ∧
      (parseFloat L form.lat).2 = true ∧ (parseFloat L form.lon).2 = true ∧
      g.hasSubmitted form.student_id = false) := by
  unfold submitLocked
  simp only []
  split_ifs with h1 h2 h3
  · exact Or.inl ⟨rfl, rfl⟩
  · exact Or.inl ⟨rfl, rfl⟩
  · exact Or.inl ⟨rfl, rfl⟩
  · refine Or.inr ⟨rfl, ?_, ?_, ?_⟩
    · simpa using h1
    · simpa using h2
    · simpa using h3

theorem memberGate_not_accepted (groupOnly : Bool) (groupID : String) (store : SubmitStore)
    (r : SubmitResult) (h : memberGate groupOnly groupID store = some r) :
    r.isAccepted = false := by
  unfold memberGate at h
  split_ifs at h
  · cases h; rfl
  · split at h
    · cases h; rfl
    · cases h

/-- What an accepted response tells about the call: the group exists, its
window flag is set, the gate let the request through, the coordinates are
well formed and the participant was not in the ledger. -/
theorem submit_accepted_inv {F : Type} (L : Lib F) (st : State F) (groupIDraw : String)
    (form : SubmitForm) (store : SubmitStore) (now : Int)
    (hacc : (submitAttendanceHandler L st groupIDraw form store now).2.isAccepted = true) :
    ∃ g, GetGroup st (effectiveGroupID groupIDraw) = some g ∧ g.WindowActive = true ∧
      memberGate g.GroupOnly (effectiveGroupID groupIDraw) store = none ∧
      (parseFloat L form.lat).2 = true ∧ (parseFloat L form.lon).2 = true ∧
      g.hasSubmitted form.student_id = false := by
  unfold submitAttendanceHandler at hacc
  simp only [] at hacc
  cases hget : GetGroup st (effectiveGroupID groupIDraw) with
  | none => simp [hget, SubmitResult.isAccepted] at hacc
  | some g =>
    simp only [hget] at hacc
    by_cases hact : g.WindowActive = false
    · simp [hact, SubmitResult.isAccepted] at hacc
    · have hact2 : g.WindowActive = true := by simpa using hact
      cases hgate : memberGate g.GroupOnly (effectiveGroupID groupIDraw) store with
      | some r =>
        have hr := memberGate_not_accepted _ _ _ r hgate
        simp [hact2, hgate, hr] at hacc
      | none =>
        simp only [hact2, hgate] at hacc
        rcases submitLocked_cases L g form now with h | h
        · simp [h.1] at hacc
        · exact ⟨g, rfl, hact2, hgate, h.2.1, h.2.2.1, h.2.2.2⟩

theorem parseFloat_ok {F : Type} (L : Lib F) (s : String) (h : (parseFloat L s).2 = true) :
    L.scanFloat s = some (parseFloat L s).1 := by
  unfold parseFloat at h ⊢
  cases hs : L.scanFloat s with
  | none => simp [hs] at h
  | some x => rfl

/-! ## C1 -/

/-- C1. Ledger/locations invariant: in every state reached from the empty
registry by any sequence of operations (set center, start, close, submit,
status read, list participant records, timer wake-up), every session has
the key set of `StudentLocations` equal to the set of ids `p` with
`SubmittedStudents[p] = true`. -/
theorem ledger_keys_eq_submitted {F : Type} (L : Lib F) (ops : List (Op F)) (gid : String)
    (g : GroupData F) (hget : GetGroup (run L (State.init F) ops) gid = some g) (p : String) :
    p ∈ mapKeys g.StudentLocations ↔ g.hasSubmitted p = true := by
  have hinit : AllLedgersMatch (State.init F) := by
    intro e he
    simp [State.init] at he
  exact ledgerMatches_of_getGroup _ gid g (allLedgersMatch_run L ops _ hinit) hget p

/-- Witness for C1 on the run `demoOps`, whose default session holds one
accepted submission. -/
theorem ledger_keys_eq_submitted_witness :
    GetGroup (run testLib (State.init Int) demoOps) "g1" = some demoGroup ∧
    ("ST1" ∈ mapKeys demoGroup.StudentLocations ↔ demoGroup.hasSubmitted "ST1" = true) :=
  ⟨rfl, ledger_keys_eq_submitted testLib demoOps "g1" demoGroup rfl "ST1"⟩

/-! ## C2 -/

/-! The theorems for C2 follow the lemmas on the record of a participant across
operations, further down. -/

/-! ## C3 -/

theorem classify_present_iff {F : Type} (L : Lib F) (d t : F) :
    classify L d t = "Present" ↔ L.le d t = true := by
  unfold classify
  split_ifs with h
  · simp [h]
  · constructor
    · intro hc
      exact absurd hc (by decide)
    · intro hc
      exact absurd hc h

theorem classify_absent_iff {F : Type} (L : Lib F) (d t : F) :
    classify L d t = "Absent" ↔ L.le d t = false := by
  unfold classify
  split_ifs with h
  · constructor
    · intro hc
      exact absurd hc (by decide)
    · intro hc
      rw [h] at hc
      cases hc
  · simp [h]

/-- What an accepted call returns and stores, in terms of the group found
before the call. -/
theorem submit_accepted_eq {F : Type} (L : Lib F) (st : State F) (groupIDraw : String)
    (form : SubmitForm) (store : SubmitStore) (now : Int) (g : GroupData F)
    (hget : GetGroup st (effectiveGroupID groupIDraw) = some g)
    (hacc : (submitAttendanceHandler L st groupIDraw form store now).2.isAccepted = true) :
    submitAttendanceHandler L st groupIDraw form store now =
      (storeGroup st (effectiveGroupID groupIDraw)
        { g with
          files :=
            match g.CSVWriter with
            | some w =>
              writeRow g.files w [form.student_name, L.fmtStamp now,
                L.fmt0 (haversine L g.AdminLat g.AdminLon (parseFloat L form.lat).1
                  (parseFloat L form.lon).1)]
            | none => g.files,
          StudentLocations := mapSet g.StudentLocations form.student_id
            { StudentID := form.student_id, StudentName := form.student_name,
              Latitude := (parseFloat L form.lat).1, Longitude := (parseFloat L form.lon).1,
              Distance := haversine L g.AdminLat g.AdminLon (parseFloat L form.lat).1
                (parseFloat L form.lon).1,
              Timestamp := L.fmtStamp now,
              Status := classify L (haversine L g.AdminLat g.AdminLon (parseFloat L form.lat).1
                (parseFloat L form.lon).1) g.ThresholdMeters },
          SubmittedStudents := mapSet g.SubmittedStudents form.student_id true },
        SubmitResult.accepted
          (classify L (haversine L g.AdminLat g.AdminLon (parseFloat L form.lat).1
            (parseFloat L form.lon).1) g.ThresholdMeters)
          (L.fmt0 (haversine L g.AdminLat g.AdminLon (parseFloat L form.lat).1
            (parseFloat L form.lon).1)) (L.fmtStamp now)) := by
  obtain ⟨g2, hget2, hact, hgate, hlat, hlon, hnew⟩ :=
    submit_accepted_inv L st groupIDraw form store now hacc
  have hg : g2 = g := by
    rw [hget] at hget2
    exact (Option.some.inj hget2).symm
  subst hg
  rw [submit_of_open L st groupIDraw form store now g2 hget hact hgate,
    submitLocked_accept L g2 form now _ _ (parseFloat_ok L _ hlat) (parseFloat_ok L _ hlon) hnew]

/-- C3. Inclusive classification: when a submission is accepted, with `d`
the distance computed from the session center to the submitted coordinates
and `t` the session threshold, the status returned and recorded is
`Present` exactly when `d <= t` and `Absent` exactly when not; in
particular `d = t` gives `Present` (for every `t` with `t <= t`, which in
float64 is every threshold that is a number). -/
theorem status_present_iff_within_threshold {F : Type} (L : Lib F) (st : State F)
    (groupIDraw : String) (form : SubmitForm) (store : SubmitStore) (now : Int)
    (g : GroupData F) (status dist ts : String)
    (hget : GetGroup st (effectiveGroupID groupIDraw) = some g)
    (hacc : (submitAttendanceHandler L st groupIDraw form store now).2
      = SubmitResult.accepted status dist ts) :
    (status = "Present" ↔
      L.le (haversine L g.AdminLat g.AdminLon (parseFloat L form.lat).1 (parseFloat L form.lon).1)
        g.ThresholdMeters = true) ∧
    (status = "Absent" ↔
      L.le (haversine L g.AdminLat g.AdminLon (parseFloat L form.lat).1 (parseFloat L form.lon).1)
        g.ThresholdMeters = false) ∧
    (∃ g2 loc,
      GetGroup (submitAttendanceHandler L st groupIDraw form store now).1
        (effectiveGroupID groupIDraw) = some g2 ∧
      mapGet g2.StudentLocations form.student_id = some loc ∧ loc.Status = status ∧
      loc.Distance = haversine L g.AdminLat g.AdminLon (parseFloat L form.lat).1
        (parseFloat L form.lon).1) ∧
    (L.le g.ThresholdMeters g.ThresholdMeters = true →
      haversine L g.AdminLat g.AdminLon (parseFloat L form.lat).1 (parseFloat L form.lon).1
        = g.ThresholdMeters →
      status = "Present") := by
  have hacc2 : (submitAttendanceHandler L st groupIDraw form store now).2.isAccepted = true := by
    rw [hacc]; rfl
  have heq := submit_accepted_eq L st groupIDraw form store now g hget hacc2
  rw [heq] at hacc
  simp only [SubmitResult.accepted.injEq] at hacc
  obtain ⟨hstatus, -, -⟩ := hacc
  rw [heq]
  simp only []
  refine ⟨?_, ?_, ?_, ?_⟩
  · rw [← hstatus]; exact classify_present_iff L _ _
  · rw [← hstatus]; exact classify_absent_iff L _ _
  · exact ⟨_, _, getGroup_storeGroup_self _ _ _, mapGet_mapSet_self _ _ _, hstatus, rfl⟩
  · intro hrefl hd
    rw [← hstatus, hd]
    exact (classify_present_iff L _ _).2 hrefl

/-- Witness for C3, on the boundary: session `g2` has threshold 0 and the
submission is made at its center, so the distance equals the threshold and the
status is `Present`. -/
theorem status_present_iff_within_threshold_witness :
    GetGroup (run testLib (State.init Int) boundaryStart) (effectiveGroupID "g2")
      = some boundaryGroup ∧
    (submitAttendanceHandler testLib (run testLib (State.init Int) boundaryStart) "g2" demoForm
      demoStore (5 * second)).2 = SubmitResult.accepted "Present" "0" "5" ∧
    testLib.le boundaryGroup.ThresholdMeters boundaryGroup.ThresholdMeters = true ∧
    haversine testLib boundaryGroup.AdminLat boundaryGroup.AdminLon
      (parseFloat testLib demoForm.lat).1 (parseFloat testLib demoForm.lon).1
      = boundaryGroup.ThresholdMeters ∧
    testLib.le
      (haversine testLib boundaryGroup.AdminLat boundaryGroup.AdminLon
        (parseFloat testLib demoForm.lat).1 (parseFloat testLib demoForm.lon).1)
      boundaryGroup.ThresholdMeters = true ∧
    (∃ g2 loc,
      GetGroup (submitAttendanceHandler testLib (run testLib (State.init Int) boundaryStart) "g2"
        demoForm demoStore (5 * second)).1 (effectiveGroupID "g2") = some g2 ∧
      mapGet g2.StudentLocations demoForm.student_id = some loc ∧ loc.Status = "Present" ∧
      loc.Distance = haversine testLib boundaryGroup.AdminLat boundaryGroup.AdminLon
        (parseFloat testLib demoForm.lat).1 (parseFloat testLib demoForm.lon).1) :=
  ⟨rfl, rfl, by decide, by decide,
    (status_present_iff_within_threshold testLib (run testLib (State.init Int) boundaryStart)
      "g2" demoForm demoStore (5 * second) boundaryGroup "Present" "0" "5" (by rfl) (by rfl)).1.1 rfl,
    (status_present_iff_within_threshold testLib (run testLib (State.init Int) boundaryStart)
      "g2" demoForm demoStore (5 * second) boundaryGroup "Present" "0" "5" (by rfl) (by rfl)).2.2.1⟩

/-! ## C4 -/

/-- C4. Accepted-submit postcondition: on a session whose window flag is
set, a participant `p` not yet in the ledger who submits well-formed
coordinates `(lat, lon)` and is let through by the membership gate is
accepted; afterwards `StudentLocations[p]` is the record made of `p`, the
given name, `lat`, `lon`, the haversine distance from the session center,
the timestamp and the classification of that distance against
`ThresholdMeters`, `SubmittedStudents[p]` is true, the entries of every other
participant in both maps and every other session are unchanged, and the
response carries the same status and the distance formatted with `%.0f`. -/
theorem accepted_submit_postcondition {F : Type} (L : Lib F) (st : State F)
    (groupIDraw : String) (form : SubmitForm) (store : SubmitStore) (now : Int)
    (g : GroupData F) (lat lon : F)
    (hget : GetGroup st (effectiveGroupID groupIDraw) = some g)
    (hact : g.WindowActive = true)
    (hgate : memberGate g.GroupOnly (effectiveGroupID groupIDraw) store = none)
    (hnew : g.hasSubmitted form.student_id = false)
    (hlat : L.scanFloat form.lat = some lat) (hlon : L.scanFloat form.lon = some lon) :
    (submitAttendanceHandler L st groupIDraw form store now).2 =
      SubmitResult.accepted (classify L (haversine L g.AdminLat g.AdminLon lat lon) g.ThresholdMeters)
        (L.fmt0 (haversine L g.AdminLat g.AdminLon lat lon)) (L.fmtStamp now) ∧
    (∃ g2,
      GetGroup (submitAttendanceHandler L st groupIDraw form store now).1
        (effectiveGroupID groupIDraw) = some g2 ∧
      mapGet g2.StudentLocations form.student_id = some
        { StudentID := form.student_id, StudentName := form.student_name, Latitude := lat,
          Longitude := lon, Distance := haversine L g.AdminLat g.AdminLon lat lon,
          Timestamp := L.fmtStamp now,
          Status := classify L (haversine L g.AdminLat g.AdminLon lat lon) g.ThresholdMeters } ∧
      mapGet g2.SubmittedStudents form.student_id = some true ∧
      (∀ q : String, q ≠ form.student_id →
        mapGet g2.StudentLocations q = mapGet g.StudentLocations q ∧
        mapGet g2.SubmittedStudents q = mapGet g.SubmittedStudents q)) ∧
    (∀ gid2 : String, gid2 ≠ effectiveGroupID groupIDraw →
      GetGroup (submitAttendanceHandler L st groupIDraw form store now).1 gid2
        = GetGroup st gid2) := by
  rw [submit_of_open L st groupIDraw form store now g hget hact hgate,
    submitLocked_accept L g form now lat lon hlat hlon hnew]
  refine ⟨rfl, ⟨_, getGroup_storeGroup_self _ _ _, mapGet_mapSet_self _ _ _,
    mapGet_mapSet_self _ _ _, ?_⟩, ?_⟩
  · intro q hq
    exact ⟨mapGet_mapSet_ne _ _ _ _ (fun h => hq h.symm),
      mapGet_mapSet_ne _ _ _ _ (fun h => hq h.symm)⟩
  · intro gid2 hne
    exact getGroup_storeGroup_ne _ _ _ _ (fun h => hne h.symm)

/-- Witness for C4: the submission of `ST1` on `demoState`. -/
theorem accepted_submit_postcondition_witness :
    GetGroup demoState (effectiveGroupID "g1") = some demoOpenGroup ∧
    demoOpenGroup.WindowActive = true ∧
    memberGate demoOpenGroup.GroupOnly (effectiveGroupID "g1") demoStore = none ∧
    demoOpenGroup.hasSubmitted demoForm.student_id = false ∧
    testLib.scanFloat demoForm.lat = some 0 ∧ testLib.scanFloat demoForm.lon = some 0 ∧
    (submitAttendanceHandler testLib demoState "g1" demoForm demoStore (5 * second)).2 =
      SubmitResult.accepted
        (classify testLib (haversine testLib demoOpenGroup.AdminLat demoOpenGroup.AdminLon 0 0)
          demoOpenGroup.ThresholdMeters)
        (testLib.fmt0 (haversine testLib demoOpenGroup.AdminLat demoOpenGroup.AdminLon 0 0))
        (testLib.fmtStamp (5 * second)) ∧
    (∃ g2,
      GetGroup (submitAttendanceHandler testLib demoState "g1" demoForm demoStore (5 * second)).1
        (effectiveGroupID "g1") = some g2 ∧
      mapGet g2.StudentLocations demoForm.student_id = some
        { StudentID := demoForm.student_id, StudentName := demoForm.student_name,
          Latitude := 0, Longitude := 0,
          Distance := haversine testLib demoOpenGroup.AdminLat demoOpenGroup.AdminLon 0 0,
          Timestamp := testLib.fmtStamp (5 * second),
          Status := classify testLib
            (haversine testLib demoOpenGroup.AdminLat demoOpenGroup.AdminLon 0 0)
            demoOpenGroup.ThresholdMeters } ∧
      mapGet g2.SubmittedStudents demoForm.student_id = some true ∧
      (∀ q : String, q ≠ demoForm.student_id →
        mapGet g2.StudentLocations q = mapGet demoOpenGroup.StudentLocations q ∧
        mapGet g2.SubmittedStudents q = mapGet demoOpenGroup.SubmittedStudents q)) ∧
    (∀ gid2 : String, gid2 ≠ effectiveGroupID "g1" →
      GetGroup (submitAttendanceHandler testLib demoState "g1" demoForm demoStore (5 * second)).1
        gid2 = GetGroup demoState gid2) :=
  ⟨rfl, rfl, by decide, by decide, by decide, by decide,
    accepted_submit_postcondition testLib demoState "g1" demoForm demoStore (5 * second)
      demoOpenGroup 0 0 rfl rfl (by decide) (by decide) (by decide) (by decide)⟩

/-! ## C5 -/

/-- C5. Rejection atomicity of submit: whenever a submit call is rejected
(group not found, window closed, invalid student id, not a member, invalid
latitude, invalid longitude, already submitted), the whole state, that is
the registry and every field of every session in it, is the same after the
call as before; and a session whose `WindowActive` flag is false rejects
every submit with the window-closed response. -/
theorem rejected_submit_changes_nothing {F : Type} (L : Lib F) (st : State F)
    (groupIDraw : String) (form : SubmitForm) (store : SubmitStore) (now : Int) :
    ((submitAttendanceHandler L st groupIDraw form store now).2.isAccepted = false →
      (submitAttendanceHandler L st groupIDraw form store now).1 = st) ∧
    (∀ g : GroupData F, GetGroup st (effectiveGroupID groupIDraw) = some g →
      g.WindowActive = false →
      submitAttendanceHandler L st groupIDraw form store now = (st, SubmitResult.windowClosed)) := by
  constructor
  · intro hrej
    unfold submitAttendanceHandler at hrej ⊢
    simp only [] at hrej ⊢
    cases hget : GetGroup st (effectiveGroupID groupIDraw) with
    | none => rfl
    | some g =>
      simp only [hget] at hrej ⊢
      by_cases hact : g.WindowActive = false
      · simp [hact]
      · have hact2 : g.WindowActive = true := by simpa using hact
        simp only [hact2, Bool.true_eq_false, if_false] at hrej ⊢
        cases hgate : memberGate g.GroupOnly (effectiveGroupID groupIDraw) store with
        | some r => rfl
        | none =>
          simp only [hgate] at hrej ⊢
          rcases submitLocked_cases L g form now with h | h
          · rw [h.2]
            exact storeGroup_self st _ g hget
          · rw [h.1] at hrej
            cases hrej
  · intro g hget hact
    unfold submitAttendanceHandler
    simp [hget, hact]

/-- Witness for C5: on `demoState` a submit with a malformed latitude is
rejected and nothing changes; once the window of `g1` has been closed, a
well-formed submit is answered with the window-closed response and nothing
changes either. -/
theorem rejected_submit_changes_nothing_witness :
    (submitAttendanceHandler testLib demoState "g1" { demoForm with lat := "north" } demoStore
      (5 * second)).2.isAccepted = false ∧
    (submitAttendanceHandler testLib demoState "g1" { demoForm with lat := "north" } demoStore
      (5 * second)).1 = demoState ∧
    GetGroup (closeWindowHandler demoState "g1").1 (effectiveGroupID "g1") = some demoClosedGroup ∧
    demoClosedGroup.WindowActive = false ∧
    submitAttendanceHandler testLib (closeWindowHandler demoState "g1").1 "g1" demoForm demoStore
      (5 * second) = ((closeWindowHandler demoState "g1").1, SubmitResult.windowClosed) :=
  ⟨by decide,
    (rejected_submit_changes_nothing testLib demoState "g1" { demoForm with lat := "north" }
      demoStore (5 * second)).1 (by decide),
    rfl, rfl,
    (rejected_submit_changes_nothing testLib (closeWindowHandler demoState "g1").1 "g1" demoForm
      demoStore (5 * second)).2 demoClosedGroup rfl rfl⟩

/-! ## C6 -/

/-- C6 (failing input). On `demoState` the window of session `g1` ends at
second 601 and its auto-close goroutine, asleep until second 603, cannot
have run at second 602; the flag is still set, and a submit at second 602 is
accepted and recorded instead of being rejected as window closed. -/
theorem submit_accepted_after_window_end :
    GetGroup demoState "g1" = some demoOpenGroup ∧
    demoOpenGroup.WindowActive = true ∧
    demoOpenGroup.WindowEndTime ≤ 602 * second ∧
    demoState.timers = [("g1", 603 * second)] ∧
    timerFire demoState 0 (602 * second) = none ∧
    (submitAttendanceHandler testLib demoState "g1" demoForm demoStore (602 * second)).2
      = SubmitResult.accepted "Present" "0" "602" ∧
    (GetGroup
      (submitAttendanceHandler testLib demoState "g1" demoForm demoStore (602 * second)).1
      "g1").map (fun g => g.hasSubmitted "ST1") = some true := by
  exact ⟨rfl, rfl, by decide, rfl, rfl, rfl, rfl⟩

/-! ## C7 -/

theorem startGroup_fields {F : Type} (L : Lib F) (g : GroupData F) (groupID groupOnlyStr : String)
    (dbMeta : Option (String × String)) (nowStart nowEnd nowFile : Int) (createOk : Bool) :
    (startGroup L g groupID groupOnlyStr dbMeta nowStart nowEnd nowFile createOk).WindowActive
        = true ∧
    (startGroup L g groupID groupOnlyStr dbMeta nowStart nowEnd nowFile createOk).GroupOnly
        = decide (groupOnlyStr = "true") ∧
    (startGroup L g groupID groupOnlyStr dbMeta nowStart nowEnd nowFile createOk).WindowStartTime
        = nowStart ∧
    (startGroup L g groupID groupOnlyStr dbMeta nowStart nowEnd nowFile createOk).WindowEndTime
        = nowEnd + tenMinutes := by
  unfold startGroup
  simp only []
  split
  · split_ifs
    · cases dbMeta <;> exact ⟨rfl, rfl, rfl, rfl⟩
    · exact ⟨rfl, rfl, rfl, rfl⟩
  · split_ifs
    all_goals first
      | exact ⟨rfl, rfl, rfl, rfl⟩
      | (cases dbMeta <;> exact ⟨rfl, rfl, rfl, rfl⟩)

/-- The group branch of the status read once the clock is strictly past the
end of a window whose flag is still set: it answers inactive with zero
seconds remaining and clears the flag. -/
theorem statusByGroup_after_end {F : Type} (L : Lib F) (st : State F) (groupIDraw : String)
    (restore : Option RestoreRow) (nowRestore nowAfter nowSince : Int) (g : GroupData F)
    (hget : GetGroup st (effectiveGroupID groupIDraw) = some g)
    (hact : g.WindowActive = true) (hlate : g.WindowEndTime < nowAfter) :
    statusByGroup L st groupIDraw restore nowRestore nowAfter nowSince =
      (storeGroup st (effectiveGroupID groupIDraw) { g with WindowActive := false },
        { active := false, remaining_seconds := 0,
          group_id := some (effectiveGroupID groupIDraw), session_name := g.Name }) := by
  unfold statusByGroup
  simp [hget, hact, hlate]

/-- The scenario of a window started at `T` and read 601 seconds later with
the flag still set: provided the two clock reads of the start are less than
a second apart, the read answers inactive with zero seconds remaining. -/
theorem statusByGroup_601s_after_start {F : Type} (L : Lib F) (st : State F)
    (groupIDraw groupOnlyStr : String) (dbMeta : Option (String × String))
    (nowStart nowEnd nowFile nowSpawn : Int) (createOk : Bool) (restore : Option RestoreRow)
    (nowRestore nowSince : Int) (hreads : nowEnd < nowStart + second) :
    (statusByGroup L
      (startWindowHandler L st groupIDraw groupOnlyStr dbMeta nowStart nowEnd nowFile nowSpawn
        createOk)
      groupIDraw restore nowRestore (nowStart + 601 * second) nowSince).2.active = false ∧
    (statusByGroup L
      (startWindowHandler L st groupIDraw groupOnlyStr dbMeta nowStart nowEnd nowFile nowSpawn
        createOk)
      groupIDraw restore nowRestore (nowStart + 601 * second) nowSince).2.remaining_seconds
        = 0 := by
  have hf := startGroup_fields L (GetOrCreateGroup L st (effectiveGroupID groupIDraw)).2
    (effectiveGroupID groupIDraw) groupOnlyStr dbMeta nowStart nowEnd nowFile createOk
  have hget : GetGroup
      (startWindowHandler L st groupIDraw groupOnlyStr dbMeta nowStart nowEnd nowFile nowSpawn
        createOk) (effectiveGroupID groupIDraw)
      = some (startGroup L (GetOrCreateGroup L st (effectiveGroupID groupIDraw)).2
          (effectiveGroupID groupIDraw) groupOnlyStr dbMeta nowStart nowEnd nowFile createOk) :=
    mapGet_mapSet_self _ _ _
  have hlate : (startGroup L (GetOrCreateGroup L st (effectiveGroupID groupIDraw)).2
      (effectiveGroupID groupIDraw) groupOnlyStr dbMeta nowStart nowEnd nowFile
      createOk).WindowEndTime < nowStart + 601 * second := by
    rw [hf.2.2.2]
    unfold tenMinutes
    linarith
  rw [statusByGroup_after_end L _ groupIDraw restore nowRestore _ nowSince _ hget hf.1 hlate]
  exact ⟨rfl, rfl⟩

/-- C8 (failing input). On `demoState` the window of session `g1` has its
flag set and ends at second 601.  A status read by group id at exactly that
instant (`now = WindowEndTime`) answers `active = true` with zero seconds
remaining and leaves the flag set, because the source tests
`time.Now().After(group.WindowEndTime)`; one second later the same read
answers `active = false` and clears the flag. -/
theorem status_read_at_end_time_still_active :
    GetGroup demoState "g1" = some demoOpenGroup ∧
    demoOpenGroup.WindowActive = true ∧
    demoOpenGroup.WindowEndTime ≤ 601 * second ∧
    getWindowStatusHandler testLib demoState "" "" none (fun _ => 0) "g1" none
        (601 * second) (601 * second) (601 * second)
      = (demoState,
          { active := true, remaining_seconds := 0, group_id := some "g1",
            session_name := "Hall" }) ∧
    (getWindowStatusHandler testLib demoState "" "" none (fun _ => 0) "g1" none
        (602 * second) (602 * second) (602 * second)).2
      = { active := false, remaining_seconds := 0, group_id := some "g1",
          session_name := "Hall" } ∧
    (GetGroup
      (getWindowStatusHandler testLib demoState "" "" none (fun _ => 0) "g1" none
        (602 * second) (602 * second) (602 * second)).1 "g1").map (fun g => g.WindowActive)
      = some false := by
  exact ⟨rfl, rfl, by decide, rfl, rfl, rfl⟩

/-! ## C9 -/

/-- C9 (failing input). After `restartOps` the second window of session `g1`
is open until second 900 and nobody closes it; the goroutine armed by the
first start wakes at second 600 and clears `WindowActive`, 300 seconds before
the end of the window that is then current. -/
theorem stale_timer_closes_restarted_window :
    GetGroup (run testLib (State.init Int) restartOps) "g1" = some restartedGroup ∧
    (run testLib (State.init Int) restartOps).timers
      = [("g1", 600 * second), ("g1", 900 * second)] ∧
    (GetGroup (step testLib (run testLib (State.init Int) restartOps)
        (Op.timer 0 (600 * second))) "g1")
      = some { restartedGroup with WindowActive := false } ∧
    600 * second < restartedGroup.WindowEndTime := by
  exact ⟨rfl, rfl, rfl, by decide⟩

/-! ## C10 -/

/-- C10 (failing input). On `demoState` the window of session `g1` ends at
second 601 and the flag is still set at second 602 (the auto-close goroutine
sleeps until second 603).  A status read made with a `student_id` of a member
at second 602 answers `active = true`: the student branch tests only the
flag. -/
theorem student_status_read_ignores_expiry :
    GetGroup demoState "g1" = some demoOpenGroup ∧
    demoOpenGroup.WindowActive = true ∧
    demoOpenGroup.WindowEndTime ≤ 602 * second ∧
    timerFire demoState 0 (602 * second) = none ∧
    getWindowStatusHandler testLib demoState "ST1" "u-1" (some [some "g1"])
        (fun _ => 602 * second) "g1" none (602 * second) (602 * second) (602 * second)
      = (demoState,
          { active := true, remaining_seconds := 0, group_id := some "g1",
            session_name := "Hall" }) := by
  exact ⟨rfl, rfl, by decide, rfl, rfl⟩

/-! ## C11 -/

theorem get_set_same {α : Type} (l : List α) (i : Nat) (a x : α) (h : l.get? i = some a) :
    (l.set i x).get? i = some x := by
  rw [List.get?_eq_getElem?] at h ⊢
  obtain ⟨hlt, -⟩ := List.getElem?_eq_some.1 h
  rw [List.getElem?_set_self hlt]

theorem closeFile_closeFile (files : List CsvFileObj) (h : Nat) :
    closeFile (closeFile files h) h = closeFile files h := by
  unfold closeFile
  cases hf : files.get? h with
  | none => simp only [hf]
  | some f =>
    simp only []
    rw [get_set_same files h f _ hf]
    simp only [List.set_set]

theorem mapSet_mapSet {V : Type} (m : List (String × V)) (k : String) (v v2 : V) :
    mapSet (mapSet m k v) k v2 = mapSet m k v2 := by
  induction m with
  | nil => simp [mapSet]
  | cons e rest ih =>
    by_cases h : e.1 = k
    · simp [mapSet, h]
    · simp [mapSet, h, ih]

/-- The group a close leaves behind. -/
theorem closeWindow_of_group {F : Type} (st : State F) (groupIDraw : String) (g : GroupData F)
    (hget : GetGroup st (effectiveGroupID groupIDraw) = some g) :
    closeWindowHandler st groupIDraw =
      (storeGroup st (effectiveGroupID groupIDraw)
        (match g.CSVFile with
          | some h => { g with WindowActive := false, files := closeFile g.files h }
          | none => { g with WindowActive := false }),
        CloseResult.windowClosed) := by
  unfold closeWindowHandler
  simp only [hget]

/-- C11. Close is idempotent: for every registry state and group id, a second
close-window leaves the state exactly as the first close left it, and when
the session exists the first close leaves it with `WindowActive = false`. -/
theorem close_window_idempotent {F : Type} (st : State F) (groupIDraw : String) :
    (closeWindowHandler (closeWindowHandler st groupIDraw).1 groupIDraw).1
      = (closeWindowHandler st groupIDraw).1 ∧
    (∀ g : GroupData F, GetGroup st (effectiveGroupID groupIDraw) = some g →
      ∃ g2, GetGroup (closeWindowHandler st groupIDraw).1 (effectiveGroupID groupIDraw) = some g2 ∧
        g2.WindowActive = false) := by
  cases hget : GetGroup st (effectiveGroupID groupIDraw) with
  | none =>
    have h1 : closeWindowHandler st groupIDraw = (st, CloseResult.groupNotFound) := by
      unfold closeWindowHandler
      simp [hget]
    rw [h1]
    simp only []
    rw [h1]
    exact ⟨rfl, fun g hg => by cases hg⟩
  | some g =>
    rw [closeWindow_of_group st groupIDraw g hget]
    simp only []
    generalize hg2 : (match g.CSVFile with
      | some h => ({ g with WindowActive := false, files := closeFile g.files h } : GroupData F)
      | none => { g with WindowActive := false }) = g2
    have hget2 : GetGroup (storeGroup st (effectiveGroupID groupIDraw) g2)
        (effectiveGroupID groupIDraw) = some g2 := getGroup_storeGroup_self _ _ _
    have hact : g2.WindowActive = false := by
      rw [← hg2]; cases g.CSVFile <;> rfl
    have hfix : (match g2.CSVFile with
        | some h => ({ g2 with WindowActive := false, files := closeFile g2.files h } : GroupData F)
        | none => { g2 with WindowActive := false }) = g2 := by
      rw [← hg2]
      cases hc : g.CSVFile with
      | none => simp [hc]
      | some h => simp [hc, closeFile_closeFile]
    refine ⟨?_, fun g3 _ => ⟨g2, hget2, hact⟩⟩
    rw [closeWindow_of_group _ groupIDraw g2 hget2, hfix]
    exact storeGroup_self _ _ _ hget2

/-- Witness for C11: closing the open window of `g1` on `demoState`. -/
theorem close_window_idempotent_witness :
    GetGroup demoState (effectiveGroupID "g1") = some demoOpenGroup ∧
    ∃ g2, GetGroup (closeWindowHandler demoState "g1").1 (effectiveGroupID "g1") = some g2 ∧
      g2.WindowActive = false :=
  ⟨rfl, (close_window_idempotent demoState "g1").2 demoOpenGroup rfl⟩

/-! ## C15 -/

theorem getOrCreate_of_get {F : Type} (L : Lib F) (st : State F) (id : String) (g : GroupData F)
    (hget : GetGroup st id = some g) : GetOrCreateGroup L st id = (st, g) := by
  unfold GetOrCreateGroup
  unfold GetGroup at hget
  simp [hget]

theorem getOrCreate_of_none {F : Type} (L : Lib F) (st : State F) (id : String)
    (hget : GetGroup st id = none) :
    GetOrCreateGroup L st id = (storeGroup st id (newGroup L id), newGroup L id) := by
  unfold GetOrCreateGroup
  unfold GetGroup at hget
  simp [hget, storeGroup]

theorem getGroup_getOrCreate_self {F : Type} (L : Lib F) (st : State F) (id : String) :
    GetGroup (GetOrCreateGroup L st id).1 id = some (GetOrCreateGroup L st id).2 := by
  cases hget : GetGroup st id with
  | some g => rw [getOrCreate_of_get L st id g hget]; exact hget
  | none => rw [getOrCreate_of_none L st id hget]; exact getGroup_storeGroup_self _ _ _

theorem getGroup_getOrCreate_ne {F : Type} (L : Lib F) (st : State F) (id id2 : String)
    (hne : id ≠ id2) : GetGroup (GetOrCreateGroup L st id).1 id2 = GetGroup st id2 := by
  cases hget : GetGroup st id with
  | some g => rw [getOrCreate_of_get L st id g hget]
  | none => rw [getOrCreate_of_none L st id hget]; exact getGroup_storeGroup_ne _ _ _ _ hne

/-- C15. Registry create-or-get is idempotent: `GetOrCreateGroup(id)` returns
the registered session and leaves the registry alone when the id is
registered, and otherwise returns a new session with `ID = id`,
`WindowActive = false`, empty ledger and locations and no audit log; a second
`GetOrCreateGroup(id)` returns the same session and leaves the registry
unchanged, `GetGroup(id)` then reports that session, and the entries of all
other ids are unchanged. -/
theorem getOrCreate_idempotent {F : Type} (L : Lib F) (st : State F) (id : String) :
    (∀ g : GroupData F, GetGroup st id = some g → GetOrCreateGroup L st id = (st, g)) ∧
    (GetGroup st id = none →
      (GetOrCreateGroup L st id).2.ID = id ∧
      (GetOrCreateGroup L st id).2.WindowActive = false ∧
      (GetOrCreateGroup L st id).2.SubmittedStudents = [] ∧
      (GetOrCreateGroup L st id).2.StudentLocations = [] ∧
      (GetOrCreateGroup L st id).2.CSVFile = none ∧
      (GetOrCreateGroup L st id).2.CSVWriter = none) ∧
    GetOrCreateGroup L (GetOrCreateGroup L st id).1 id = GetOrCreateGroup L st id ∧
    GetGroup (GetOrCreateGroup L st id).1 id = some (GetOrCreateGroup L st id).2 ∧
    (∀ id2 : String, id2 ≠ id → GetGroup (GetOrCreateGroup L st id).1 id2 = GetGroup st id2) := by
  refine ⟨fun g hg => getOrCreate_of_get L st id g hg, ?_, ?_, getGroup_getOrCreate_self L st id,
    fun id2 hne => getGroup_getOrCreate_ne L st id id2 (fun h => hne h.symm)⟩
  · intro hnone
    rw [getOrCreate_of_none L st id hnone]
    exact ⟨rfl, rfl, rfl, rfl, rfl, rfl⟩
  · rw [getOrCreate_of_get L _ id _ (getGroup_getOrCreate_self L st id)]

/-- Witness for C15: on `demoState` the id `g1` is registered and the id `g9`
is not. -/
theorem getOrCreate_idempotent_witness :
    GetGroup demoState "g1" = some demoOpenGroup ∧
    GetOrCreateGroup testLib demoState "g1" = (demoState, demoOpenGroup) ∧
    GetGroup demoState "g9" = none ∧
    (GetOrCreateGroup testLib demoState "g9").2.ID = "g9" ∧
    (GetOrCreateGroup testLib demoState "g9").2.WindowActive = false ∧
    (GetOrCreateGroup testLib demoState "g9").2.SubmittedStudents = [] ∧
    (GetOrCreateGroup testLib demoState "g9").2.StudentLocations = [] ∧
    (GetOrCreateGroup testLib demoState "g9").2.CSVFile = none ∧
    (GetOrCreateGroup testLib demoState "g9").2.CSVWriter = none :=
  ⟨rfl, (getOrCreate_idempotent testLib demoState "g1").1 demoOpenGroup rfl, rfl,
    (getOrCreate_idempotent testLib demoState "g9").2.1 rfl⟩

/-! ## C16 -/

theorem mapDelete_cons_eq {V : Type} (e : String × V) (rest : List (String × V)) (k : String)
    (h : e.1 = k) : mapDelete (e :: rest) k = mapDelete rest k := by
  simp [mapDelete, h]

theorem mapDelete_cons_ne {V : Type} (e : String × V) (rest : List (String × V)) (k : String)
    (h : ¬ e.1 = k) : mapDelete (e :: rest) k = e :: mapDelete rest k := by
  simp [mapDelete, h]

theorem mapGet_mapDelete_self {V : Type} (m : List (String × V)) (k : String) :
    mapGet (mapDelete m k) k = none := by
  induction m with
  | nil => rfl
  | cons e rest ih =>
    by_cases h : e.1 = k
    · rw [mapDelete_cons_eq e rest k h]
      exact ih
    · rw [mapDelete_cons_ne e rest k h]
      simp only [mapGet, if_neg h]
      exact ih

theorem mapGet_mapDelete_ne {V : Type} (m : List (String × V)) (k k2 : String) (hne : k ≠ k2) :
    mapGet (mapDelete m k) k2 = mapGet m k2 := by
  induction m with
  | nil => rfl
  | cons e rest ih =>
    by_cases h : e.1 = k
    · have h2 : ¬ e.1 = k2 := fun h3 => hne (h.symm.trans h3)
      rw [mapDelete_cons_eq e rest k h]
      simp only [mapGet, if_neg h2]
      exact ih
    · rw [mapDelete_cons_ne e rest k h]
      by_cases h2 : e.1 = k2
      · simp only [mapGet, if_pos h2]
      · simp only [mapGet, if_neg h2]
        exact ih

/-- What `GroupManager.DeleteGroup` does: the entry of the id is gone, every
other entry is as before, and the object taken out has its audit file
closed. -/
theorem deleteGroup_method {F : Type} (st : State F) (groupID : String) :
    GetGroup (DeleteGroup st groupID).1 groupID = none ∧
    (∀ id2 : String, id2 ≠ groupID → GetGroup (DeleteGroup st groupID).1 id2 = GetGroup st id2) ∧
    (∀ (g : GroupData F) (h : Nat), GetGroup st groupID = some g → g.CSVFile = some h →
      (DeleteGroup st groupID).2 = some { g with files := closeFile g.files h }) := by
  unfold DeleteGroup
  cases hget : GetGroup st groupID with
  | none =>
    exact ⟨hget, fun _ _ => rfl, fun g h hg => by cases hg⟩
  | some g =>
    refine ⟨mapGet_mapDelete_self _ _, fun id2 hne => mapGet_mapDelete_ne _ _ _ (fun h => hne h.symm),
      ?_⟩
    intro g2 h hg hfile
    cases hg
    simp [hfile]

/-- C16 (failing input). Session `g1` of `demoState` has an open audit file.
`GroupManager.DeleteGroup` removes the entry and closes the file, but the
delete-group operation, on a successful store delete, removes the entry and
leaves the session object untouched: its audit file is still open. -/
theorem delete_handler_leaves_log_open :
    GetGroup demoState "g1" = some demoOpenGroup ∧
    demoOpenGroup.CSVFile = some 0 ∧
    (DeleteGroup demoState "g1").2
      = some { demoOpenGroup with
          files := [{ name := "Hall_0.csv", rows := [csvHeaders], closed := true }] } ∧
    GetGroup (deleteGroupHandler demoState demoCache "g1" DeleteReply.done).1 "g1" = none ∧
    (deleteGroupHandler demoState demoCache "g1" DeleteReply.done).2.2.2
      = DeleteGroupResult.deleted ∧
    (deleteGroupHandler demoState demoCache "g1" DeleteReply.done).2.2.1
      = some demoOpenGroup ∧
    demoOpenGroup.files = [{ name := "Hall_0.csv", rows := [csvHeaders], closed := false }] := by
  exact ⟨rfl, rfl, rfl, rfl, rfl, rfl, rfl⟩

/-! ## C18 -/

theorem cacheData_invalidateAdmin (c : GroupsCache) (a : String) :
    cacheData (invalidateAdmin c a) a = none ∧ cacheStamp (invalidateAdmin c a) a = none ∧
    ∀ b : String, b ≠ a →
      cacheData (invalidateAdmin c a) b = cacheData c b ∧
      cacheStamp (invalidateAdmin c a) b = cacheStamp c b := by
  unfold invalidateAdmin cacheData cacheStamp
  refine ⟨?_, ?_, ?_⟩
  · cases c.data with
    | none => rfl
    | some m => exact mapGet_mapDelete_self m a
  · cases c.timestamps with
    | none => rfl
    | some m => exact mapGet_mapDelete_self m a
  · intro b hne
    constructor
    · cases c.data with
      | none => rfl
      | some m => exact mapGet_mapDelete_ne m a b (fun h => hne h.symm)
    · cases c.timestamps with
      | none => rfl
      | some m => exact mapGet_mapDelete_ne m a b (fun h => hne h.symm)

theorem cacheData_invalidateAll (c : GroupsCache) (b : String) :
    cacheData (invalidateAll c) b = none ∧ cacheStamp (invalidateAll c) b = none := by
  unfold invalidateAll cacheData cacheStamp
  constructor
  · cases c.data <;> rfl
  · cases c.timestamps <;> rfl

/-- C18. Group-listing cache invalidation: after a successful create-group
for admin `A` the cache has neither a data entry nor a timestamp entry for
`A`, and the entries of every other admin are unchanged; after a successful
delete-group the cache has no entry for any admin. -/
theorem groups_cache_invalidation {F : Type} (L : Lib F) (st : State F) (cache : GroupsCache)
    (groupName adminID : String) (reply : StoreRows (String × String)) (groupID : String)
    (dreply : DeleteReply) :
    (∀ id name : String,
      (createGroupHandler L st cache groupName adminID reply).2.2
        = CreateGroupResult.created id name →
      cacheData (createGroupHandler L st cache groupName adminID reply).2.1 adminID = none ∧
      cacheStamp (createGroupHandler L st cache groupName adminID reply).2.1 adminID = none ∧
      ∀ b : String, b ≠ adminID →
        cacheData (createGroupHandler L st cache groupName adminID reply).2.1 b
          = cacheData cache b ∧
        cacheStamp (createGroupHandler L st cache groupName adminID reply).2.1 b
          = cacheStamp cache b) ∧
    ((deleteGroupHandler st cache groupID dreply).2.2.2 = DeleteGroupResult.deleted →
      ∀ b : String,
        cacheData (deleteGroupHandler st cache groupID dreply).2.1 b = none ∧
        cacheStamp (deleteGroupHandler st cache groupID dreply).2.1 b = none) := by
  constructor
  · intro id name hres
    unfold createGroupHandler at hres ⊢
    by_cases h1 : groupName = "" ∨ adminID = ""
    · simp [h1] at hres
    · simp only [if_neg h1] at hres ⊢
      cases reply with
      | transportError => simp at hres
      | badStatus => simp at hres
      | undecodable => simp at hres
      | rows rs =>
        cases rs with
        | nil => simp at hres
        | cons r rest => exact cacheData_invalidateAdmin cache adminID
  · intro hres b
    unfold deleteGroupHandler at hres ⊢
    by_cases h1 : groupID = ""
    · simp [h1] at hres
    · simp only [if_neg h1] at hres ⊢
      cases dreply with
      | transportError => simp at hres
      | badStatus => simp at hres
      | done => exact cacheData_invalidateAll cache b

/-- Witness for C18 on `demoCache`: a group is created for admin `a1`, and a
group is deleted. -/
theorem groups_cache_invalidation_witness :
    (createGroupHandler testLib demoState demoCache "Lab" "a1"
      (StoreRows.rows [("g7", "Lab")])).2.2 = CreateGroupResult.created "g7" "Lab" ∧
    (cacheData (createGroupHandler testLib demoState demoCache "Lab" "a1"
      (StoreRows.rows [("g7", "Lab")])).2.1 "a1" = none ∧
    cacheStamp (createGroupHandler testLib demoState demoCache "Lab" "a1"
      (StoreRows.rows [("g7", "Lab")])).2.1 "a1" = none ∧
    ∀ b : String, b ≠ "a1" →
      cacheData (createGroupHandler testLib demoState demoCache "Lab" "a1"
        (StoreRows.rows [("g7", "Lab")])).2.1 b = cacheData demoCache b ∧
      cacheStamp (createGroupHandler testLib demoState demoCache "Lab" "a1"
        (StoreRows.rows [("g7", "Lab")])).2.1 b = cacheStamp demoCache b) ∧
    (deleteGroupHandler demoState demoCache "g1" DeleteReply.done).2.2.2
      = DeleteGroupResult.deleted ∧
    ∀ b : String,
      cacheData (deleteGroupHandler demoState demoCache "g1" DeleteReply.done).2.1 b = none ∧
      cacheStamp (deleteGroupHandler demoState demoCache "g1" DeleteReply.done).2.1 b = none :=
  ⟨rfl,
    (groups_cache_invalidation testLib demoState demoCache "Lab" "a1"
      (StoreRows.rows [("g7", "Lab")]) "g1" DeleteReply.done).1 "g7" "Lab" rfl,
    rfl,
    (groups_cache_invalidation testLib demoState demoCache "Lab" "a1"
      (StoreRows.rows [("g7", "Lab")]) "g1" DeleteReply.done).2 rfl⟩

/-! ## C17 -/

theorem freshListing_some_iff (c : GroupsCache) (a : String) (now : Int) (gs : List GroupRow) :
    freshListing c a now = some gs ↔
      ∃ ts, cacheData c a = some gs ∧ cacheStamp c a = some ts ∧ now - ts < groupsCacheDuration := by
  unfold freshListing
  cases hd : cacheData c a with
  | none => simp
  | some d =>
    cases ht : cacheStamp c a with
    | none => simp
    | some t =>
      by_cases hfresh : now - t < groupsCacheDuration
      · simp [hfresh]
      · simp [hfresh]

/-- The cache update on a cache whose two maps are nil together: it does not
panic, the admin's entry is the new listing with the new time, every other
entry is unchanged, and the two maps are allocated. -/
theorem putListing_spec (c : GroupsCache) (a : String) (groups : List GroupRow) (now : Int)
    (hwf : c.data.isSome = c.timestamps.isSome) :
    (putListing c a groups now).2 = true ∧
    cacheData (putListing c a groups now).1 a = some groups ∧
    cacheStamp (putListing c a groups now).1 a = some now ∧
    (∀ b : String, b ≠ a →
      cacheData (putListing c a groups now).1 b = cacheData c b ∧
      cacheStamp (putListing c a groups now).1 b = cacheStamp c b) ∧
    (putListing c a groups now).1.data.isSome = (putListing c a groups now).1.timestamps.isSome := by
  obtain ⟨data, timestamps⟩ := c
  unfold putListing cacheData cacheStamp
  cases data with
  | none =>
    cases timestamps with
    | some t => simp at hwf
    | none =>
      refine ⟨rfl, mapGet_mapSet_self _ _ _, mapGet_mapSet_self _ _ _, ?_, rfl⟩
      intro b hne
      exact ⟨mapGet_mapSet_ne _ _ _ _ (fun h => hne h.symm),
        mapGet_mapSet_ne _ _ _ _ (fun h => hne h.symm)⟩
  | some d =>
    cases timestamps with
    | none => simp at hwf
    | some t =>
      refine ⟨rfl, mapGet_mapSet_self _ _ _, mapGet_mapSet_self _ _ _, ?_, rfl⟩
      intro b hne
      exact ⟨mapGet_mapSet_ne _ _ _ _ (fun h => hne h.symm),
        mapGet_mapSet_ne _ _ _ _ (fun h => hne h.symm)⟩

/-- The request without cache-bust parameter, on a fresh entry. -/
theorem getMyGroups_hit (cache : GroupsCache) (adminID : String) (nowCheck nowPut : Int)
    (reply : StoreRows GroupRow) (gs : List GroupRow) (hA : adminID ≠ "")
    (hfresh : freshListing cache adminID nowCheck = some gs) :
    getMyGroupsHandler cache adminID "" nowCheck nowPut reply
      = (cache, MyGroupsResult.listing gs gs.length true) := by
  unfold getMyGroupsHandler
  simp [hA, hfresh]

/-- The request without cache-bust parameter, without a fresh entry. -/
theorem getMyGroups_miss (cache : GroupsCache) (adminID : String) (nowCheck nowPut : Int)
    (reply : StoreRows GroupRow) (hA : adminID ≠ "")
    (hstale : freshListing cache adminID nowCheck = none) :
    getMyGroupsHandler cache adminID "" nowCheck nowPut reply =
      match reply with
      | StoreRows.transportError => (cache, MyGroupsResult.connectionError)
      | StoreRows.badStatus => (cache, MyGroupsResult.fetchFailed)
      | StoreRows.undecodable => (cache, MyGroupsResult.parseFailed)
      | StoreRows.rows groups =>
        if (putListing cache adminID groups nowPut).2 = true then
          ((putListing cache adminID groups nowPut).1,
            MyGroupsResult.listing groups groups.length false)
        else ((putListing cache adminID groups nowPut).1, MyGroupsResult.panicked) := by
  unfold getMyGroupsHandler
  simp [hA, hstale]

/-- C17. Group-listing cache freshness: for an admin id `A` and a
get-my-groups request without the cache-bust parameter, on a cache whose two
maps are allocated together (as they are in every reachable cache): the
cached listing is served if and only if the cache holds a data entry and a
timestamp for `A` whose age is strictly below five minutes; when served, the
list returned is the stored one, the count is its length and the cache is
left alone; otherwise the request goes to the store, a listing answered by
the store is returned and overwrites the entry of `A` with the current time
(so that a later request within five minutes is served that listing), and a
failure of the store leaves the cache alone. -/
theorem groups_cache_freshness (cache : GroupsCache) (adminID : String) (nowCheck nowPut : Int)
    (reply : StoreRows GroupRow) (hA : adminID ≠ "")
    (hwf : cache.data.isSome = cache.timestamps.isSome) :
    ((∃ gs n, (getMyGroupsHandler cache adminID "" nowCheck nowPut reply).2
        = MyGroupsResult.listing gs n true) ↔
      ∃ gs ts, cacheData cache adminID = some gs ∧ cacheStamp cache adminID = some ts ∧
        nowCheck - ts < groupsCacheDuration) ∧
    (∀ gs ts, cacheData cache adminID = some gs → cacheStamp cache adminID = some ts →
      nowCheck - ts < groupsCacheDuration →
      getMyGroupsHandler cache adminID "" nowCheck nowPut reply
        = (cache, MyGroupsResult.listing gs gs.length true)) ∧
    ((¬ ∃ gs ts, cacheData cache adminID = some gs ∧ cacheStamp cache adminID = some ts ∧
        nowCheck - ts < groupsCacheDuration) →
      (∀ groups, reply = StoreRows.rows groups →
        (getMyGroupsHandler cache adminID "" nowCheck nowPut reply).2
          = MyGroupsResult.listing groups groups.length false ∧
        cacheData (getMyGroupsHandler cache adminID "" nowCheck nowPut reply).1 adminID
          = some groups ∧
        cacheStamp (getMyGroupsHandler cache adminID "" nowCheck nowPut reply).1 adminID
          = some nowPut ∧
        (∀ b : String, b ≠ adminID →
          cacheData (getMyGroupsHandler cache adminID "" nowCheck nowPut reply).1 b
            = cacheData cache b ∧
          cacheStamp (getMyGroupsHandler cache adminID "" nowCheck nowPut reply).1 b
            = cacheStamp cache b) ∧
        (∀ (nowCheck2 nowPut2 : Int) (reply2 : StoreRows GroupRow),
          nowCheck2 - nowPut < groupsCacheDuration →
          (getMyGroupsHandler (getMyGroupsHandler cache adminID "" nowCheck nowPut reply).1
            adminID "" nowCheck2 nowPut2 reply2).2
            = MyGroupsResult.listing groups groups.length true)) ∧
      ((∀ groups, reply ≠ StoreRows.rows groups) →
        (getMyGroupsHandler cache adminID "" nowCheck nowPut reply).1 = cache ∧
        ∀ gs n hit, (getMyGroupsHandler cache adminID "" nowCheck nowPut reply).2
          ≠ MyGroupsResult.listing gs n hit)) := by
  cases hfresh : freshListing cache adminID nowCheck with
  | some gs0 =>
    obtain ⟨ts0, hd0, ht0, hage0⟩ := (freshListing_some_iff cache adminID nowCheck gs0).1 hfresh
    have hhit := getMyGroups_hit cache adminID nowCheck nowPut reply gs0 hA hfresh
    refine ⟨⟨fun _ => ⟨gs0, ts0, hd0, ht0, hage0⟩, fun _ => ⟨gs0, gs0.length, by rw [hhit]⟩⟩, ?_, ?_⟩
    · intro gs ts hd ht hage
      rw [hd0] at hd
      cases hd
      exact hhit
    · intro hno
      exact absurd ⟨gs0, ts0, hd0, ht0, hage0⟩ hno
  | none =>
    have hmiss := getMyGroups_miss cache adminID nowCheck nowPut reply hA hfresh
    have hnone : ¬ ∃ gs ts, cacheData cache adminID = some gs ∧ cacheStamp cache adminID = some ts ∧
        nowCheck - ts < groupsCacheDuration := by
      rintro ⟨gs, ts, hd, ht, hage⟩
      have := (freshListing_some_iff cache adminID nowCheck gs).2 ⟨ts, hd, ht, hage⟩
      rw [hfresh] at this
      cases this
    refine ⟨⟨?_, fun h => absurd h hnone⟩, ?_, ?_⟩
    · rintro ⟨gs, n, hres⟩
      rw [hmiss] at hres
      cases reply with
      | transportError => simp at hres
      | badStatus => simp at hres
      | undecodable => simp at hres
      | rows groups =>
        simp only [] at hres
        split_ifs at hres
        simp at hres
    · intro gs ts hd ht hage
      exact absurd ⟨gs, ts, hd, ht, hage⟩ hnone
    · intro _
      constructor
      · intro groups hreply
        subst hreply
        obtain ⟨hok, hd, ht, hothers, hwf2⟩ := putListing_spec cache adminID groups nowPut hwf
        rw [hmiss]
        simp only [hok, if_true]
        refine ⟨trivial, hd, ht, hothers, ?_⟩
        intro nowCheck2 nowPut2 reply2 hage2
        have hfresh2 := (freshListing_some_iff (putListing cache adminID groups nowPut).1 adminID
          nowCheck2 groups).2 ⟨nowPut, hd, ht, hage2⟩
        rw [getMyGroups_hit _ adminID nowCheck2 nowPut2 reply2 groups hA hfresh2]
      · intro hfail
        rw [hmiss]
        cases reply with
        | transportError => exact ⟨rfl, fun _ _ _ h => by cases h⟩
        | badStatus => exact ⟨rfl, fun _ _ _ h => by cases h⟩
        | undecodable => exact ⟨rfl, fun _ _ _ h => by cases h⟩
        | rows groups => exact absurd rfl (hfail groups)

/-- Witness for C17 on `demoCache`: the entry of admin `a1`, stored at second
10, is served at second 100. -/
theorem groups_cache_freshness_witness :
    "a1" ≠ "" ∧ demoCache.data.isSome = demoCache.timestamps.isSome ∧
    cacheData demoCache "a1"
      = some [{ id := "g1", name := "Hall", status := "inactive", created_at := "d1" }] ∧
    cacheStamp demoCache "a1" = some (10 * second) ∧
    100 * second - 10 * second < groupsCacheDuration ∧
    getMyGroupsHandler demoCache "a1" "" (100 * second) (100 * second) StoreRows.transportError
      = (demoCache,
          MyGroupsResult.listing
            [{ id := "g1", name := "Hall", status := "inactive", created_at := "d1" }] 1 true) :=
  ⟨by decide, rfl, rfl, rfl, by decide,
    (groups_cache_freshness demoCache "a1" (100 * second) (100 * second)
      StoreRows.transportError (by decide) rfl).2.1 _ _ rfl rfl (by decide)⟩

/-- The two maps of the group-listing cache are nil together at process start
and stay so under every handler that writes the cache. -/
theorem groupsCache_allocated_together {F : Type} (L : Lib F) (st : State F) (c : GroupsCache)
    (hwf : c.data.isSome = c.timestamps.isSome) :
    GroupsCache.init.data.isSome = GroupsCache.init.timestamps.isSome ∧
    (∀ (groupName adminID : String) (reply : StoreRows (String × String)),
      (createGroupHandler L st c groupName adminID reply).2.1.data.isSome
        = (createGroupHandler L st c groupName adminID reply).2.1.timestamps.isSome) ∧
    (∀ (groupID : String) (reply : DeleteReply),
      (deleteGroupHandler st c groupID reply).2.1.data.isSome
        = (deleteGroupHandler st c groupID reply).2.1.timestamps.isSome) ∧
    (∀ (adminID bust : String) (nowCheck nowPut : Int) (reply : StoreRows GroupRow),
      (getMyGroupsHandler c adminID bust nowCheck nowPut reply).1.data.isSome
        = (getMyGroupsHandler c adminID bust nowCheck nowPut reply).1.timestamps.isSome) := by
  have hadm : ∀ a, (invalidateAdmin c a).data.isSome = (invalidateAdmin c a).timestamps.isSome := by
    intro a
    unfold invalidateAdmin
    simpa using hwf
  refine ⟨rfl, ?_, ?_, ?_⟩
  · intro groupName adminID reply
    unfold createGroupHandler
    split_ifs
    · exact hwf
    · cases reply with
      | transportError => exact hwf
      | badStatus => exact hwf
      | undecodable => exact hwf
      | rows rs =>
        cases rs with
        | nil => exact hwf
        | cons r rest => exact hadm adminID
  · intro groupID reply
    unfold deleteGroupHandler
    split_ifs
    · exact hwf
    · cases reply with
      | transportError => exact hwf
      | badStatus => exact hwf
      | done =>
        unfold invalidateAll
        simpa using hwf
  · intro adminID bust nowCheck nowPut reply
    have key : ∀ c1 : GroupsCache, c1.data.isSome = c1.timestamps.isSome →
        ∀ hit : Option (List GroupRow),
        (match hit with
          | some cachedGroups => (c1, MyGroupsResult.listing cachedGroups cachedGroups.length true)
          | none =>
            match reply with
            | StoreRows.transportError => (c1, MyGroupsResult.connectionError)
            | StoreRows.badStatus => (c1, MyGroupsResult.fetchFailed)
            | StoreRows.undecodable => (c1, MyGroupsResult.parseFailed)
            | StoreRows.rows groups =>
              if (putListing c1 adminID groups nowPut).2 = true then
                ((putListing c1 adminID groups nowPut).1,
                  MyGroupsResult.listing groups groups.length false)
              else ((putListing c1 adminID groups nowPut).1, MyGroupsResult.panicked)).1.data.isSome
        = (match hit with
          | some cachedGroups => (c1, MyGroupsResult.listing cachedGroups cachedGroups.length true)
          | none =>
            match reply with
            | StoreRows.transportError => (c1, MyGroupsResult.connectionError)
            | StoreRows.badStatus => (c1, MyGroupsResult.fetchFailed)
            | StoreRows.undecodable => (c1, MyGroupsResult.parseFailed)
            | StoreRows.rows groups =>
              if (putListing c1 adminID groups nowPut).2 = true then
                ((putListing c1 adminID groups nowPut).1,
                  MyGroupsResult.listing groups groups.length false)
              else ((putListing c1 adminID groups nowPut).1,
                MyGroupsResult.panicked)).1.timestamps.isSome := by
      intro c1 h1 hit
      cases hit with
      | some gs => exact h1
      | none =>
        cases reply with
        | transportError => exact h1
        | badStatus => exact h1
        | undecodable => exact h1
        | rows groups =>
          have hp := (putListing_spec c1 adminID groups nowPut h1).2.2.2.2
          simp only []
          split_ifs
          · exact hp
          · exact hp
    unfold getMyGroupsHandler
    by_cases h1 : adminID = ""
    · simp only [if_pos h1]
      exact hwf
    · simp only [if_neg h1]
      by_cases hb : bust = ""
      · have hd : decide (bust ≠ "") = false := by simp [hb]
        simp only [hd, Bool.false_eq_true, if_false]
        exact key c hwf _
      · have hd : decide (bust ≠ "") = true := by simp [hb]
        simp only [hd, if_true]
        exact key _ (hadm adminID) none

/-! ## C19 -/

/-- The list-view page-1 read without cache-bust parameter, on a cache that
passes the cache test. -/
theorem getAllStudents_hit {F : Type} (L : Lib F) (atoi : String → Option Int)
    (cache : StudentCache) (submittedStudents : List (String × Bool))
    (studentLocations : List (String × StudentLocation F)) (pageStr limitStr : String)
    (store : Int → Int → StudentsReply) (nowCheck nowPut : Int)
    (hpage : effectivePage atoi pageStr = 1)
    (hhit : studentCacheHit cache true 1 nowCheck = true) :
    getAllStudentsHandler L atoi cache submittedStudents studentLocations pageStr limitStr ""
        "list" store nowCheck nowPut
      = (cache, AllStudentsResult.page
          { students := StudentsPayload.listView cache.data, count := cache.data.length,
            page := 1, limit := effectiveLimit atoi limitStr,
            hasMore := decide ((cache.data.length : Int) = effectiveLimit atoi limitStr),
            totalPages := totalPagesOf cache.totalCount (effectiveLimit atoi limitStr),
            xCache := some true }) := by
  unfold getAllStudentsHandler
  simp [hpage, hhit]

/-- The list-view page-1 read that does not pass the cache test and gets rows
from the store. -/
theorem getAllStudents_miss {F : Type} (L : Lib F) (atoi : String → Option Int)
    (cache : StudentCache) (submittedStudents : List (String × Bool))
    (studentLocations : List (String × StudentLocation F)) (pageStr limitStr : String)
    (store : Int → Int → StudentsReply) (nowCheck nowPut : Int) (total : Option Int)
    (students : List StudentRecord)
    (hpage : effectivePage atoi pageStr = 1)
    (hmiss : studentCacheHit cache true 1 nowCheck = false)
    (hstore : store (effectiveLimit atoi limitStr) (pageOffset 1 (effectiveLimit atoi limitStr))
      = StudentsReply.rows total students) :
    getAllStudentsHandler L atoi cache submittedStudents studentLocations pageStr limitStr ""
        "list" store nowCheck nowPut
      = ({ data := students.map listItem,
           totalCount := total.getD 0, timestamp := some nowPut },
         AllStudentsResult.page
          { students := StudentsPayload.listView (students.map listItem),
            count := (students.map listItem).length,
            page := 1, limit := effectiveLimit atoi limitStr,
            hasMore := decide ((students.length : Int) = effectiveLimit atoi limitStr),
            totalPages := totalPagesOf (total.getD 0) (effectiveLimit atoi limitStr),
            xCache := some false }) := by
  unfold getAllStudentsHandler
  simp [hpage, hmiss, hstore]

theorem studentCacheHit_iff (cache : StudentCache) (now : Int) :
    studentCacheHit cache true 1 now = true ↔
      ∃ ts, cache.timestamp = some ts ∧ now - ts < cacheDuration ∧ cache.data ≠ [] := by
  unfold studentCacheHit
  cases hts : cache.timestamp with
  | none => simp
  | some ts =>
    have hlen : cache.data.length > 0 ↔ cache.data ≠ [] := by
      cases cache.data <;> simp
    simp [hlen]

/-- A read with the cache-bust parameter `_t` clears the cache first, so the
cache test fails whatever the cache held: the read is the read of an empty
cache. -/
theorem getAllStudents_bust {F : Type} (L : Lib F) (atoi : String → Option Int)
    (cache : StudentCache) (submittedStudents : List (String × Bool))
    (studentLocations : List (String × StudentLocation F)) (pageStr limitStr bust view : String)
    (store : Int → Int → StudentsReply) (nowCheck nowPut : Int) (hbust : bust ≠ "") :
    getAllStudentsHandler L atoi cache submittedStudents studentLocations pageStr limitStr bust
        view store nowCheck nowPut
      = getAllStudentsHandler L atoi StudentCache.init submittedStudents studentLocations pageStr
          limitStr "" view store nowCheck nowPut ∧
    studentCacheHit StudentCache.init (decide (view = "list")) (effectivePage atoi pageStr)
      nowCheck = false := by
  constructor
  · unfold getAllStudentsHandler StudentCache.init
    simp [hbust]
  · unfold studentCacheHit StudentCache.init
    split_ifs <;> rfl

/-- C19 (as the code has it). A counterexample to invalidation on write: the
directory cache was filled at second 0 with the listing `[ST1]`; student `ST2`
is added successfully; a list-view page-1 read at second 2, when the store
lists both students, is answered from the cache with the listing `[ST1]`. -/
theorem stale_directory_after_add_student :
    (addStudentHandler demoStudentCache (some ("ST2", "Bob")) (some 0)
      (AddStudentReply.array 1)).2 = AddStudentResult.added ∧
    getAllStudentsHandler testLib scanInt
        (addStudentHandler demoStudentCache (some ("ST2", "Bob")) (some 0)
          (AddStudentReply.array 1)).1
        [] [] "1" "" "" "list" demoStudentStore (2 * second) (2 * second)
      = (demoStudentCache, AllStudentsResult.page
          { students := StudentsPayload.listView
              [{ id := "u-1", student_id := "ST1", student_name := "Ann",
                 status := "Not Submitted" }],
            count := 1, page := 1, limit := 100, hasMore := false, totalPages := 1,
            xCache := some true }) := by
  exact ⟨rfl, rfl⟩

/-- C19, amended. Add-student never touches the participant-directory cache,
whatever its outcome.  So the next list-view page-1 read without cache-bust
parameter is a cache hit, answered with the listing stored before the
student was added, exactly when that listing is not empty and less than ten
seconds old; otherwise it is a miss, answered with the store's rows, which
replace the cached listing.  A read with a cache-bust parameter `_t` is always
a miss: whatever the cache held, it is answered with the store's rows, which
replace the cached listing, and when the store fails the cache is left
empty and nothing is served from it. -/
theorem add_student_keeps_directory_cache {F : Type} (L : Lib F) (atoi : String → Option Int)
    (cache : StudentCache) (body : Option (String × String)) (existing : Option Nat)
    (reply : AddStudentReply) (submittedStudents : List (String × Bool))
    (studentLocations : List (String × StudentLocation F)) (pageStr limitStr : String)
    (store : Int → Int → StudentsReply) (nowCheck nowPut : Int)
    (hpage : effectivePage atoi pageStr = 1) :
    (addStudentHandler cache body existing reply).1 = cache ∧
    ((∃ ts, cache.timestamp = some ts ∧ nowCheck - ts < cacheDuration ∧ cache.data ≠ []) →
      getAllStudentsHandler L atoi (addStudentHandler cache body existing reply).1
          submittedStudents studentLocations pageStr limitStr "" "list" store nowCheck nowPut
        = (cache, AllStudentsResult.page
            { students := StudentsPayload.listView cache.data, count := cache.data.length,
              page := 1, limit := effectiveLimit atoi limitStr,
              hasMore := decide ((cache.data.length : Int) = effectiveLimit atoi limitStr),
              totalPages := totalPagesOf cache.totalCount (effectiveLimit atoi limitStr),
              xCache := some true })) ∧
    ((¬ ∃ ts, cache.timestamp = some ts ∧ nowCheck - ts < cacheDuration ∧ cache.data ≠ []) →
      ∀ total students,
        store (effectiveLimit atoi limitStr) (pageOffset 1 (effectiveLimit atoi limitStr))
          = StudentsReply.rows total students →
        (getAllStudentsHandler L atoi (addStudentHandler cache body existing reply).1
          submittedStudents studentLocations pageStr limitStr "" "list" store nowCheck nowPut).1
          = { data := students.map listItem,
              totalCount := total.getD 0, timestamp := some nowPut } ∧
        ∃ p, (getAllStudentsHandler L atoi (addStudentHandler cache body existing reply).1
          submittedStudents studentLocations pageStr limitStr "" "list" store nowCheck nowPut).2
          = AllStudentsResult.page p ∧ p.xCache = some false ∧
          p.students = StudentsPayload.listView (students.map listItem)) ∧
    (∀ bust : String, bust ≠ "" →
      (∀ total students,
        store (effectiveLimit atoi limitStr) (pageOffset 1 (effectiveLimit atoi limitStr))
          = StudentsReply.rows total students →
        (getAllStudentsHandler L atoi (addStudentHandler cache body existing reply).1
          submittedStudents studentLocations pageStr limitStr bust "list" store nowCheck
          nowPut).1
          = { data := students.map listItem,
              totalCount := total.getD 0, timestamp := some nowPut } ∧
        ∃ p, (getAllStudentsHandler L atoi (addStudentHandler cache body existing reply).1
          submittedStudents studentLocations pageStr limitStr bust "list" store nowCheck
          nowPut).2
          = AllStudentsResult.page p ∧ p.xCache = some false ∧
          p.students = StudentsPayload.listView (students.map listItem)) ∧
      ((∀ total students,
        store (effectiveLimit atoi limitStr) (pageOffset 1 (effectiveLimit atoi limitStr))
          ≠ StudentsReply.rows total students) →
        (getAllStudentsHandler L atoi (addStudentHandler cache body existing reply).1
          submittedStudents studentLocations pageStr limitStr bust "list" store nowCheck
          nowPut).1 = StudentCache.init ∧
        pageOf (getAllStudentsHandler L atoi (addStudentHandler cache body existing reply).1
          submittedStudents studentLocations pageStr limitStr bust "list" store nowCheck
          nowPut).2 = none)) := by
  have hkeep : (addStudentHandler cache body existing reply).1 = cache := by
    unfold addStudentHandler
    cases body with
    | none => rfl
    | some data =>
      simp only []
      split_ifs
      · rfl
      · rfl
      · cases reply with
        | transportError => rfl
        | badStatus => rfl
        | unparsable => rfl
        | single => rfl
        | array n => cases n <;> rfl
  rw [hkeep]
  have hinit : studentCacheHit StudentCache.init true 1 nowCheck = false := rfl
  refine ⟨rfl, ?_, ?_, ?_⟩
  · intro hfresh
    exact getAllStudents_hit L atoi cache _ _ pageStr limitStr store nowCheck nowPut hpage
      ((studentCacheHit_iff cache nowCheck).2 hfresh)
  · intro hstale total students hstore
    have hmiss : studentCacheHit cache true 1 nowCheck = false := by
      cases h : studentCacheHit cache true 1 nowCheck with
      | false => rfl
      | true => exact absurd ((studentCacheHit_iff cache nowCheck).1 h) hstale
    rw [getAllStudents_miss L atoi cache _ _ pageStr limitStr store nowCheck nowPut total students
      hpage hmiss hstore]
    exact ⟨rfl, _, rfl, rfl, rfl⟩
  · intro bust hbust
    rw [(getAllStudents_bust L atoi cache submittedStudents studentLocations pageStr limitStr
      bust "list" store nowCheck nowPut hbust).1]
    constructor
    · intro total students hstore
      rw [getAllStudents_miss L atoi StudentCache.init _ _ pageStr limitStr store nowCheck nowPut
        total students hpage hinit hstore]
      exact ⟨rfl, _, rfl, rfl, rfl⟩
    · intro hfail
      unfold getAllStudentsHandler
      simp only [hpage]
      have hne : ¬ ("" : String) ≠ "" := fun h => h rfl
      simp only [hne, if_false, decide_True, hinit, Bool.false_eq_true]
      cases hs : store (effectiveLimit atoi limitStr) (pageOffset 1 (effectiveLimit atoi limitStr))
        with
      | transportError => exact ⟨rfl, rfl⟩
      | badStatus => exact ⟨rfl, rfl⟩
      | undecodable => exact ⟨rfl, rfl⟩
      | rows total students => exact absurd hs (hfail total students)

/-- Witness for C19 amended: the run of the counterexample. -/
theorem add_student_keeps_directory_cache_witness :
    effectivePage scanInt "1" = 1 ∧
    (∃ ts, demoStudentCache.timestamp = some ts ∧ 2 * second - ts < cacheDuration ∧
      demoStudentCache.data ≠ []) ∧
    (addStudentHandler demoStudentCache (some ("ST2", "Bob")) (some 0)
      (AddStudentReply.array 1)).1 = demoStudentCache ∧
    getAllStudentsHandler testLib scanInt
        (addStudentHandler demoStudentCache (some ("ST2", "Bob")) (some 0)
          (AddStudentReply.array 1)).1
        [] [] "1" "" "" "list" demoStudentStore (2 * second) (2 * second)
      = (demoStudentCache, AllStudentsResult.page
          { students := StudentsPayload.listView demoStudentCache.data,
            count := demoStudentCache.data.length,
            page := 1, limit := effectiveLimit scanInt "",
            hasMore := decide ((demoStudentCache.data.length : Int) = effectiveLimit scanInt ""),
            totalPages := totalPagesOf demoStudentCache.totalCount (effectiveLimit scanInt ""),
            xCache := some true }) ∧
    (getAllStudentsHandler testLib scanInt
        (addStudentHandler demoStudentCache (some ("ST2", "Bob")) (some 0)
          (AddStudentReply.array 1)).1
        [] [] "1" "" "1700" "list" demoStudentStore (2 * second) (2 * second)).1
      = { data := [{ id := "u-1", student_id := "ST1", student_name := "Ann" },
                   { id := "u-2", student_id := "ST2", student_name := "Bob" }].map listItem,
          totalCount := (some (2 : Int)).getD 0, timestamp := some (2 * second) } :=
  ⟨by decide, ⟨0, rfl, by decide, by decide⟩,
    (add_student_keeps_directory_cache testLib scanInt demoStudentCache (some ("ST2", "Bob"))
      (some 0) (AddStudentReply.array 1) [] [] "1" "" demoStudentStore (2 * second) (2 * second)
      (by decide)).1,
    (add_student_keeps_directory_cache testLib scanInt demoStudentCache (some ("ST2", "Bob"))
      (some 0) (AddStudentReply.array 1) [] [] "1" "" demoStudentStore (2 * second) (2 * second)
      (by decide)).2.1 ⟨0, rfl, by decide, by decide⟩,
    (((add_student_keeps_directory_cache testLib scanInt demoStudentCache (some ("ST2", "Bob"))
      (some 0) (AddStudentReply.array 1) [] [] "1" "" demoStudentStore (2 * second) (2 * second)
      (by decide)).2.2.2 "1700" (by decide)).1 (some 2)
        [{ id := "u-1", student_id := "ST1", student_name := "Ann" },
         { id := "u-2", student_id := "ST2", student_name := "Bob" }] rfl).1⟩

/-! ## C20 -/

/-- C20 (failing input). Session `g3` has its center at (12, 77).  A
set-center with a malformed latitude is rejected, yet it leaves the latitude
of the session at 0; one with a well-formed latitude 5 and a malformed
longitude is rejected, yet it leaves the center at (5, 0); one with a
malformed threshold is rejected after replacing the center and zeroing the
threshold; and a rejected request for an id that is not registered adds a
session to the registry. -/
theorem set_center_rejection_mutates :
    GetGroup centeredState "g3" = some centeredGroup ∧
    (setCenterHandler testLib centeredState "g3" "north" "77" "" "50" second true).2
      = SetCenterResult.invalidLatitude ∧
    GetGroup (setCenterHandler testLib centeredState "g3" "north" "77" "" "50" second true).1 "g3"
      = some { centeredGroup with AdminLat := 0 } ∧
    (setCenterHandler testLib centeredState "g3" "5" "east" "" "50" second true).2
      = SetCenterResult.invalidLongitude ∧
    GetGroup (setCenterHandler testLib centeredState "g3" "5" "east" "" "50" second true).1 "g3"
      = some { centeredGroup with AdminLat := 5, AdminLon := 0 } ∧
    (setCenterHandler testLib centeredState "g3" "5" "6" "" "wide" second true).2
      = SetCenterResult.invalidThreshold ∧
    GetGroup (setCenterHandler testLib centeredState "g3" "5" "6" "" "wide" second true).1 "g3"
      = some { centeredGroup with AdminLat := 5, AdminLon := 6, ThresholdMeters := 0 } ∧
    GetGroup centeredState "g8" = none ∧
    (setCenterHandler testLib centeredState "g8" "north" "77" "" "50" second true).2
      = SetCenterResult.invalidLatitude ∧
    GetGroup (setCenterHandler testLib centeredState "g8" "north" "77" "" "50" second true).1 "g8"
      = some (newGroup testLib "g8") := by
  exact ⟨rfl, rfl, rfl, rfl, rfl, rfl, rfl, rfl, rfl, rfl⟩

/-! ## The audit log across operations: lemmas -/

/-- What a start does to the audit log of the group it is applied to: nothing
when the group has a file pointer or the file cannot be created, a newly
created log otherwise. -/
theorem startGroup_log {F : Type} (L : Lib F) (g : GroupData F) (groupID groupOnlyStr : String)
    (dbMeta : Option (String × String)) (nowStart nowEnd nowFile : Int) (createOk : Bool) :
    ((g.CSVFile ≠ none ∨ createOk = false) →
      SameLog g (startGroup L g groupID groupOnlyStr dbMeta nowStart nowEnd nowFile createOk)) ∧
    (g.CSVFile = none → createOk = true →
      FreshLog g (startGroup L g groupID groupOnlyStr dbMeta nowStart nowEnd nowFile createOk)) := by
  obtain ⟨ID, Name, AdminID, AdminLat, AdminLon, Thr, WA, WS, WE, GO, Sub, Loc, CSVFile, CSVWriter,
    files⟩ := g
  unfold startGroup SameLog FreshLog
  cases CSVFile <;> cases createOk <;> cases dbMeta <;>
    by_cases hc : (Name = "" ∧ groupID ≠ "default") <;> simp [hc]

/-- What a set-center does to the audit log of the session it is applied to,
by response: nothing (and the name is kept) when a number is malformed, the
file pointer cleared when the file cannot be created, a newly created log on
success. -/
theorem setCenter_log {F : Type} (L : Lib F) (st : State F)
    (groupIDraw latStr lonStr sessionName thresholdStr : String) (now : Int) (createOk : Bool) :
    ∃ g2,
      GetGroup (setCenterHandler L st groupIDraw latStr lonStr sessionName thresholdStr now
        createOk).1 (effectiveGroupID groupIDraw) = some g2 ∧
      ((((setCenterHandler L st groupIDraw latStr lonStr sessionName thresholdStr now createOk).2
            = SetCenterResult.invalidLatitude ∨
          (setCenterHandler L st groupIDraw latStr lonStr sessionName thresholdStr now createOk).2
            = SetCenterResult.invalidLongitude ∨
          (setCenterHandler L st groupIDraw latStr lonStr sessionName thresholdStr now createOk).2
            = SetCenterResult.invalidThreshold) ∧
          SameLog (GetOrCreateGroup L st (effectiveGroupID groupIDraw)).2 g2 ∧
          g2.Name = (GetOrCreateGroup L st (effectiveGroupID groupIDraw)).2.Name) ∨
        ((setCenterHandler L st groupIDraw latStr lonStr sessionName thresholdStr now createOk).2
            = SetCenterResult.createFailed ∧
          g2.CSVFile = none ∧
          g2.CSVWriter = (GetOrCreateGroup L st (effectiveGroupID groupIDraw)).2.CSVWriter ∧
          g2.files = (GetOrCreateGroup L st (effectiveGroupID groupIDraw)).2.files) ∨
        ((setCenterHandler L st groupIDraw latStr lonStr sessionName thresholdStr now createOk).2
            = SetCenterResult.centerSet ∧
          FreshLog (GetOrCreateGroup L st (effectiveGroupID groupIDraw)).2 g2)) := by
  unfold setCenterHandler
  simp only []
  split_ifs
  · exact ⟨_, getGroup_storeGroup_self _ _ _, Or.inl ⟨Or.inl rfl, ⟨rfl, rfl, rfl⟩, rfl⟩⟩
  · exact ⟨_, getGroup_storeGroup_self _ _ _, Or.inl ⟨Or.inr (Or.inl rfl), ⟨rfl, rfl, rfl⟩, rfl⟩⟩
  · exact ⟨_, getGroup_storeGroup_self _ _ _,
      Or.inl ⟨Or.inr (Or.inr rfl), ⟨rfl, rfl, rfl⟩, rfl⟩⟩
  · exact ⟨_, getGroup_storeGroup_self _ _ _, Or.inr (Or.inl ⟨rfl, rfl, rfl, rfl⟩)⟩
  · exact ⟨_, getGroup_storeGroup_self _ _ _, Or.inr (Or.inl ⟨rfl, rfl, rfl, rfl⟩)⟩
  · exact ⟨_, getGroup_storeGroup_self _ _ _, Or.inr (Or.inr ⟨rfl, _, rfl, rfl, rfl⟩)⟩
  · exact ⟨_, getGroup_storeGroup_self _ _ _, Or.inr (Or.inr ⟨rfl, _, rfl, rfl, rfl⟩)⟩

/-- What a start does to the audit log of the session it is applied to. -/
theorem startWindow_log {F : Type} (L : Lib F) (st : State F)
    (groupIDraw groupOnlyStr : String) (dbMeta : Option (String × String))
    (nowStart nowEnd nowFile nowSpawn : Int) (createOk : Bool) :
    ∃ g2,
      GetGroup (startWindowHandler L st groupIDraw groupOnlyStr dbMeta nowStart nowEnd nowFile
        nowSpawn createOk) (effectiveGroupID groupIDraw) = some g2 ∧
      (((GetOrCreateGroup L st (effectiveGroupID groupIDraw)).2.CSVFile ≠ none ∨
          createOk = false) →
        SameLog (GetOrCreateGroup L st (effectiveGroupID groupIDraw)).2 g2) ∧
      ((GetOrCreateGroup L st (effectiveGroupID groupIDraw)).2.CSVFile = none →
        createOk = true →
        FreshLog (GetOrCreateGroup L st (effectiveGroupID groupIDraw)).2 g2) :=
  ⟨_, mapGet_mapSet_self _ _ _,
    startGroup_log L _ (effectiveGroupID groupIDraw) groupOnlyStr dbMeta nowStart nowEnd nowFile
      createOk⟩

/-- The file of a newly created log holds the header row only and is open. -/
theorem freshLog_file {F : Type} (g g2 : GroupData F) (h : FreshLog g g2) :
    ∃ f, g2.CSVFile = some g.files.length ∧ g2.CSVWriter = some g.files.length ∧
      g2.files.get? g.files.length = some f ∧ f.rows = [csvHeaders] ∧ f.closed = false := by
  obtain ⟨fname, hfiles, hfile, hwriter⟩ := h
  refine ⟨{ name := fname, rows := [csvHeaders], closed := false }, hfile, hwriter, ?_, rfl, rfl⟩
  rw [hfiles, List.get?_eq_getElem?, List.getElem?_append_right (le_refl _)]
  simp

/-! ## C14 -/

/-- C14 (as the code has it). The audit log that a first start-window creates
for session `g1` holds the row `StudentName, Time, Distance(m)`; its first
column is not `ParticipantName`. -/
theorem audit_header_not_participant_name :
    (GetGroup (startWindowHandler testLib (State.init Int) "g1" "false" none 0 0 0 0 true)
      "g1").map (fun g => g.files.map (fun f => f.rows))
      = some [[["StudentName", "Time", "Distance(m)"]]] ∧
    ¬ (GetGroup (startWindowHandler testLib (State.init Int) "g1" "false" none 0 0 0 0 true)
      "g1").map (fun g => g.files.map (fun f => f.rows.head?))
      = some [some ["ParticipantName", "Time", "Distance(m)"]] := by
  exact ⟨rfl, by decide⟩

/-- C14, amended. The first and only row of every newly created audit log,
whether set-center creates it or start-window does, is exactly the three
columns `StudentName`, `Time`, `Distance(m)`. -/
theorem audit_header_row {F : Type} (L : Lib F) (st : State F) (groupIDraw : String) :
    (∀ (latStr lonStr sessionName thresholdStr : String) (now : Int) (createOk : Bool),
      (setCenterHandler L st groupIDraw latStr lonStr sessionName thresholdStr now createOk).2
        = SetCenterResult.centerSet →
      ∃ g2 h f,
        GetGroup (setCenterHandler L st groupIDraw latStr lonStr sessionName thresholdStr now
          createOk).1 (effectiveGroupID groupIDraw) = some g2 ∧
        g2.CSVFile = some h ∧ g2.CSVWriter = some h ∧ g2.files.get? h = some f ∧
        f.rows = [["StudentName", "Time", "Distance(m)"]]) ∧
    (∀ (groupOnlyStr : String) (dbMeta : Option (String × String))
      (nowStart nowEnd nowFile nowSpawn : Int),
      (GetOrCreateGroup L st (effectiveGroupID groupIDraw)).2.CSVFile = none →
      ∃ g2 h f,
        GetGroup (startWindowHandler L st groupIDraw groupOnlyStr dbMeta nowStart nowEnd nowFile
          nowSpawn true) (effectiveGroupID groupIDraw) = some g2 ∧
        g2.CSVFile = some h ∧ g2.CSVWriter = some h ∧ g2.files.get? h = some f ∧
        f.rows = [["StudentName", "Time", "Distance(m)"]]) := by
  constructor
  · intro latStr lonStr sessionName thresholdStr now createOk hres
    obtain ⟨g2, hg2, hcase⟩ := setCenter_log L st groupIDraw latStr lonStr sessionName
      thresholdStr now createOk
    rcases hcase with ⟨hbad, -⟩ | ⟨hbad, -⟩ | ⟨-, hfresh⟩
    · rw [hres] at hbad
      rcases hbad with h | h | h <;> cases h
    · rw [hres] at hbad
      cases hbad
    · obtain ⟨f, hfile, hwriter, hf, hrows, -⟩ := freshLog_file _ g2 hfresh
      exact ⟨g2, _, f, hg2, hfile, hwriter, hf, hrows⟩
  · intro groupOnlyStr dbMeta nowStart nowEnd nowFile nowSpawn hnone
    obtain ⟨g2, hg2, -, hfresh⟩ := startWindow_log L st groupIDraw groupOnlyStr dbMeta nowStart
      nowEnd nowFile nowSpawn true
    obtain ⟨f, hfile, hwriter, hf, hrows, -⟩ := freshLog_file _ g2 (hfresh hnone rfl)
    exact ⟨g2, _, f, hg2, hfile, hwriter, hf, hrows⟩

/-- Witness for C14 amended: the log a first start-window creates for session
`g1` on the empty registry. -/
theorem audit_header_row_witness :
    (GetOrCreateGroup testLib (State.init Int) (effectiveGroupID "g1")).2.CSVFile = none ∧
    ∃ g2 h f,
      GetGroup (startWindowHandler testLib (State.init Int) "g1" "false" none 0 0 0 0 true)
        (effectiveGroupID "g1") = some g2 ∧
      g2.CSVFile = some h ∧ g2.CSVWriter = some h ∧ g2.files.get? h = some f ∧
      f.rows = [["StudentName", "Time", "Distance(m)"]] :=
  ⟨rfl, (audit_header_row testLib (State.init Int) "g1").2 "false" none 0 0 0 0 rfl⟩

/-! ## C13 -/

theorem writeRow_open (files : List CsvFileObj) (h : Nat) (f : CsvFileObj)
    (row : List String) (hf : files.get? h = some f) (hopen : f.closed = false) :
    (writeRow files h row).get? h = some { f with rows := f.rows ++ [row] } := by
  unfold writeRow
  simp only [hf, hopen]
  exact get_set_same files h f _ hf

/-- Rows written through a writer whose file is open are appended to that
file, in order, and the file stays open. -/
theorem applyRows_open (rows : List (List String)) (files : List CsvFileObj) (h : Nat)
    (f : CsvFileObj) (hf : files.get? h = some f) (hopen : f.closed = false) :
    ∃ f2, (applyRows (some h) files rows).get? h = some f2 ∧ f2.closed = false ∧
      f2.rows = f.rows ++ rows := by
  induction rows generalizing files f with
  | nil => exact ⟨f, hf, hopen, by simp⟩
  | cons row rest ih =>
    obtain ⟨f2, hf2, hopen2, hrows2⟩ := ih (writeRow files h row)
      { f with rows := f.rows ++ [row] } (writeRow_open files h f row hf hopen) hopen
    refine ⟨f2, hf2, hopen2, ?_⟩
    rw [hrows2]
    simp

theorem allGroups_storeGroup {F : Type} (P : GroupData F → Prop) (st : State F) (gid : String)
    (g : GroupData F) (hst : AllGroups P st) (hg : P g) : AllGroups P (storeGroup st gid g) := by
  intro e he
  rcases mem_mapSet st.groups gid g e he with h | h
  · rw [h]; exact hg
  · exact hst e h

theorem allGroups_of_getGroup {F : Type} (P : GroupData F → Prop) (st : State F) (gid : String)
    (g : GroupData F) (hst : AllGroups P st) (hget : GetGroup st gid = some g) : P g :=
  hst (gid, g) (mem_of_mapGet st.groups gid g hget)

theorem allGroups_getOrCreate {F : Type} (L : Lib F) (P : GroupData F → Prop)
    (hnew : ∀ id, P (newGroup L id)) (st : State F) (gid : String) (hst : AllGroups P st) :
    AllGroups P (GetOrCreateGroup L st gid).1 ∧ P (GetOrCreateGroup L st gid).2 := by
  cases hget : GetGroup st gid with
  | some g =>
    rw [getOrCreate_of_get L st gid g hget]
    exact ⟨hst, allGroups_of_getGroup P st gid g hst hget⟩
  | none =>
    rw [getOrCreate_of_none L st gid hget]
    exact ⟨allGroups_storeGroup P st gid _ hst (hnew gid), hnew gid⟩

/-- Every operation other than a set-center keeps a property of sessions that
depends on the threshold only. -/
theorem allGroups_step_threshold {F : Type} (L : Lib F) (P : GroupData F → Prop)
    (hcongr : ∀ g g2 : GroupData F, P g → g2.ThresholdMeters = g.ThresholdMeters → P g2)
    (hnew : ∀ id, P (newGroup L id)) (st : State F) (op : Op F)
    (hop : ∀ g lat lon name thr now ok, op ≠ Op.setCenter g lat lon name thr now ok)
    (hst : AllGroups P st) : AllGroups P (step L st op) := by
  cases op with
  | setCenter k lat lon name thr now ok => exact absurd rfl (hop k lat lon name thr now ok)
  | startWindow k only dbMeta n1 n2 n3 n4 ok =>
    have hsg := allGroups_getOrCreate L P hnew st (effectiveGroupID k) hst
    have hthr : (startGroup L (GetOrCreateGroup L st (effectiveGroupID k)).2 (effectiveGroupID k)
        only dbMeta n1 n2 n3 ok).ThresholdMeters
        = (GetOrCreateGroup L st (effectiveGroupID k)).2.ThresholdMeters := by
      generalize (GetOrCreateGroup L st (effectiveGroupID k)).2 = g
      obtain ⟨ID, Name, AdminID, AdminLat, AdminLon, Thr, WA, WS, WE, GO, Sub, Loc, CSVFile,
        CSVWriter, files⟩ := g
      unfold startGroup
      cases CSVFile <;> cases ok <;> cases dbMeta <;>
        by_cases hc : (Name = "" ∧ effectiveGroupID k ≠ "default") <;> simp [hc]
    exact allGroups_storeGroup P _ _ _ hsg.1 (hcongr _ _ hsg.2 hthr)
  | closeWindow k =>
    show AllGroups P (closeWindowHandler st k).1
    cases hget : GetGroup st (effectiveGroupID k) with
    | none =>
      have h1 : closeWindowHandler st k = (st, CloseResult.groupNotFound) := by
        unfold closeWindowHandler
        simp [hget]
      rw [h1]
      exact hst
    | some g =>
      rw [closeWindow_of_group st k g hget]
      apply allGroups_storeGroup P _ _ _ hst
      have hg := allGroups_of_getGroup P st _ g hst hget
      cases g.CSVFile <;> exact hcongr _ _ hg rfl
  | submit k form store now =>
    show AllGroups P (submitAttendanceHandler L st k form store now).1
    unfold submitAttendanceHandler
    simp only []
    cases hget : GetGroup st (effectiveGroupID k) with
    | none => exact hst
    | some g =>
      have hg := allGroups_of_getGroup P st _ g hst hget
      simp only []
      split_ifs
      · exact hst
      · cases memberGate g.GroupOnly (effectiveGroupID k) store with
        | some r => exact hst
        | none =>
          apply allGroups_storeGroup P _ _ _ hst
          apply hcongr g _ hg
          unfold submitLocked
          simp only []
          split_ifs <;> rfl
  | windowStatus sid uuid ms clock k restore n1 n2 n3 =>
    show AllGroups P (getWindowStatusHandler L st sid uuid ms clock k restore n1 n2 n3).1
    unfold getWindowStatusHandler
    cases statusByStudent st sid uuid ms clock with
    | some resp => exact hst
    | none =>
      have hsg := allGroups_getOrCreate L P hnew st (effectiveGroupID k) hst
      show AllGroups P (statusByGroup L st k restore n1 n2 n3).1
      unfold statusByGroup
      simp only []
      cases hget : GetGroup st (effectiveGroupID k) with
      | some g =>
        have hg := allGroups_of_getGroup P st _ g hst hget
        simp only []
        split_ifs
        · exact allGroups_storeGroup P _ _ _ hst (hcongr _ _ hg rfl)
        · exact hst
        · exact hst
      | none =>
        simp only []
        split_ifs with hd
        · cases restore with
          | none => exact hst
          | some r =>
            have hr : P { (GetOrCreateGroup L st (effectiveGroupID k)).2 with
                Name := r.name, WindowStartTime := r.startTime, WindowEndTime := r.endTime,
                WindowActive := decide (n1 < r.endTime) } := hcongr _ _ hsg.2 rfl
            have hst1 := allGroups_storeGroup P _ (effectiveGroupID k) _ hsg.1 hr
            simp only []
            split_ifs
            · exact allGroups_storeGroup P _ _ _ hst1 (hcongr _ _ hr rfl)
            · exact hst1
            · exact hst1
        · exact hst
  | studentLocations k recs =>
    show AllGroups P (getAllStudentLocationsHandler L st k recs).1
    clear hop
    have hsg := allGroups_getOrCreate L P hnew st (effectiveGroupID k) hst
    have hload : ∀ (records : List (StudentLocation F)) (g : GroupData F),
        (loadRecords g records).ThresholdMeters = g.ThresholdMeters := by
      intro records
      induction records with
      | nil => intro g; rfl
      | cons loc rest ih => intro g; exact ih _
    have key : ∀ (st1 : State F) (g : GroupData F), AllGroups P st1 → P g →
        AllGroups P (storeGroup st1 (effectiveGroupID k)
          (if g.StudentLocations.length = 0 ∧ effectiveGroupID k ≠ "default" then
            match recs with
            | some records => loadRecords g records
            | none => g
          else g)) := by
      intro st1 g h1 hg
      apply allGroups_storeGroup P _ _ _ h1
      split_ifs
      · cases recs with
        | none => exact hg
        | some records => exact hcongr _ _ hg (hload records g)
      · exact hg
    unfold getAllStudentLocationsHandler
    simp only []
    cases hget : GetGroup st (effectiveGroupID k) with
    | some g => exact key st g hst (allGroups_of_getGroup P st _ g hst hget)
    | none =>
      simp only []
      split_ifs
      · exact key _ _ hsg.1 hsg.2
      · exact hst
  | timer i now =>
    show AllGroups P ((timerFire st i now).getD st)
    unfold timerFire
    cases st.timers.get? i with
    | none => exact hst
    | some t =>
      simp only []
      split_ifs
      · show AllGroups P (autoClose { st with timers := st.timers.eraseIdx i } t.1)
        unfold autoClose
        cases hget : GetGroup { st with timers := st.timers.eraseIdx i } t.1 with
        | none => exact hst
        | some g =>
          exact allGroups_storeGroup P _ _ _ hst
            (hcongr _ _ (allGroups_of_getGroup P st t.1 g hst hget) rfl)
      · exact hst

theorem thresholdNonneg_new {F : Type} (L : Lib F)
    (hzero : L.le (L.ofNat 0) (L.ofNat 0) = true) (id : String) :
    ThresholdNonneg L (newGroup L id) := hzero

theorem thresholdNonneg_congr {F : Type} (L : Lib F) (g g2 : GroupData F)
    (hg : ThresholdNonneg L g) (h : g2.ThresholdMeters = g.ThresholdMeters) :
    ThresholdNonneg L g2 := by
  unfold ThresholdNonneg
  rw [h]
  exact hg

theorem setCenter_thresholdNonneg {F : Type} (L : Lib F) (st : State F)
    (groupIDraw latStr lonStr sessionName thresholdStr : String) (now : Int) (createOk : Bool)
    (hzero : L.le (L.ofNat 0) (L.ofNat 0) = true)
    (hthr : ∀ x, L.scanFloat thresholdStr = some x → L.le (L.ofNat 0) x = true)
    (hst : AllGroups (ThresholdNonneg L) st) :
    AllGroups (ThresholdNonneg L)
      (setCenterHandler L st groupIDraw latStr lonStr sessionName thresholdStr now createOk).1 := by
  have hsg := allGroups_getOrCreate L (ThresholdNonneg L) (thresholdNonneg_new L hzero) st
    (effectiveGroupID groupIDraw) hst
  have hp : L.le (L.ofNat 0) (parseFloat L thresholdStr).1 = true := by
    unfold parseFloat
    cases hs : L.scanFloat thresholdStr with
    | none => exact hzero
    | some x => exact hthr x hs
  unfold setCenterHandler
  simp only []
  split_ifs
  · exact allGroups_storeGroup _ _ _ _ hsg.1 (thresholdNonneg_congr L _ _ hsg.2 rfl)
  · exact allGroups_storeGroup _ _ _ _ hsg.1 (thresholdNonneg_congr L _ _ hsg.2 rfl)
  all_goals exact allGroups_storeGroup _ _ _ _ hsg.1 hp

theorem loadCenter_threshold {F : Type} (g : GroupData F) (lat lon : F) (r : StoreCenter F) :
    (loadCenter g lat lon r).ThresholdMeters =
      (match r.threshold_meters with
        | some t => t
        | none => g.ThresholdMeters) := by
  unfold loadCenter
  simp only []
  cases r.threshold_meters <;> split_ifs <;> rfl

theorem adminLocation_thresholdNonneg {F : Type} (L : Lib F) (nonZero : F → Bool) (st : State F)
    (legacy : LegacyGlobals F) (groupIDraw : String) (row : Option (StoreCenter F))
    (hzero : L.le (L.ofNat 0) (L.ofNat 0) = true)
    (hrow : ∀ r, row = some r → ∀ x, r.threshold_meters = some x → L.le (L.ofNat 0) x = true)
    (hst : AllGroups (ThresholdNonneg L) st) :
    AllGroups (ThresholdNonneg L)
      (getAdminLocationHandler L nonZero st legacy groupIDraw row).1 := by
  have hsg := allGroups_getOrCreate L (ThresholdNonneg L) (thresholdNonneg_new L hzero) st
    (effectiveGroupID groupIDraw) hst
  have hload : ∀ r lat lon, row = some r → ThresholdNonneg L
      (loadCenter (GetOrCreateGroup L st (effectiveGroupID groupIDraw)).2 lat lon r) := by
    intro r lat lon hr
    unfold ThresholdNonneg
    rw [loadCenter_threshold]
    cases ht : r.threshold_meters with
    | none => exact hsg.2
    | some t => exact hrow r hr t ht
  unfold getAdminLocationHandler
  simp only []
  split
  · exact hst
  · repeat (first
      | exact hst
      | exact allGroups_storeGroup _ _ _ _ hsg.1 (hload _ _ _ rfl)
      | split)

theorem stepExt_thresholdNonneg {F : Type} (L : Lib F) (st : State F) (op : ExtOp F)
    (hzero : L.le (L.ofNat 0) (L.ofNat 0) = true) (hop : suppliesNonneg L op)
    (hst : AllGroups (ThresholdNonneg L) st) :
    AllGroups (ThresholdNonneg L) (stepExt L st op) := by
  cases op with
  | adminLocation nonZero legacy k row =>
    apply adminLocation_thresholdNonneg L nonZero st legacy k row hzero _ hst
    intro r hr
    subst hr
    exact hop
  | core op =>
    show AllGroups (ThresholdNonneg L) (step L st op)
    by_cases hset : ∃ k lat lon name thr now ok, op = Op.setCenter k lat lon name thr now ok
    · obtain ⟨k, lat, lon, name, thr, now, ok, rfl⟩ := hset
      exact setCenter_thresholdNonneg L st k lat lon name thr now ok hzero hop hst
    · apply allGroups_step_threshold L (ThresholdNonneg L) (thresholdNonneg_congr L)
        (thresholdNonneg_new L hzero) st op _ hst
      intro k lat lon name thr now ok h
      exact hset ⟨k, lat, lon, name, thr, now, ok, h⟩

theorem runExt_thresholdNonneg {F : Type} (L : Lib F)
    (hzero : L.le (L.ofNat 0) (L.ofNat 0) = true) (ops : List (ExtOp F)) :
    ∀ st : State F, (∀ op ∈ ops, suppliesNonneg L op) → AllGroups (ThresholdNonneg L) st →
      AllGroups (ThresholdNonneg L) (runExt L st ops) := by
  induction ops with
  | nil => intro st _ hst; exact hst
  | cons op rest ih =>
    intro st hops hst
    show AllGroups (ThresholdNonneg L) (runExt L (stepExt L st op) rest)
    apply ih
    · intro o ho
      exact hops o (List.mem_cons_of_mem _ ho)
    · exact stepExt_thresholdNonneg L st op hzero (hops op (List.mem_cons_self _ _)) hst

/-- C21 (as the code has it). The threshold of a session is whatever was
supplied: nothing checks its sign.  It is zero for a new session and is
written only by set-center (the parsed value, zero when the text does not
parse) and by the load of the center from the store (the row's value).  So
when zero is at least zero and every set-center and every store row of a run
supplies a threshold that is at least zero, every session of every state
reached from the empty registry has `0 <= ThresholdMeters`; start, close,
submit, the status reads and the timers never change a threshold. -/
theorem threshold_nonneg_when_supplied {F : Type} (L : Lib F) (ops : List (ExtOp F))
    (hzero : L.le (L.ofNat 0) (L.ofNat 0) = true)
    (hops : ∀ op ∈ ops, suppliesNonneg L op) :
    AllGroups (ThresholdNonneg L) (runExt L (State.init F) ops) := by
  apply runExt_thresholdNonneg L hzero ops (State.init F) hops
  intro e he
  cases he

theorem threshold_nonneg_when_supplied_witness :
    (∀ op ∈ nonnegOps, suppliesNonneg testLib op) ∧
      AllGroups (ThresholdNonneg testLib) (runExt testLib (State.init Int) nonnegOps) := by
  have hops : ∀ op ∈ nonnegOps, suppliesNonneg testLib op := by
    intro op hop
    simp only [nonnegOps, List.mem_cons, List.mem_singleton, List.not_mem_nil, or_false] at hop
    rcases hop with rfl | rfl | rfl | rfl | rfl
    · intro x hx
      have h50 : testLib.scanFloat "50" = some 50 := by rfl
      rw [h50] at hx
      cases hx
      decide
    · intro x hx
      cases hx
      decide
    · trivial
    · trivial
    · trivial
  exact ⟨hops, threshold_nonneg_when_supplied testLib nonnegOps (by decide) hops⟩

/-- C21, counterexample. A set-center with threshold text `-5` succeeds and
leaves session `g1` with `ThresholdMeters = -5`; the load of a store row with
threshold `-5` does the same to session `g2`. -/
theorem negative_threshold_reachable :
    (∃ g, GetGroup (runExt testLib (State.init Int) negativeThresholdOps) "g1" = some g ∧
      g.ThresholdMeters = -5 ∧ testLib.le (testLib.ofNat 0) g.ThresholdMeters = false) ∧
    (∃ g, GetGroup (runExt testLib (State.init Int) negativeStoreOps) "g2" = some g ∧
      g.ThresholdMeters = -5 ∧ testLib.le (testLib.ofNat 0) g.ThresholdMeters = false) :=
  ⟨⟨_, rfl, rfl, rfl⟩, ⟨_, rfl, rfl, rfl⟩⟩

/-! ## The members-only gate -/

theorem submit_of_gate {F : Type} (L : Lib F) (st : State F) (groupIDraw : String)
    (form : SubmitForm) (store : SubmitStore) (now : Int) (g : GroupData F) (r : SubmitResult)
    (hget : GetGroup st (effectiveGroupID groupIDraw) = some g) (hact : g.WindowActive = true)
    (hgate : memberGate g.GroupOnly (effectiveGroupID groupIDraw) store = some r) :
    submitAttendanceHandler L st groupIDraw form store now = (st, r) := by
  unfold submitAttendanceHandler
  simp [hget, hact, hgate]

theorem memberGate_default (groupOnly : Bool) (store : SubmitStore) :
    memberGate groupOnly "default" store = none := by
  unfold memberGate
  simp

theorem memberGate_transport (groupOnly : Bool) (groupID : String) (uuid : String)
    (huuid : uuid ≠ "") :
    memberGate groupOnly groupID { uuid := uuid, members := none } = none := by
  unfold memberGate
  split_ifs <;> rfl

theorem memberGate_members (groupOnly : Bool) (groupID : String) (uuid : String) (n : Nat)
    (huuid : uuid ≠ "") :
    memberGate groupOnly groupID { uuid := uuid, members := some (n + 1) } = none := by
  unfold memberGate
  split_ifs <;> rfl

theorem memberGate_empty (groupID : String) (store : SubmitStore)
    (hnd : groupID ≠ "default") (huuid : store.uuid ≠ "") (hmem : store.members = some 0) :
    memberGate true groupID store = some SubmitResult.notMember := by
  unfold memberGate
  simp [hnd, huuid, hmem]

theorem memberGate_unknown (groupID : String) (store : SubmitStore)
    (hnd : groupID ≠ "default") (huuid : store.uuid = "") :
    memberGate true groupID store = some SubmitResult.invalidStudentID := by
  unfold memberGate
  simp [hnd, huuid]

/-- C22 (as the code has it). For a members-only session with an active
window whose id is not `default`, a submit by a participant the store knows
and lists no membership row for is answered `notMember` and leaves the
registry as it was; a participant the store does not know is answered
`invalidStudentID`, again without a change.  For the session `default` the
gate is skipped: whatever the store answers, the request goes on to the
coordinate checks, the duplicate check and the recording. -/
theorem members_only_gate {F : Type} (L : Lib F) (st : State F) (groupIDraw : String)
    (form : SubmitForm) (store : SubmitStore) (now : Int) (g : GroupData F)
    (hget : GetGroup st (effectiveGroupID groupIDraw) = some g) (hact : g.WindowActive = true)
    (honly : g.GroupOnly = true) :
    (effectiveGroupID groupIDraw ≠ "default" → store.uuid ≠ "" → store.members = some 0 →
      submitAttendanceHandler L st groupIDraw form store now = (st, SubmitResult.notMember)) ∧
    (effectiveGroupID groupIDraw ≠ "default" → store.uuid = "" →
      submitAttendanceHandler L st groupIDraw form store now
        = (st, SubmitResult.invalidStudentID)) ∧
    (effectiveGroupID groupIDraw = "default" →
      submitAttendanceHandler L st groupIDraw form store now =
        (storeGroup st "default" (submitLocked L g form now).1, (submitLocked L g form now).2)) := by
  refine ⟨?_, ?_, ?_⟩
  · intro hnd huuid hmem
    apply submit_of_gate L st groupIDraw form store now g _ hget hact
    rw [honly]
    exact memberGate_empty _ store hnd huuid hmem
  · intro hnd huuid
    apply submit_of_gate L st groupIDraw form store now g _ hget hact
    rw [honly]
    exact memberGate_unknown _ store hnd huuid
  · intro hd
    have h := submit_of_open L st groupIDraw form store now g hget hact
      (by rw [hd]; exact memberGate_default _ store)
    rw [hd] at h
    exact h

theorem members_only_gate_witness :
    GetGroup demoState (effectiveGroupID "g1") = some demoOpenGroup ∧
    demoOpenGroup.WindowActive = true ∧ demoOpenGroup.GroupOnly = true ∧
    effectiveGroupID "g1" ≠ "default" ∧ nonMemberStore.uuid ≠ "" ∧
    nonMemberStore.members = some 0 ∧
    submitAttendanceHandler testLib demoState "g1" demoForm nonMemberStore (5 * second)
      = (demoState, SubmitResult.notMember) :=
  ⟨rfl, rfl, rfl, by decide, by decide, rfl,
    (members_only_gate testLib demoState "g1" demoForm nonMemberStore (5 * second)
      demoOpenGroup rfl rfl rfl).1 (by decide) (by decide) rfl⟩

/-- C22, counterexample. The session `default` is started as members-only and
its window is active; a participant for whom the store lists no membership
row submits and is accepted as `Present`, and the ledger of the session now
holds the id. -/
theorem default_session_skips_member_check :
    (∃ g, GetGroup defaultOnlyState "default" = some g ∧ g.GroupOnly = true ∧
      g.WindowActive = true ∧ g.hasSubmitted "ST1" = false) ∧
    (submitAttendanceHandler testLib defaultOnlyState "default" demoForm nonMemberStore
      (5 * second)).2 = SubmitResult.accepted "Present" "0" "5" ∧
    (∃ g, GetGroup (submitAttendanceHandler testLib defaultOnlyState "default" demoForm
        nonMemberStore (5 * second)).1 "default" = some g ∧ g.hasSubmitted "ST1" = true) :=
  ⟨⟨_, rfl, rfl, rfl, rfl⟩, rfl, ⟨_, rfl, rfl⟩⟩

theorem getStudentUUIDByID_failed (reply : IdentityReply) (studentID : String)
    (h : ∀ students, reply ≠ IdentityReply.rows students) :
    getStudentUUIDByID reply studentID = "" := by
  cases reply with
  | rows students => exact absurd rfl (h students)
  | transportError => rfl
  | errorStatus => rfl
  | undecodable => rfl

/-- C25 (as the code has it). For a members-only session with an active
window whose id is not `default`: the submission goes on to the coordinate
checks, the duplicate check and the recording only when the identity lookup
gave a non-empty id and the membership request itself returned an error; a
membership answer that does not decode into a list is treated as an empty
list and answered `notMember`; an identity lookup that fails (error of the
request, status other than 200, body that does not decode) is answered
`invalidStudentID`.  Both rejections leave the registry as it was. -/
theorem membership_failure_outcomes {F : Type} (L : Lib F) (st : State F) (groupIDraw : String)
    (form : SubmitForm) (identity : IdentityReply) (now : Int) (g : GroupData F)
    (hget : GetGroup st (effectiveGroupID groupIDraw) = some g) (hact : g.WindowActive = true)
    (honly : g.GroupOnly = true) (hnd : effectiveGroupID groupIDraw ≠ "default") :
    (getStudentUUIDByID identity form.student_id ≠ "" →
      submitAttendanceHandler L st groupIDraw form
          (submitStoreOf identity MembershipReply.transportError form.student_id) now =
        (storeGroup st (effectiveGroupID groupIDraw) (submitLocked L g form now).1,
          (submitLocked L g form now).2)) ∧
    (getStudentUUIDByID identity form.student_id ≠ "" →
      submitAttendanceHandler L st groupIDraw form
          (submitStoreOf identity MembershipReply.undecodable form.student_id) now =
        (st, SubmitResult.notMember)) ∧
    ((∀ students, identity ≠ IdentityReply.rows students) → ∀ membership,
      submitAttendanceHandler L st groupIDraw form
          (submitStoreOf identity membership form.student_id) now =
        (st, SubmitResult.invalidStudentID)) := by
  refine ⟨?_, ?_, ?_⟩
  · intro huuid
    exact submit_of_open L st groupIDraw form _ now g hget hact
      (memberGate_transport _ _ _ huuid)
  · intro huuid
    apply submit_of_gate L st groupIDraw form _ now g _ hget hact
    rw [honly]
    exact memberGate_empty _ _ hnd huuid rfl
  · intro hid membership
    apply submit_of_gate L st groupIDraw form _ now g _ hget hact
    rw [honly]
    exact memberGate_unknown _ _ hnd (getStudentUUIDByID_failed identity _ hid)

theorem membership_failure_outcomes_witness :
    GetGroup demoState (effectiveGroupID "g1") = some demoOpenGroup ∧
    demoOpenGroup.WindowActive = true ∧ demoOpenGroup.GroupOnly = true ∧
    effectiveGroupID "g1" ≠ "default" ∧
    getStudentUUIDByID demoIdentity demoForm.student_id ≠ "" ∧
    submitAttendanceHandler testLib demoState "g1" demoForm
        (submitStoreOf demoIdentity MembershipReply.transportError demoForm.student_id)
        (5 * second) =
      (storeGroup demoState (effectiveGroupID "g1")
          (submitLocked testLib demoOpenGroup demoForm (5 * second)).1,
        (submitLocked testLib demoOpenGroup demoForm (5 * second)).2) :=
  ⟨rfl, rfl, rfl, by decide, by decide,
    (membership_failure_outcomes testLib demoState "g1" demoForm demoIdentity (5 * second)
      demoOpenGroup rfl rfl rfl (by decide)).1 (by decide)⟩

/-- C25, counterexample. Session `g1` is members-only with an active window.
The identity lookup finds the student and the store answers the membership
request with something that is not a list: the submission is rejected as
`notMember`.  When the store cannot be reached at all the identity lookup
fails first and the submission is rejected as `invalidStudentID`.  Neither
changes the registry. -/
theorem membership_error_answer_rejected :
    (∃ g, GetGroup demoState "g1" = some g ∧ g.GroupOnly = true ∧ g.WindowActive = true) ∧
    submitAttendanceHandler testLib demoState "g1" demoForm
        (submitStoreOf demoIdentity MembershipReply.undecodable demoForm.student_id)
        (5 * second) = (demoState, SubmitResult.notMember) ∧
    submitAttendanceHandler testLib demoState "g1" demoForm
        (submitStoreOf IdentityReply.transportError MembershipReply.transportError
          demoForm.student_id)
        (5 * second) = (demoState, SubmitResult.invalidStudentID) :=
  ⟨⟨_, rfl, rfl, rfl⟩, rfl, rfl⟩

/-! ## Persistence does not touch the acceptance -/

/-- C23. Whatever the store does during the persistence step (identity lookup
found or failed, attendance POST succeeded, answered an error status, or
failed at transport level), the registry after the submit and the response to
the caller are those of the in-memory handler, hence the same for any two such
outcomes. -/
theorem persistence_outcome_irrelevant {F : Type} (L : Lib F) (st : State F)
    (groupIDraw : String) (form : SubmitForm) (store : SubmitStore) (now : Int)
    (p1 p2 : PersistStore) :
    (submitAttendanceWithStore L st groupIDraw form store p1 now).1
      = (submitAttendanceHandler L st groupIDraw form store now).1 ∧
    (submitAttendanceWithStore L st groupIDraw form store p1 now).2.1
      = (submitAttendanceHandler L st groupIDraw form store now).2 ∧
    (submitAttendanceWithStore L st groupIDraw form store p1 now).1
      = (submitAttendanceWithStore L st groupIDraw form store p2 now).1 ∧
    (submitAttendanceWithStore L st groupIDraw form store p1 now).2.1
      = (submitAttendanceWithStore L st groupIDraw form store p2 now).2.1 := by
  have key : ∀ p : PersistStore,
      (submitAttendanceWithStore L st groupIDraw form store p now).1
        = (submitAttendanceHandler L st groupIDraw form store now).1 ∧
      (submitAttendanceWithStore L st groupIDraw form store p now).2.1
        = (submitAttendanceHandler L st groupIDraw form store now).2 := by
    intro p
    unfold submitAttendanceWithStore
    simp only []
    repeat (first | exact ⟨rfl, rfl⟩ | split)
  exact ⟨(key p1).1, (key p1).2, (key p1).1.trans (key p2).1.symm,
    (key p1).2.trans (key p2).2.symm⟩

/-- The persistence step on the demo session: the accepted submission of `ST1`
issues the POST when the identity lookup finds the student, and issues none
when the lookup fails; the registry and the response are the same. -/
theorem persistence_demo :
    (submitAttendanceWithStore testLib demoState "g1" demoForm demoStore
        { identity := demoIdentity, post := PostOutcome.errorStatus } (5 * second)).2.2
      = some ({ group_id := "g1", student_id := "u-1", status := "Present", distance := 0,
                latitude := 0, longitude := 0 }, PostOutcome.errorStatus) ∧
    (submitAttendanceWithStore testLib demoState "g1" demoForm demoStore
        { identity := IdentityReply.transportError, post := PostOutcome.transportError }
        (5 * second)).2.2 = none ∧
    (submitAttendanceWithStore testLib demoState "g1" demoForm demoStore
        { identity := demoIdentity, post := PostOutcome.errorStatus } (5 * second)).2.1
      = SubmitResult.accepted "Present" "0" "5" :=
  ⟨rfl, rfl, rfl⟩

/-! ## Two submit calls running at once -/

theorem submitLocked_flags {F : Type} (L : Lib F) (g : GroupData F) (form : SubmitForm)
    (now : Int) :
    (submitLocked L g form now).1.WindowActive = g.WindowActive ∧
    (submitLocked L g form now).1.GroupOnly = g.GroupOnly := by
  unfold submitLocked
  simp only []
  split_ifs <;> exact ⟨rfl, rfl⟩

/-- A submit run alone keeps the session and its two flags. -/
theorem submitAlone_flags {F : Type} (L : Lib F) (st : State F) (c : SubmitCall)
    (g : GroupData F)
    (h : ∃ g1, GetGroup st (effectiveGroupID c.groupIDraw) = some g1 ∧
      g1.WindowActive = g.WindowActive ∧ g1.GroupOnly = g.GroupOnly) :
    ∃ g2, GetGroup (submitAlone L st c).1 (effectiveGroupID c.groupIDraw) = some g2 ∧
      g2.WindowActive = g.WindowActive ∧ g2.GroupOnly = g.GroupOnly := by
  obtain ⟨g1, hget, hwa, hgo⟩ := h
  unfold submitAlone submitAttendanceHandler
  simp only [hget]
  split_ifs
  · exact ⟨g1, hget, hwa, hgo⟩
  · cases memberGate g1.GroupOnly (effectiveGroupID c.groupIDraw) c.store with
    | some r => exact ⟨g1, hget, hwa, hgo⟩
    | none =>
      refine ⟨_, getGroup_storeGroup_self _ _ _, ?_, ?_⟩
      · rw [(submitLocked_flags L g1 c.form c.now).1, hwa]
      · rw [(submitLocked_flags L g1 c.form c.now).2, hgo]

theorem pending_rank {F : Type} (g : GroupData F) (p : Progress) (h : Pending g p) :
    p.rank ≤ 2 := by
  cases p with
  | start => decide
  | found => decide
  | flags wa go => exact Nat.le_refl 2
  | done r => exact absurd h id

/-- One section of a call that is on its way: either the call moves to the
next section without a change of the registry, or it runs its last section,
and then registry and answer are those of the call run alone on the registry
as it is now. -/
theorem advance_pending {F : Type} (L : Lib F) (s : State F) (c : SubmitCall)
    (g : GroupData F) (p : Progress)
    (h : ∃ g1, GetGroup s (effectiveGroupID c.groupIDraw) = some g1 ∧
      g1.WindowActive = g.WindowActive ∧ g1.GroupOnly = g.GroupOnly)
    (hp : Pending g p) :
    (∃ p2, submitAdvance L s c p = (s, p2) ∧ Pending g p2 ∧ p2.rank = p.rank + 1) ∨
    submitAdvance L s c p = ((submitAlone L s c).1, Progress.done (submitAlone L s c).2) := by
  obtain ⟨g1, hget, hwa, hgo⟩ := h
  cases p with
  | start =>
    left
    refine ⟨Progress.found, ?_, trivial, rfl⟩
    unfold submitAdvance
    simp only [hget]
  | found =>
    left
    refine ⟨Progress.flags g1.WindowActive g1.GroupOnly, ?_, ⟨hwa, hgo⟩, rfl⟩
    unfold submitAdvance
    simp only [hget]
  | flags wa go =>
    right
    obtain ⟨h1, h2⟩ := hp
    subst h1
    subst h2
    unfold submitAdvance submitAlone submitAttendanceHandler
    simp only [hget, hwa, hgo]
    split_ifs
    · rfl
    · cases memberGate g.GroupOnly (effectiveGroupID c.groupIDraw) c.store <;> rfl
  | done r => exact absurd hp id

theorem advance_done {F : Type} (L : Lib F) (s : State F) (c : SubmitCall) (r : SubmitResult) :
    submitAdvance L s c (Progress.done r) = (s, Progress.done r) := rfl

/-- One step of the pair keeps the configuration explained by an order of the
two calls, and moves the picked call one section on. -/
theorem pairStep_linear {F : Type} (L : Lib F) (ca cb : SubmitCall) (st : State F)
    (g : GroupData F) (cfg : Config F) (pick : Bool)
    (hget : GetGroup st (effectiveGroupID ca.groupIDraw) = some g)
    (hsame : effectiveGroupID cb.groupIDraw = effectiveGroupID ca.groupIDraw)
    (hlin : Linear L ca cb st g cfg) :
    Linear L ca cb st g (pairStep L ca cb cfg pick) ∧
    min 3 (cfg.a.rank + (if pick = true then 1 else 0)) ≤ (pairStep L ca cb cfg pick).a.rank ∧
    min 3 (cfg.b.rank + (if pick = true then 0 else 1)) ≤ (pairStep L ca cb cfg pick).b.rank := by
  have hA0 : ∃ g1, GetGroup st (effectiveGroupID ca.groupIDraw) = some g1 ∧
      g1.WindowActive = g.WindowActive ∧ g1.GroupOnly = g.GroupOnly := ⟨g, hget, rfl, rfl⟩
  have hB0 : ∃ g1, GetGroup st (effectiveGroupID cb.groupIDraw) = some g1 ∧
      g1.WindowActive = g.WindowActive ∧ g1.GroupOnly = g.GroupOnly := by
    rw [hsame]; exact hA0
  have hAB : ∃ g1, GetGroup (submitAlone L st cb).1 (effectiveGroupID ca.groupIDraw) = some g1 ∧
      g1.WindowActive = g.WindowActive ∧ g1.GroupOnly = g.GroupOnly := by
    rw [← hsame]; exact submitAlone_flags L st cb g hB0
  have hBA : ∃ g1, GetGroup (submitAlone L st ca).1 (effectiveGroupID cb.groupIDraw) = some g1 ∧
      g1.WindowActive = g.WindowActive ∧ g1.GroupOnly = g.GroupOnly := by
    rw [hsame]; exact submitAlone_flags L st ca g hA0
  obtain ⟨s, a, b⟩ := cfg
  cases pick with
  | false =>
    have hstep : pairStep L ca cb ⟨s, a, b⟩ false
        = ⟨(submitAdvance L s cb b).1, a, (submitAdvance L s cb b).2⟩ := rfl
    rw [hstep]
    rcases hlin with ⟨hs, hpa, hpb⟩ | ⟨hs, ha, hpb⟩ | ⟨hs, hpa, hb⟩ | ⟨hs, ha, hb⟩ | ⟨hs, ha, hb⟩
    · dsimp only at hs hpa hpb
      subst hs
      rcases advance_pending L s cb g b hB0 hpb with ⟨p2, he, hp2, hr⟩ | he
      · rw [he]
        refine ⟨Or.inl ⟨rfl, hpa, hp2⟩, ?_, ?_⟩
        · simp
        · dsimp only; simp only [Bool.false_eq_true, if_false]; omega
      · rw [he]
        refine ⟨Or.inr (Or.inr (Or.inl ⟨rfl, hpa, rfl⟩)), ?_, ?_⟩
        · simp
        · dsimp only [Progress.rank]; omega
    · dsimp only at hs ha hpb
      subst hs
      rcases advance_pending L _ cb g b hBA hpb with ⟨p2, he, hp2, hr⟩ | he
      · rw [he]
        refine ⟨Or.inr (Or.inl ⟨rfl, ha, hp2⟩), ?_, ?_⟩
        · simp
        · dsimp only; simp only [Bool.false_eq_true, if_false]; omega
      · rw [he]
        refine ⟨Or.inr (Or.inr (Or.inr (Or.inl ⟨rfl, ha, rfl⟩))), ?_, ?_⟩
        · simp
        · dsimp only [Progress.rank]; omega
    · dsimp only at hs hpa hb
      subst hb
      rw [advance_done]
      refine ⟨Or.inr (Or.inr (Or.inl ⟨hs, hpa, rfl⟩)), ?_, ?_⟩
      · simp
      · dsimp only [Progress.rank]; omega
    · dsimp only at hs ha hb
      subst hb
      rw [advance_done]
      refine ⟨Or.inr (Or.inr (Or.inr (Or.inl ⟨hs, ha, rfl⟩))), ?_, ?_⟩
      · simp
      · dsimp only [Progress.rank]; omega
    · dsimp only at hs ha hb
      subst hb
      rw [advance_done]
      refine ⟨Or.inr (Or.inr (Or.inr (Or.inr ⟨hs, ha, rfl⟩))), ?_, ?_⟩
      · simp
      · dsimp only [Progress.rank]; omega
  | true =>
    have hstep : pairStep L ca cb ⟨s, a, b⟩ true
        = ⟨(submitAdvance L s ca a).1, (submitAdvance L s ca a).2, b⟩ := rfl
    rw [hstep]
    rcases hlin with ⟨hs, hpa, hpb⟩ | ⟨hs, ha, hpb⟩ | ⟨hs, hpa, hb⟩ | ⟨hs, ha, hb⟩ | ⟨hs, ha, hb⟩
    · dsimp only at hs hpa hpb
      subst hs
      rcases advance_pending L s ca g a hA0 hpa with ⟨p2, he, hp2, hr⟩ | he
      · rw [he]
        refine ⟨Or.inl ⟨rfl, hp2, hpb⟩, ?_, ?_⟩
        · dsimp only; simp only [if_true]; omega
        · simp
      · rw [he]
        refine ⟨Or.inr (Or.inl ⟨rfl, rfl, hpb⟩), ?_, ?_⟩
        · dsimp only [Progress.rank]; omega
        · simp
    · dsimp only at hs ha hpb
      subst ha
      rw [advance_done]
      refine ⟨Or.inr (Or.inl ⟨hs, rfl, hpb⟩), ?_, ?_⟩
      · dsimp only [Progress.rank]; omega
      · simp
    · dsimp only at hs hpa hb
      subst hs
      rcases advance_pending L _ ca g a hAB hpa with ⟨p2, he, hp2, hr⟩ | he
      · rw [he]
        refine ⟨Or.inr (Or.inr (Or.inl ⟨rfl, hp2, hb⟩)), ?_, ?_⟩
        · dsimp only; simp only [if_true]; omega
        · simp
      · rw [he]
        refine ⟨Or.inr (Or.inr (Or.inr (Or.inr ⟨rfl, rfl, hb⟩))), ?_, ?_⟩
        · dsimp only [Progress.rank]; omega
        · simp
    · dsimp only at hs ha hb
      subst ha
      rw [advance_done]
      refine ⟨Or.inr (Or.inr (Or.inr (Or.inl ⟨hs, rfl, hb⟩))), ?_, ?_⟩
      · dsimp only [Progress.rank]; omega
      · simp
    · dsimp only at hs ha hb
      subst ha
      rw [advance_done]
      refine ⟨Or.inr (Or.inr (Or.inr (Or.inr ⟨hs, rfl, hb⟩))), ?_, ?_⟩
      · dsimp only [Progress.rank]; omega
      · simp

theorem interleave_linear {F : Type} (L : Lib F) (ca cb : SubmitCall) (st : State F)
    (g : GroupData F) (hget : GetGroup st (effectiveGroupID ca.groupIDraw) = some g)
    (hsame : effectiveGroupID cb.groupIDraw = effectiveGroupID ca.groupIDraw)
    (sched : List Bool) :
    ∀ cfg : Config F, Linear L ca cb st g cfg →
      Linear L ca cb st g (interleave L ca cb cfg sched) ∧
      min 3 (cfg.a.rank + sched.count true) ≤ (interleave L ca cb cfg sched).a.rank ∧
      min 3 (cfg.b.rank + sched.count false) ≤ (interleave L ca cb cfg sched).b.rank := by
  induction sched with
  | nil =>
    intro cfg hlin
    refine ⟨hlin, ?_, ?_⟩
    · show min 3 (cfg.a.rank + 0) ≤ cfg.a.rank
      omega
    · show min 3 (cfg.b.rank + 0) ≤ cfg.b.rank
      omega
  | cons pick rest ih =>
    intro cfg hlin
    obtain ⟨h1, h2, h3⟩ := pairStep_linear L ca cb st g cfg pick hget hsame hlin
    obtain ⟨k1, k2, k3⟩ := ih (pairStep L ca cb cfg pick) h1
    refine ⟨k1, ?_, ?_⟩
    · show min 3 (cfg.a.rank + (pick :: rest).count true)
        ≤ (interleave L ca cb (pairStep L ca cb cfg pick) rest).a.rank
      cases pick with
      | true =>
        rw [List.count_cons_self]
        simp only [if_true] at h2
        omega
      | false =>
        rw [List.count_cons_of_ne (by decide)]
        simp only [Bool.false_eq_true, if_false] at h2
        omega
    · show min 3 (cfg.b.rank + (pick :: rest).count false)
        ≤ (interleave L ca cb (pairStep L ca cb cfg pick) rest).b.rank
      cases pick with
      | true =>
        rw [List.count_cons_of_ne (by decide)]
        simp only [if_true] at h3
        omega
      | false =>
        rw [List.count_cons_self]
        simp only [Bool.false_eq_true, if_false] at h3
        omega

/-- Every schedule that lets each of two calls on an existing session run its
three sections ends in a configuration that one of the two orders of the
calls, each run alone, produces. -/
theorem interleave_sequential {F : Type} (L : Lib F) (ca cb : SubmitCall) (st : State F)
    (g : GroupData F) (sched : List Bool)
    (hget : GetGroup st (effectiveGroupID ca.groupIDraw) = some g)
    (hsame : effectiveGroupID cb.groupIDraw = effectiveGroupID ca.groupIDraw)
    (hta : 3 ≤ sched.count true) (htb : 3 ≤ sched.count false) :
    ((interleave L ca cb ⟨st, Progress.start, Progress.start⟩ sched).st
        = (submitAlone L (submitAlone L st ca).1 cb).1 ∧
      (interleave L ca cb ⟨st, Progress.start, Progress.start⟩ sched).a
        = Progress.done (submitAlone L st ca).2 ∧
      (interleave L ca cb ⟨st, Progress.start, Progress.start⟩ sched).b
        = Progress.done (submitAlone L (submitAlone L st ca).1 cb).2) ∨
    ((interleave L ca cb ⟨st, Progress.start, Progress.start⟩ sched).st
        = (submitAlone L (submitAlone L st cb).1 ca).1 ∧
      (interleave L ca cb ⟨st, Progress.start, Progress.start⟩ sched).a
        = Progress.done (submitAlone L (submitAlone L st cb).1 ca).2 ∧
      (interleave L ca cb ⟨st, Progress.start, Progress.start⟩ sched).b
        = Progress.done (submitAlone L st cb).2) := by
  obtain ⟨hlin, ha, hb⟩ := interleave_linear L ca cb st g hget hsame sched
    ⟨st, Progress.start, Progress.start⟩ (Or.inl ⟨rfl, trivial, trivial⟩)
  have ha3 : 3 ≤ (interleave L ca cb ⟨st, Progress.start, Progress.start⟩ sched).a.rank := by
    have : min 3 ((Progress.start).rank + sched.count true) = 3 := by
      show min 3 (0 + sched.count true) = 3
      omega
    omega
  have hb3 : 3 ≤ (interleave L ca cb ⟨st, Progress.start, Progress.start⟩ sched).b.rank := by
    have : min 3 ((Progress.start).rank + sched.count false) = 3 := by
      show min 3 (0 + sched.count false) = 3
      omega
    omega
  rcases hlin with ⟨_, hpa, _⟩ | ⟨_, _, hpb⟩ | ⟨_, hpa, _⟩ | h | h
  · have := pending_rank g _ hpa; omega
  · have := pending_rank g _ hpb; omega
  · have := pending_rank g _ hpa; omega
  · exact Or.inl h
  · exact Or.inr h

theorem hasSubmitted_mapSet_self {F : Type} (g : GroupData F) (id : String)
    (g2 : GroupData F) (h : g2.SubmittedStudents = mapSet g.SubmittedStudents id true) :
    g2.hasSubmitted id = true := by
  unfold GroupData.hasSubmitted
  rw [h, mapGet_mapSet_self]
  rfl

theorem hasSubmitted_mapSet_ne {F : Type} (g : GroupData F) (id id2 : String)
    (g2 : GroupData F) (h : g2.SubmittedStudents = mapSet g.SubmittedStudents id true)
    (hne : id ≠ id2) : g2.hasSubmitted id2 = g.hasSubmitted id2 := by
  unfold GroupData.hasSubmitted
  rw [h, mapGet_mapSet_ne _ _ _ _ hne]

/-- What the locked part stores and answers for a new participant with
well-formed coordinates. -/
theorem submitLocked_record {F : Type} (L : Lib F) (g : GroupData F) (form : SubmitForm)
    (now : Int) (hlat : (parseFloat L form.lat).2 = true)
    (hlon : (parseFloat L form.lon).2 = true) (hnew : g.hasSubmitted form.student_id = false) :
    ∃ loc : StudentLocation F,
      loc.StudentID = form.student_id ∧ loc.StudentName = form.student_name ∧
      (submitLocked L g form now).2
        = SubmitResult.accepted loc.Status (L.fmt0 loc.Distance) loc.Timestamp ∧
      (submitLocked L g form now).1.StudentLocations
        = mapSet g.StudentLocations form.student_id loc ∧
      (submitLocked L g form now).1.SubmittedStudents
        = mapSet g.SubmittedStudents form.student_id true := by
  rw [submitLocked_accept L g form now _ _ (parseFloat_ok L _ hlat) (parseFloat_ok L _ hlon) hnew]
  exact ⟨_, rfl, rfl, rfl, rfl, rfl⟩

/-- Two calls on one session, each of which would be accepted alone, run one
after the other. -/
theorem submit_then_submit {F : Type} (L : Lib F) (st : State F) (c1 c2 : SubmitCall)
    (hsame : effectiveGroupID c2.groupIDraw = effectiveGroupID c1.groupIDraw)
    (hacc1 : (submitAlone L st c1).2.isAccepted = true)
    (hacc2 : (submitAlone L st c2).2.isAccepted = true) :
    (c1.form.student_id ≠ c2.form.student_id →
      ∃ (g2 : GroupData F) (l1 l2 : StudentLocation F),
        GetGroup (submitAlone L (submitAlone L st c1).1 c2).1 (effectiveGroupID c1.groupIDraw)
          = some g2 ∧
        mapGet g2.StudentLocations c1.form.student_id = some l1 ∧
        mapGet g2.StudentLocations c2.form.student_id = some l2 ∧
        l1.StudentID = c1.form.student_id ∧ l1.StudentName = c1.form.student_name ∧
        l2.StudentID = c2.form.student_id ∧ l2.StudentName = c2.form.student_name ∧
        g2.hasSubmitted c1.form.student_id = true ∧ g2.hasSubmitted c2.form.student_id = true ∧
        (submitAlone L st c1).2
          = SubmitResult.accepted l1.Status (L.fmt0 l1.Distance) l1.Timestamp ∧
        (submitAlone L (submitAlone L st c1).1 c2).2
          = SubmitResult.accepted l2.Status (L.fmt0 l2.Distance) l2.Timestamp) ∧
    (c1.form.student_id = c2.form.student_id →
      (submitAlone L (submitAlone L st c1).1 c2).2 = SubmitResult.alreadySubmitted ∧
      ∃ s d t, (submitAlone L st c1).2 = SubmitResult.accepted s d t) := by
  obtain ⟨g, hget, hact, hgate1, hlat1, hlon1, hnew1⟩ :=
    submit_accepted_inv L st c1.groupIDraw c1.form c1.store c1.now hacc1
  obtain ⟨g0, hget0, _, hgate2, hlat2, hlon2, hnew2⟩ :=
    submit_accepted_inv L st c2.groupIDraw c2.form c2.store c2.now hacc2
  rw [hsame, hget] at hget0
  cases hget0
  rw [hsame] at hgate2
  obtain ⟨l1, hid1, hname1, hres1, hloc1, hsub1⟩ :=
    submitLocked_record L g c1.form c1.now hlat1 hlon1 hnew1
  have h1 : submitAlone L st c1 =
      (storeGroup st (effectiveGroupID c1.groupIDraw) (submitLocked L g c1.form c1.now).1,
        (submitLocked L g c1.form c1.now).2) :=
    submit_of_open L st c1.groupIDraw c1.form c1.store c1.now g hget hact hgate1
  have hget1 : GetGroup (submitAlone L st c1).1 (effectiveGroupID c2.groupIDraw)
      = some (submitLocked L g c1.form c1.now).1 := by
    rw [h1, hsame]
    exact getGroup_storeGroup_self _ _ _
  have hfl := submitLocked_flags L g c1.form c1.now
  have h2 : submitAlone L (submitAlone L st c1).1 c2 =
      (storeGroup (submitAlone L st c1).1 (effectiveGroupID c2.groupIDraw)
          (submitLocked L (submitLocked L g c1.form c1.now).1 c2.form c2.now).1,
        (submitLocked L (submitLocked L g c1.form c1.now).1 c2.form c2.now).2) := by
    apply submit_of_open L _ c2.groupIDraw c2.form c2.store c2.now _ hget1
    · rw [hfl.1]; exact hact
    · rw [hfl.2, hsame]; exact hgate2
  constructor
  · intro hne
    have hnew : (submitLocked L g c1.form c1.now).1.hasSubmitted c2.form.student_id = false := by
      rw [hasSubmitted_mapSet_ne g _ _ _ hsub1 hne]
      exact hnew2
    obtain ⟨l2, hid2, hname2, hres2, hloc2, hsub2⟩ :=
      submitLocked_record L (submitLocked L g c1.form c1.now).1 c2.form c2.now hlat2 hlon2 hnew
    refine ⟨(submitLocked L (submitLocked L g c1.form c1.now).1 c2.form c2.now).1, l1, l2,
      ?_, ?_, ?_, hid1, hname1, hid2, hname2, ?_, ?_, ?_, ?_⟩
    · rw [h2, hsame]
      exact getGroup_storeGroup_self _ _ _
    · rw [hloc2, mapGet_mapSet_ne _ _ _ _ (Ne.symm hne), hloc1, mapGet_mapSet_self]
    · rw [hloc2, mapGet_mapSet_self]
    · rw [hasSubmitted_mapSet_ne _ _ _ _ hsub2 (Ne.symm hne)]
      exact hasSubmitted_mapSet_self g _ _ hsub1
    · exact hasSubmitted_mapSet_self _ _ _ hsub2
    · rw [h1]; exact hres1
    · rw [h2]; exact hres2
  · intro heq
    constructor
    · rw [h2]
      have hdup : (submitLocked L g c1.form c1.now).1.hasSubmitted c2.form.student_id = true := by
        rw [← heq]
        exact hasSubmitted_mapSet_self g _ _ hsub1
      rw [submitLocked_duplicate L _ c2.form c2.now hlat2 hlon2 hdup]
    · rw [h1]
      exact ⟨_, _, _, hres1⟩

/-- C24. Two submit calls on the same session, each of which would be
accepted if it ran alone, are run under any schedule that lets each go through
its three sections (lookup, read of the flags, locked section).  When the
participant ids differ both calls are accepted, the session afterwards holds a
record under each id, with the name submitted and the status, distance and
timestamp answered to that caller, and the ledger marks both ids.  When the
ids are equal exactly one call is accepted and the other is answered
`alreadySubmitted`. -/
theorem concurrent_submits {F : Type} (L : Lib F) (st : State F) (ca cb : SubmitCall)
    (sched : List Bool)
    (hsame : effectiveGroupID cb.groupIDraw = effectiveGroupID ca.groupIDraw)
    (hacca : (submitAlone L st ca).2.isAccepted = true)
    (haccb : (submitAlone L st cb).2.isAccepted = true)
    (hta : 3 ≤ sched.count true) (htb : 3 ≤ sched.count false) :
    (ca.form.student_id ≠ cb.form.student_id →
      ∃ (g2 : GroupData F) (la lb : StudentLocation F),
        GetGroup (runPair L st ca cb sched).st (effectiveGroupID ca.groupIDraw) = some g2 ∧
        mapGet g2.StudentLocations ca.form.student_id = some la ∧
        mapGet g2.StudentLocations cb.form.student_id = some lb ∧
        la.StudentID = ca.form.student_id ∧ la.StudentName = ca.form.student_name ∧
        lb.StudentID = cb.form.student_id ∧ lb.StudentName = cb.form.student_name ∧
        g2.hasSubmitted ca.form.student_id = true ∧ g2.hasSubmitted cb.form.student_id = true ∧
        (runPair L st ca cb sched).a
          = Progress.done (SubmitResult.accepted la.Status (L.fmt0 la.Distance) la.Timestamp) ∧
        (runPair L st ca cb sched).b
          = Progress.done (SubmitResult.accepted lb.Status (L.fmt0 lb.Distance) lb.Timestamp)) ∧
    (ca.form.student_id = cb.form.student_id →
      ((∃ s d t, (runPair L st ca cb sched).a = Progress.done (SubmitResult.accepted s d t)) ∧
        (runPair L st ca cb sched).b = Progress.done SubmitResult.alreadySubmitted) ∨
      ((runPair L st ca cb sched).a = Progress.done SubmitResult.alreadySubmitted ∧
        ∃ s d t, (runPair L st ca cb sched).b = Progress.done (SubmitResult.accepted s d t))) := by
  obtain ⟨g, hget, _⟩ := submit_accepted_inv L st ca.groupIDraw ca.form ca.store ca.now hacca
  have hab := submit_then_submit L st ca cb hsame hacca haccb
  have hba := submit_then_submit L st cb ca hsame.symm haccb hacca
  unfold runPair
  rcases interleave_sequential L ca cb st g sched hget hsame hta htb with
    ⟨hs, ha, hb⟩ | ⟨hs, ha, hb⟩
  · rw [hs, ha, hb]
    constructor
    · intro hne
      obtain ⟨g2, la, lb, k1, k2, k3, k4, k5, k6, k7, k8, k9, k10, k11⟩ := hab.1 hne
      exact ⟨g2, la, lb, k1, k2, k3, k4, k5, k6, k7, k8, k9, by rw [k10], by rw [k11]⟩
    · intro heq
      obtain ⟨k1, s, d, t, k2⟩ := hab.2 heq
      exact Or.inl ⟨⟨s, d, t, by rw [k2]⟩, by rw [k1]⟩
  · rw [hs, ha, hb]
    constructor
    · intro hne
      obtain ⟨g2, lb, la, k1, k2, k3, k4, k5, k6, k7, k8, k9, k10, k11⟩ := hba.1 (Ne.symm hne)
      rw [hsame] at k1
      exact ⟨g2, la, lb, k1, k3, k2, k6, k7, k4, k5, k9, k8, by rw [k11], by rw [k10]⟩
    · intro heq
      obtain ⟨k1, s, d, t, k2⟩ := hba.2 heq.symm
      exact Or.inr ⟨by rw [k1], ⟨s, d, t, by rw [k2]⟩⟩

theorem concurrent_submits_witness :
    effectiveGroupID callAnnAgain.groupIDraw = effectiveGroupID callAnn.groupIDraw ∧
    (submitAlone testLib demoState callAnn).2.isAccepted = true ∧
    (submitAlone testLib demoState callAnnAgain).2.isAccepted = true ∧
    3 ≤ crossedSchedule.count true ∧ 3 ≤ crossedSchedule.count false ∧
    callAnn.form.student_id = callAnnAgain.form.student_id ∧
    (((∃ s d t, (runPair testLib demoState callAnn callAnnAgain crossedSchedule).a
          = Progress.done (SubmitResult.accepted s d t)) ∧
        (runPair testLib demoState callAnn callAnnAgain crossedSchedule).b
          = Progress.done SubmitResult.alreadySubmitted) ∨
      ((runPair testLib demoState callAnn callAnnAgain crossedSchedule).a
          = Progress.done SubmitResult.alreadySubmitted ∧
        ∃ s d t, (runPair testLib demoState callAnn callAnnAgain crossedSchedule).b
          = Progress.done (SubmitResult.accepted s d t))) :=
  ⟨rfl, rfl, rfl, by decide, by decide, rfl,
    (concurrent_submits testLib demoState callAnn callAnnAgain crossedSchedule rfl rfl rfl
      (by decide) (by decide)).2 rfl⟩

/-- The crossed schedule on the demo session: with different participants both
are accepted, with the same participant the call that enters its locked
section first is accepted and the other is answered `alreadySubmitted`. -/
theorem concurrent_submits_demo :
    (runPair testLib demoState callAnn callBob crossedSchedule).a
      = Progress.done (SubmitResult.accepted "Present" "0" "5") ∧
    (runPair testLib demoState callAnn callBob crossedSchedule).b
      = Progress.done (SubmitResult.accepted "Present" "0" "6") ∧
    (runPair testLib demoState callAnn callAnnAgain crossedSchedule).a
      = Progress.done SubmitResult.alreadySubmitted ∧
    (runPair testLib demoState callAnn callAnnAgain crossedSchedule).b
      = Progress.done (SubmitResult.accepted "Present" "0" "6") :=
  ⟨rfl, rfl, rfl, rfl⟩

/-! ## Distance of a point to itself -/

/-- Under the laws of `SelfDistanceLaws` the distance of a point to itself is
zero, and a submission at the center is `Present` for every threshold that is
at least zero. -/
theorem haversine_self_of_laws {F : Type} (L : Lib F) (lat lon : F)
    (h : SelfDistanceLaws L lat lon) :
    haversine L lat lon lat lon = L.ofNat 0 ∧
    ∀ threshold, L.le (L.ofNat 0) threshold = true →
      classify L (haversine L lat lon lat lon) threshold = "Present" := by
  have h0 : haversine L lat lon lat lon = L.ofNat 0 := by
    unfold haversine
    simp only [h.sub_lat, h.sub_lon, h.zero_angle, h.half_zero, h.sin_zero, h.zero_mul_zero,
      h.cos_mul_zero, h.add_zero, h.sqrt_zero, h.one_sub_zero, h.sqrt_one, h.atan2_zero,
      h.two_mul_zero, h.radius_mul_zero]
  refine ⟨h0, ?_⟩
  intro threshold hle
  rw [h0]
  unfold classify
  simp [hle]

theorem haversine_self_of_laws_demo :
    SelfDistanceLaws testLib 12 77 ∧ haversine testLib 12 77 12 77 = 0 :=
  ⟨⟨rfl, rfl, rfl, rfl, rfl, rfl, rfl, rfl, rfl, rfl, rfl, rfl, rfl, rfl⟩,
    (haversine_self_of_laws testLib 12 77
      ⟨rfl, rfl, rfl, rfl, rfl, rfl, rfl, rfl, rfl, rfl, rfl, rfl, rfl, rfl⟩).1⟩

/-! ## The full view of the participant directory -/

/-- With the legacy globals as the program leaves them, the full view reports
every student as not submitted, with distance zero and no timestamp. -/
theorem fullItem_legacy {F : Type} (L : Lib F) (student : StudentRecord) :
    fullItem L legacySubmittedStudents (legacyStudentLocations F) student =
      { id := student.id, student_id := student.student_id,
        student_name := student.student_name, status := "Not Submitted",
        distance := L.ofNat 0, timestamp := "" } := rfl

/-- C27. The full view does not reflect submissions.  Student `ST1` submits to
session `g1` and is accepted as `Present`, and the session holds the record;
the full view of get-all-students read afterwards reports `ST1` as
`Not Submitted` with distance 0 and an empty timestamp, because it reads the
legacy globals, which no operation writes. -/
theorem full_view_misses_accepted_submission :
    (submitAttendanceHandler testLib demoState "g1" demoForm demoStore (5 * second)).2
      = SubmitResult.accepted "Present" "0" "5" ∧
    (∃ g loc, GetGroup (run testLib (State.init Int) demoOps) "g1" = some g ∧
      mapGet g.StudentLocations "ST1" = some loc ∧ loc.Status = "Present" ∧
      loc.Timestamp = "5") ∧
    fullViewRows (getAllStudentsHandler testLib scanInt StudentCache.init
        legacySubmittedStudents (legacyStudentLocations Int) "" "" "" "" demoStudentStore
        (6 * second) (6 * second)).2
      = [("ST1", "Not Submitted", 0, ""), ("ST2", "Not Submitted", 0, "")] :=
  ⟨rfl, ⟨_, _, rfl, rfl, rfl, rfl⟩, rfl⟩

/-! ## The page size of the list view -/

/-- On a miss the list view returns the rows the store answered with, so the
bound by the limit is the store's. -/
theorem list_view_miss_count {F : Type} (L : Lib F) (atoi : String → Option Int)
    (cache : StudentCache) (submittedStudents : List (String × Bool))
    (studentLocations : List (String × StudentLocation F)) (pageStr limitStr : String)
    (store : Int → Int → StudentsReply) (nowCheck nowPut : Int) (total : Option Int)
    (students : List StudentRecord)
    (hpage : effectivePage atoi pageStr = 1)
    (hmiss : studentCacheHit cache true 1 nowCheck = false)
    (hstore : store (effectiveLimit atoi limitStr) (pageOffset 1 (effectiveLimit atoi limitStr))
      = StudentsReply.rows total students) :
    (pageOf (getAllStudentsHandler L atoi cache submittedStudents studentLocations pageStr
        limitStr "" "list" store nowCheck nowPut).2).map (fun p => p.count)
      = some students.length := by
  rw [getAllStudents_miss L atoi cache submittedStudents studentLocations pageStr limitStr store
    nowCheck nowPut total students hpage hmiss hstore]
  simp [pageOf]

/-- C28. The page size bound fails on a cache hit.  A list-view page-1 request
with `limit=3` at second 0 misses the empty cache, gets three students from
the store and stores the listing; a list-view page-1 request with `limit=2` at
second 5 is a hit and returns the three cached students, although its limit
is 2. -/
theorem cache_hit_exceeds_limit :
    (pageOf (getAllStudentsHandler testLib scanInt StudentCache.init [] [] "1" "3" "" "list"
        threeStudentStore 0 0).2).map (fun p => (p.count, p.limit, p.xCache))
      = some (3, 3, some false) ∧
    (pageOf (getAllStudentsHandler testLib scanInt
        (getAllStudentsHandler testLib scanInt StudentCache.init [] [] "1" "3" "" "list"
          threeStudentStore 0 0).1
        [] [] "1" "2" "" "list" threeStudentStore (5 * second) (5 * second)).2).map
          (fun p => (p.count, p.limit, p.xCache))
      = some (3, 2, some true) ∧
    (pageOf (getAllStudentsHandler testLib scanInt StudentCache.init [] [] "1" "2" "" "list"
        threeStudentStore (5 * second) (5 * second)).2).map
          (fun p => (p.count, p.limit, p.xCache))
      = some (2, 2, some false) :=
  ⟨rfl, rfl, rfl⟩

/-! ## Pagination -/

theorem wrapInt_of_range (x : Int) (h0 : 0 ≤ x) (h1 : x < 2 ^ 63) : wrapInt x = x := by
  unfold wrapInt
  omega

theorem effectivePage_cases (atoi : String → Option Int) (pageStr : String) :
    (effectivePage atoi pageStr = 1 ∧
      (pageStr = "" ∨ atoi pageStr = none ∨ ∃ p, atoi pageStr = some p ∧ p ≤ 0)) ∨
    (∃ p, pageStr ≠ "" ∧ atoi pageStr = some p ∧ 0 < p ∧ effectivePage atoi pageStr = p) := by
  unfold effectivePage
  by_cases hs : pageStr = ""
  · left
    simp [hs]
  · cases ha : atoi pageStr with
    | none =>
      left
      simp [hs]
    | some p =>
      by_cases hp : p > 0
      · right
        exact ⟨p, hs, rfl, hp, by simp [hs, hp]⟩
      · left
        refine ⟨by simp [hs, hp], Or.inr (Or.inr ⟨p, rfl, by omega⟩)⟩

theorem effectiveLimit_cases (atoi : String → Option Int) (limitStr : String) :
    (effectiveLimit atoi limitStr = 100 ∧
      (limitStr = "" ∨ atoi limitStr = none ∨
        ∃ l, atoi limitStr = some l ∧ (l ≤ 0 ∨ 200 < l))) ∨
    (∃ l, limitStr ≠ "" ∧ atoi limitStr = some l ∧ 0 < l ∧ l ≤ 200 ∧
      effectiveLimit atoi limitStr = l) := by
  unfold effectiveLimit
  by_cases hs : limitStr = ""
  · left
    simp [hs]
  · cases ha : atoi limitStr with
    | none =>
      left
      simp [hs]
    | some l =>
      by_cases hl : l > 0 ∧ l ≤ 200
      · right
        exact ⟨l, hs, rfl, hl.1, hl.2, by simp [hs, hl]⟩
      · left
        refine ⟨by simp [hs, hl], Or.inr (Or.inr ⟨l, rfl, by omega⟩)⟩

theorem totalPagesOf_ceiling (totalCount limit : Int) (hl : 0 < limit) (ht : 0 < totalCount)
    (hfit : totalCount + limit - 1 < 2 ^ 63) :
    (totalPagesOf totalCount limit - 1) * limit < totalCount ∧
    totalCount ≤ totalPagesOf totalCount limit * limit := by
  unfold totalPagesOf
  rw [if_pos ht, wrapInt_of_range _ (by omega) hfit,
    Int.tdiv_eq_ediv (by omega) (by omega)]
  have h1 := Int.ediv_add_emod (totalCount + limit - 1) limit
  have h2 := Int.emod_nonneg (totalCount + limit - 1) (show limit ≠ 0 by omega)
  have h3 := Int.emod_lt_of_pos (totalCount + limit - 1) hl
  constructor
  · have e : ((totalCount + limit - 1) / limit - 1) * limit
        = limit * ((totalCount + limit - 1) / limit) - limit := by ring
    rw [e]
    omega
  · have e : (totalCount + limit - 1) / limit * limit
        = limit * ((totalCount + limit - 1) / limit) := by ring
    rw [e]
    omega

/-- C29 (as the code has it). For every `page` and `limit` query string the
effective page is at least 1 (the parsed value when it is positive, 1
otherwise) and the effective limit lies in 1..200 (the parsed value when it
lies there, 100 otherwise).  The offset is `(page - 1) * limit` in 64-bit
arithmetic: it equals the product whenever the product is below `2^63`.
`totalPages` is 1 when the total is not positive, and the ceiling of
`totalCount / limit` when the total is positive and `totalCount + limit - 1`
is below `2^63`. -/
theorem pagination_arithmetic (atoi : String → Option Int) (pageStr limitStr : String)
    (totalCount : Int) :
    1 ≤ effectivePage atoi pageStr ∧
    ((pageStr = "" ∨ atoi pageStr = none ∨ ∃ p, atoi pageStr = some p ∧ p ≤ 0) →
      effectivePage atoi pageStr = 1) ∧
    (∀ p, pageStr ≠ "" → atoi pageStr = some p → 0 < p → effectivePage atoi pageStr = p) ∧
    1 ≤ effectiveLimit atoi limitStr ∧ effectiveLimit atoi limitStr ≤ 200 ∧
    ((limitStr = "" ∨ atoi limitStr = none ∨
        ∃ l, atoi limitStr = some l ∧ (l ≤ 0 ∨ 200 < l)) →
      effectiveLimit atoi limitStr = 100) ∧
    (∀ l, limitStr ≠ "" → atoi limitStr = some l → 0 < l → l ≤ 200 →
      effectiveLimit atoi limitStr = l) ∧
    pageOffset (effectivePage atoi pageStr) (effectiveLimit atoi limitStr)
      = wrapInt ((effectivePage atoi pageStr - 1) * effectiveLimit atoi limitStr) ∧
    ((effectivePage atoi pageStr - 1) * effectiveLimit atoi limitStr < 2 ^ 63 →
      pageOffset (effectivePage atoi pageStr) (effectiveLimit atoi limitStr)
        = (effectivePage atoi pageStr - 1) * effectiveLimit atoi limitStr) ∧
    (totalCount ≤ 0 → totalPagesOf totalCount (effectiveLimit atoi limitStr) = 1) ∧
    (0 < totalCount → totalCount + effectiveLimit atoi limitStr - 1 < 2 ^ 63 →
      (totalPagesOf totalCount (effectiveLimit atoi limitStr) - 1)
          * effectiveLimit atoi limitStr < totalCount ∧
      totalCount ≤ totalPagesOf totalCount (effectiveLimit atoi limitStr)
          * effectiveLimit atoi limitStr) := by
  have hp1 : 1 ≤ effectivePage atoi pageStr := by
    rcases effectivePage_cases atoi pageStr with ⟨h, _⟩ | ⟨p, _, _, hp, h⟩ <;> omega
  have hl1 : 1 ≤ effectiveLimit atoi limitStr ∧ effectiveLimit atoi limitStr ≤ 200 := by
    rcases effectiveLimit_cases atoi limitStr with ⟨h, _⟩ | ⟨l, _, _, h0, h2, h⟩ <;> omega
  refine ⟨hp1, ?_, ?_, hl1.1, hl1.2, ?_, ?_, rfl, ?_, ?_, ?_⟩
  · intro hdef
    rcases effectivePage_cases atoi pageStr with ⟨h, _⟩ | ⟨p, hs, ha, hp, _⟩
    · exact h
    · rcases hdef with h | h | ⟨q, hq, hq0⟩
      · exact absurd h hs
      · rw [ha] at h; cases h
      · rw [ha] at hq; cases hq; omega
  · intro p hs ha hp
    rcases effectivePage_cases atoi pageStr with ⟨_, h | h | ⟨q, hq, hq0⟩⟩ | ⟨q, _, hq, _, h⟩
    · exact absurd h hs
    · rw [ha] at h; cases h
    · rw [ha] at hq; cases hq; omega
    · rw [ha] at hq; cases hq; exact h
  · intro hdef
    rcases effectiveLimit_cases atoi limitStr with ⟨h, _⟩ | ⟨l, hs, ha, h0, h2, _⟩
    · exact h
    · rcases hdef with h | h | ⟨q, hq, hq0⟩
      · exact absurd h hs
      · rw [ha] at h; cases h
      · rw [ha] at hq; cases hq; omega
  · intro l hs ha h0 h2
    rcases effectiveLimit_cases atoi limitStr with
      ⟨_, h | h | ⟨q, hq, hq0⟩⟩ | ⟨q, _, hq, _, _, h⟩
    · exact absurd h hs
    · rw [ha] at h; cases h
    · rw [ha] at hq; cases hq; omega
    · rw [ha] at hq; cases hq; exact h
  · intro hfit
    unfold pageOffset
    apply wrapInt_of_range _ _ hfit
    apply Int.mul_nonneg <;> omega
  · intro ht
    unfold totalPagesOf
    rw [if_neg (by omega)]
  · intro ht hfit
    exact totalPagesOf_ceiling totalCount _ (by omega) ht hfit

theorem pagination_arithmetic_witness :
    (effectivePage goAtoi "3" - 1) * effectiveLimit goAtoi "50" < 2 ^ 63 ∧
    pageOffset (effectivePage goAtoi "3") (effectiveLimit goAtoi "50")
      = (effectivePage goAtoi "3" - 1) * effectiveLimit goAtoi "50" ∧
    pageOffset (effectivePage goAtoi "3") (effectiveLimit goAtoi "50") = 100 ∧
    totalPagesOf 101 (effectiveLimit goAtoi "50") = 3 :=
  ⟨by decide,
    (pagination_arithmetic goAtoi "3" "50" 101).2.2.2.2.2.2.2.2.1 (by decide),
    by decide, by decide⟩

/-- C29, counterexample. With `page=9223372036854775807` and `limit=100` the
effective page is that number, the effective limit is 100, and the offset the
handler computes is `-200`, not `(page - 1) * limit`.  With a total of
`9223372036854775807` and limit 100 the page count computed is negative. -/
theorem offset_overflows :
    effectivePage goAtoi "9223372036854775807" = 9223372036854775807 ∧
    effectiveLimit goAtoi "100" = 100 ∧
    pageOffset (effectivePage goAtoi "9223372036854775807") (effectiveLimit goAtoi "100")
      = -200 ∧
    (effectivePage goAtoi "9223372036854775807" - 1) * effectiveLimit goAtoi "100"
      = 922337203685477580600 ∧
    totalPagesOf 9223372036854775807 (effectiveLimit goAtoi "100") = -92233720368547757 := by
  refine ⟨by decide, by decide, by decide, by decide, by decide⟩

/-! ## The student branch of the status read -/

theorem remainingSeconds_range (start now : Int) :
    0 ≤ remainingSeconds start now ∧ (start ≤ now → remainingSeconds start now ≤ 600) := by
  unfold remainingSeconds
  simp only []
  constructor
  · split_ifs <;> omega
  · intro h
    have h1 : 0 ≤ Int.tdiv (now - start) second := by
      rw [Int.tdiv_eq_ediv (by omega) (by decide)]
      exact Int.ediv_nonneg (by omega) (by decide)
    split_ifs <;> omega

theorem bestWindow_mem (l : List ActiveWindow) :
    ∀ b : ActiveWindow, bestWindow b l = b ∨ bestWindow b l ∈ l := by
  induction l with
  | nil => intro b; exact Or.inl rfl
  | cons w rest ih =>
    intro b
    unfold bestWindow
    split_ifs
    · rcases ih w with h | h
      · right; rw [h]; exact List.mem_cons_self _ _
      · right; exact List.mem_cons_of_mem _ h
    · rcases ih b with h | h
      · left; exact h
      · right; exact List.mem_cons_of_mem _ h

theorem bestWindow_max (l : List ActiveWindow) :
    ∀ b : ActiveWindow, b.remaining_seconds ≤ (bestWindow b l).remaining_seconds ∧
      ∀ w ∈ l, w.remaining_seconds ≤ (bestWindow b l).remaining_seconds := by
  induction l with
  | nil =>
    intro b
    exact ⟨Int.le_refl _, fun w hw => absurd hw (List.not_mem_nil w)⟩
  | cons w rest ih =>
    intro b
    unfold bestWindow
    split_ifs with h
    · obtain ⟨h1, h2⟩ := ih w
      refine ⟨by omega, ?_⟩
      intro x hx
      rcases List.mem_cons.mp hx with rfl | hx
      · exact h1
      · exact h2 x hx
    · obtain ⟨h1, h2⟩ := ih b
      refine ⟨h1, ?_⟩
      intro x hx
      rcases List.mem_cons.mp hx with rfl | hx
      · omega
      · exact h2 x hx

/-- The selection keeps the first window that attains the maximum: either the
initial one, when nothing in the list is strictly better, or a window of the
list that is strictly better than the initial one and than everything before
it. -/
theorem bestWindow_first (l : List ActiveWindow) :
    ∀ b : ActiveWindow,
      (bestWindow b l = b ∧ ∀ w ∈ l, w.remaining_seconds ≤ b.remaining_seconds) ∨
      (∃ pre post, l = pre ++ bestWindow b l :: post ∧
        b.remaining_seconds < (bestWindow b l).remaining_seconds ∧
        ∀ w ∈ pre, w.remaining_seconds < (bestWindow b l).remaining_seconds) := by
  induction l with
  | nil =>
    intro b
    exact Or.inl ⟨rfl, fun w hw => absurd hw (List.not_mem_nil w)⟩
  | cons w rest ih =>
    intro b
    unfold bestWindow
    split_ifs with h
    · right
      rcases ih w with ⟨h1, _⟩ | ⟨pre, post, h1, h2, h3⟩
      · refine ⟨[], rest, ?_, ?_, ?_⟩
        · rw [h1]; rfl
        · rw [h1]; omega
        · intro x hx; exact absurd hx (List.not_mem_nil x)
      · refine ⟨w :: pre, post, ?_, by omega, ?_⟩
        · rw [List.cons_append, ← h1]
        · intro x hx
          rcases List.mem_cons.mp hx with rfl | hx
          · exact h2
          · exact h3 x hx
    · rcases ih b with ⟨h1, h2⟩ | ⟨pre, post, h1, h2, h3⟩
      · left
        refine ⟨h1, ?_⟩
        intro x hx
        rcases List.mem_cons.mp hx with rfl | hx
        · omega
        · exact h2 x hx
      · right
        refine ⟨w :: pre, post, ?_, h2, ?_⟩
        · rw [List.cons_append, ← h1]
        · intro x hx
          rcases List.mem_cons.mp hx with rfl | hx
          · omega
          · exact h3 x hx

theorem mapGet_of_mem_nodup {V : Type} (m : List (String × V))
    (hk : (m.map Prod.fst).Nodup) (e : String × V) (he : e ∈ m) : mapGet m e.1 = some e.2 := by
  induction m with
  | nil => exact absurd he (List.not_mem_nil e)
  | cons x rest ih =>
    rw [List.map_cons, List.nodup_cons] at hk
    rcases List.mem_cons.mp he with rfl | h
    · simp [mapGet]
    · have hne : x.1 ≠ e.1 := by
        intro heq
        apply hk.1
        rw [heq]
        exact List.mem_map_of_mem Prod.fst h
      simp only [mapGet, if_neg hne]
      exact ih hk.2 h

theorem memberWindows_sub {F : Type} (st : State F) (clock : String → Int)
    (ms : List (Option String)) :
    ∀ acc w, w ∈ acc → w ∈ memberWindows st clock ms acc := by
  induction ms with
  | nil => intro acc w hw; exact hw
  | cons m rest ih =>
    intro acc w hw
    cases m with
    | none => exact ih acc w hw
    | some gID =>
      unfold memberWindows
      cases mapGet st.groups gID with
      | none => exact ih acc w hw
      | some group =>
        simp only []
        split_ifs
        · exact ih _ w (List.mem_append_left _ hw)
        · exact ih acc w hw

theorem memberWindows_forward {F : Type} (st : State F) (clock : String → Int)
    (ms : List (Option String)) :
    ∀ acc w, w ∈ memberWindows st clock ms acc →
      w ∈ acc ∨ ∃ g, mapGet st.groups w.group_id = some g ∧ g.WindowActive = true ∧
        some w.group_id ∈ ms ∧ Shows clock w w.group_id g := by
  induction ms with
  | nil => intro acc w hw; exact Or.inl hw
  | cons m rest ih =>
    intro acc w hw
    have lift : (w ∈ acc ∨ ∃ g, mapGet st.groups w.group_id = some g ∧ g.WindowActive = true ∧
        some w.group_id ∈ rest ∧ Shows clock w w.group_id g) →
        (w ∈ acc ∨ ∃ g, mapGet st.groups w.group_id = some g ∧ g.WindowActive = true ∧
        some w.group_id ∈ m :: rest ∧ Shows clock w w.group_id g) := by
      rintro (h | ⟨g, h1, h2, h3, h4⟩)
      · exact Or.inl h
      · exact Or.inr ⟨g, h1, h2, List.mem_cons_of_mem _ h3, h4⟩
    cases m with
    | none => exact lift (ih acc w hw)
    | some gID =>
      unfold memberWindows at hw
      cases hget : mapGet st.groups gID with
      | none =>
        simp only [hget] at hw
        exact lift (ih acc w hw)
      | some group =>
        simp only [hget] at hw
        by_cases hact : group.WindowActive = true
        · simp only [hact, if_true] at hw
          rcases ih _ w hw with h | h
          · rcases List.mem_append.mp h with h | h
            · exact Or.inl h
            · right
              have hw2 := List.mem_singleton.mp h
              subst hw2
              exact ⟨group, hget, hact, List.mem_cons_self _ _, rfl, rfl, rfl⟩
          · exact lift (Or.inr h)
        · simp only [hact] at hw
          exact lift (ih acc w hw)

theorem memberWindows_backward {F : Type} (st : State F) (clock : String → Int)
    (ms : List (Option String)) :
    ∀ acc gid g, some gid ∈ ms → mapGet st.groups gid = some g → g.WindowActive = true →
      ∃ w ∈ memberWindows st clock ms acc, w.group_id = gid := by
  induction ms with
  | nil => intro acc gid g hm; exact absurd hm (List.not_mem_nil _)
  | cons m rest ih =>
    intro acc gid g hm hget hact
    rcases List.mem_cons.mp hm with heq | hm2
    all_goals clear hm
    · subst heq
      unfold memberWindows
      simp only [hget, hact, if_true]
      exact ⟨_, memberWindows_sub st clock rest _ _
        (List.mem_append_right _ (List.mem_singleton.mpr rfl)), rfl⟩
    · cases m with
      | none => exact ih acc gid g hm2 hget hact
      | some gID =>
        unfold memberWindows
        cases mapGet st.groups gID with
        | none => exact ih acc gid g hm2 hget hact
        | some group =>
          simp only []
          split_ifs
          · exact ih _ gid g hm2 hget hact
          · exact ih acc gid g hm2 hget hact

theorem openWindows_sub {F : Type} (clock : String → Int) (l : List (String × GroupData F)) :
    ∀ acc w, w ∈ acc → w ∈ openWindows clock l acc := by
  induction l with
  | nil => intro acc w hw; exact hw
  | cons e rest ih =>
    intro acc w hw
    unfold openWindows
    split_ifs
    · exact ih acc w hw
    · exact ih _ w (List.mem_append_left _ hw)
    · exact ih acc w hw

theorem openWindows_forward {F : Type} (clock : String → Int)
    (l : List (String × GroupData F)) :
    ∀ acc w, w ∈ openWindows clock l acc →
      w ∈ acc ∨ ∃ e ∈ l, e.2.WindowActive = true ∧ e.2.GroupOnly = false ∧
        Shows clock w e.1 e.2 := by
  induction l with
  | nil => intro acc w hw; exact Or.inl hw
  | cons e rest ih =>
    intro acc w hw
    have lift : (w ∈ acc ∨ ∃ x ∈ rest, x.2.WindowActive = true ∧ x.2.GroupOnly = false ∧
        Shows clock w x.1 x.2) →
        (w ∈ acc ∨ ∃ x ∈ e :: rest, x.2.WindowActive = true ∧ x.2.GroupOnly = false ∧
        Shows clock w x.1 x.2) := by
      rintro (h | ⟨x, h1, h2⟩)
      · exact Or.inl h
      · exact Or.inr ⟨x, List.mem_cons_of_mem _ h1, h2⟩
    unfold openWindows at hw
    split_ifs at hw with hc hf
    · exact lift (ih acc w hw)
    · rcases ih _ w hw with h | h
      · rcases List.mem_append.mp h with h | h
        · exact Or.inl h
        · right
          have hw2 := List.mem_singleton.mp h
          subst hw2
          exact ⟨e, List.mem_cons_self _ _, hc.1, hc.2, rfl, rfl, rfl⟩
      · exact lift (Or.inr h)
    · exact lift (ih acc w hw)

theorem openWindows_backward {F : Type} (clock : String → Int)
    (l : List (String × GroupData F)) :
    ∀ acc e, e ∈ l → e.2.WindowActive = true → e.2.GroupOnly = false →
      ∃ w ∈ openWindows clock l acc, w.group_id = e.1 := by
  induction l with
  | nil => intro acc e he; exact absurd he (List.not_mem_nil _)
  | cons x rest ih =>
    intro acc e he hact hopen
    rcases List.mem_cons.mp he with heq | he
    · subst heq
      unfold openWindows
      simp only [hact, hopen, and_self, if_true]
      split_ifs with hf
      · obtain ⟨w, hw, hid⟩ := List.any_eq_true.mp hf
        exact ⟨w, openWindows_sub clock rest acc w hw, by simpa using hid⟩
      · exact ⟨_, openWindows_sub clock rest _ _
          (List.mem_append_right _ (List.mem_singleton.mpr rfl)), rfl⟩
    · unfold openWindows
      split_ifs
      · exact ih acc e he hact hopen
      · exact ih _ e he hact hopen
      · exact ih acc e he hact hopen

theorem nodup_ids_snoc (acc : List ActiveWindow) (w : ActiveWindow)
    (hacc : (acc.map (fun x => x.group_id)).Nodup)
    (hnew : ∀ x ∈ acc, x.group_id ≠ w.group_id) :
    ((acc ++ [w]).map (fun x => x.group_id)).Nodup := by
  rw [List.map_append, List.nodup_append]
  refine ⟨hacc, List.nodup_singleton _, ?_⟩
  intro a ha hb
  obtain ⟨x, hx, rfl⟩ := List.mem_map.mp ha
  have hb2 : x.group_id = w.group_id := by simpa using hb
  exact hnew x hx hb2

theorem openWindows_nodup {F : Type} (clock : String → Int) (l : List (String × GroupData F)) :
    ∀ acc, (acc.map (fun x => x.group_id)).Nodup →
      ((openWindows clock l acc).map (fun x => x.group_id)).Nodup := by
  induction l with
  | nil => intro acc h; exact h
  | cons e rest ih =>
    intro acc h
    unfold openWindows
    split_ifs with hc hf
    · exact ih acc h
    · apply ih
      apply nodup_ids_snoc acc _ h
      intro x hx heq
      apply hf
      exact List.any_eq_true.mpr ⟨x, hx, by simpa using heq⟩
    · exact ih acc h

theorem memberWindows_nodup {F : Type} (st : State F) (clock : String → Int)
    (ms : List (Option String)) (hms : ms.Nodup) :
    ∀ acc, (acc.map (fun x => x.group_id)).Nodup → (∀ w ∈ acc, some w.group_id ∉ ms) →
      ((memberWindows st clock ms acc).map (fun x => x.group_id)).Nodup := by
  induction ms with
  | nil => intro acc h _; exact h
  | cons m rest ih =>
    intro acc h hdis
    rw [List.nodup_cons] at hms
    have hdis2 : ∀ w ∈ acc, some w.group_id ∉ rest :=
      fun w hw hmem => hdis w hw (List.mem_cons_of_mem _ hmem)
    cases m with
    | none => exact ih hms.2 acc h hdis2
    | some gID =>
      unfold memberWindows
      cases mapGet st.groups gID with
      | none => exact ih hms.2 acc h hdis2
      | some group =>
        simp only []
        split_ifs
        · apply ih hms.2
          · apply nodup_ids_snoc acc _ h
            intro x hx heq
            apply hdis x hx
            rw [heq]
            exact List.mem_cons_self _ _
          · intro w hw
            rcases List.mem_append.mp hw with hw | hw
            · exact hdis2 w hw
            · have hw2 := List.mem_singleton.mp hw
              subst hw2
              exact hms.1
        · exact ih hms.2 acc h hdis2

/-- Every entry of the `activeWindows` slice describes a visible active
window of the registry. -/
theorem activeWindows_forward {F : Type} (st : State F) (ms : List (Option String))
    (clock : String → Int) (hkeys : (st.groups.map Prod.fst).Nodup) (w : ActiveWindow)
    (hw : w ∈ activeWindowsOf st ms clock) :
    ∃ g, VisibleWindow st ms w.group_id g ∧ Shows clock w w.group_id g := by
  rcases openWindows_forward clock st.groups _ w hw with h | ⟨e, he, hact, hopen, hshow⟩
  · rcases memberWindows_forward st clock ms [] w h with h | ⟨g, h1, h2, h3, h4⟩
    · exact absurd h (List.not_mem_nil w)
    · exact ⟨g, ⟨h1, h2, Or.inl h3⟩, h4⟩
  · have hget := mapGet_of_mem_nodup st.groups hkeys e he
    have hid : w.group_id = e.1 := hshow.1
    refine ⟨e.2, ⟨by rw [hid]; exact hget, hact, Or.inr hopen⟩, ?_⟩
    rw [hid]
    exact hshow

/-- Every visible active window has an entry in the `activeWindows` slice. -/
theorem activeWindows_backward {F : Type} (st : State F) (ms : List (Option String))
    (clock : String → Int) (gid : String) (g : GroupData F)
    (hvis : VisibleWindow st ms gid g) :
    ∃ w ∈ activeWindowsOf st ms clock, w.group_id = gid := by
  obtain ⟨hget, hact, hm | hopen⟩ := hvis
  · obtain ⟨w, hw, hid⟩ := memberWindows_backward st clock ms [] gid g hm hget hact
    exact ⟨w, openWindows_sub clock st.groups _ w hw, hid⟩
  · exact openWindows_backward clock st.groups _ (gid, g) (mem_of_mapGet st.groups gid g hget)
      hact hopen

/-! The theorem for C30 follows the lemmas on the value reported and on the
entries of the slice, further down. -/

/-! ## The record of a participant across operations -/

/-- The value of `remainingSeconds` in plain arithmetic: from the start on it
is 600 minus the whole seconds elapsed, and 0 once that is negative; before
the start it is 600 plus the whole seconds still to go. -/
theorem remainingSeconds_value (start now : Int) :
    (start ≤ now →
      remainingSeconds start now = max 0 (600 - (now - start) / 1000000000)) ∧
    (now < start →
      remainingSeconds start now = 600 + (start - now) / 1000000000) := by
  unfold remainingSeconds second
  simp only []
  constructor
  · intro h
    rw [Int.tdiv_eq_ediv (by omega) (by decide)]
    split_ifs with hneg
    · exact (max_eq_left (by omega)).symm
    · exact (max_eq_right (by omega)).symm
  · intro h
    have hneg : now - start = -(start - now) := by omega
    have hq : 0 ≤ (start - now) / 1000000000 := Int.ediv_nonneg (by omega) (by decide)
    rw [hneg, Int.neg_tdiv, Int.tdiv_eq_ediv (by omega) (by decide)]
    split_ifs with hlt
    · omega
    · omega

theorem memberWindows_count {F : Type} (st : State F) (clock : String → Int) (gid : String)
    (g : GroupData F) (hget : mapGet st.groups gid = some g) (hact : g.WindowActive = true)
    (ms : List (Option String)) :
    ∀ acc, ((memberWindows st clock ms acc).map (fun w => w.group_id)).count gid
      = (acc.map (fun w => w.group_id)).count gid + ms.count (some gid) := by
  induction ms with
  | nil => intro acc; simp [memberWindows]
  | cons m rest ih =>
    intro acc
    cases m with
    | none =>
      have h1 : memberWindows st clock (none :: rest) acc = memberWindows st clock rest acc := rfl
      rw [h1, ih acc]
      simp
    | some k =>
      by_cases hk : k = gid
      · subst hk
        have h1 : memberWindows st clock (some k :: rest) acc
            = memberWindows st clock rest
                (acc ++ [{ group_id := k, group_name := g.Name, group_only := g.GroupOnly,
                           remaining_seconds := remainingSeconds g.WindowStartTime (clock k) }]) := by
          simp only [memberWindows, hget, hact, if_true]
        rw [h1, ih]
        simp
        omega
      · have hne : (some k == some gid) = false := by simpa using hk
        have hcount : (some k :: rest).count (some gid) = rest.count (some gid) := by
          rw [List.count_cons, hne]
          simp
        rw [hcount]
        unfold memberWindows
        cases mapGet st.groups k with
        | none => exact ih acc
        | some group =>
          simp only []
          split_ifs
          · rw [ih]
            have h0 : List.count gid [k] = 0 :=
              List.count_eq_zero.mpr (by simpa using Ne.symm hk)
            simp [h0]
          · exact ih acc

theorem count_ids_snoc_ne (acc : List ActiveWindow) (w : ActiveWindow) (gid : String)
    (hne : w.group_id ≠ gid) :
    ((acc ++ [w]).map (fun w => w.group_id)).count gid
      = (acc.map (fun w => w.group_id)).count gid := by
  have h0 : List.count gid [w.group_id] = 0 :=
    List.count_eq_zero.mpr (by simpa using Ne.symm hne)
  simp [h0]

theorem count_ids_snoc_eq (acc : List ActiveWindow) (w : ActiveWindow) (gid : String)
    (heq : w.group_id = gid) :
    ((acc ++ [w]).map (fun w => w.group_id)).count gid
      = (acc.map (fun w => w.group_id)).count gid + 1 := by
  simp [heq]

theorem openWindows_count_keep {F : Type} (clock : String → Int) (gid : String)
    (l : List (String × GroupData F)) :
    ∀ acc, (acc.map (fun w => w.group_id)).count gid ≠ 0 →
      ((openWindows clock l acc).map (fun w => w.group_id)).count gid
        = (acc.map (fun w => w.group_id)).count gid := by
  induction l with
  | nil => intro acc _; rfl
  | cons e rest ih =>
    intro acc hacc
    unfold openWindows
    split_ifs with hc hf
    · exact ih acc hacc
    · have hne : e.1 ≠ gid := by
        intro heq
        apply hf
        have hmem : gid ∈ acc.map (fun w => w.group_id) :=
          List.count_pos_iff.mp (Nat.pos_of_ne_zero hacc)
        obtain ⟨w, hw, hid⟩ := List.mem_map.mp hmem
        exact List.any_eq_true.mpr ⟨w, hw, by simp [hid, heq]⟩
      have hsame : ∀ w : ActiveWindow, w.group_id = e.1 →
          ((acc ++ [w]).map (fun w => w.group_id)).count gid
            = (acc.map (fun w => w.group_id)).count gid := by
        intro w hw
        have h0 : List.count gid [w.group_id] = 0 :=
          List.count_eq_zero.mpr (by rw [hw]; simpa using Ne.symm hne)
        simp [h0]
      rw [ih _ (by rw [hsame _ rfl]; exact hacc), hsame _ rfl]
    · exact ih acc hacc

theorem openWindows_count_add {F : Type} (clock : String → Int) (gid : String)
    (l : List (String × GroupData F)) :
    ∀ acc, (acc.map (fun w => w.group_id)).count gid = 0 →
      (∃ e ∈ l, e.1 = gid ∧ e.2.WindowActive = true ∧ e.2.GroupOnly = false) →
      ((openWindows clock l acc).map (fun w => w.group_id)).count gid = 1 := by
  induction l with
  | nil =>
    intro acc _ h
    obtain ⟨e, he, _⟩ := h
    exact absurd he (List.not_mem_nil e)
  | cons e rest ih =>
    intro acc hacc hex
    obtain ⟨e0, he0, hid0, hact0, hopen0⟩ := hex
    unfold openWindows
    split_ifs with hc hf
    · have hne : e.1 ≠ gid := by
        intro heq
        obtain ⟨w, hw, hid⟩ := List.any_eq_true.mp hf
        have hmem : gid ∈ acc.map (fun w => w.group_id) :=
          List.mem_map.mpr ⟨w, hw, by rw [← heq]; simpa using hid⟩
        exact (List.count_eq_zero.mp hacc) hmem
      rcases List.mem_cons.mp he0 with h | h
      · rw [h] at hid0
        exact absurd hid0 hne
      · exact ih acc hacc ⟨e0, h, hid0, hact0, hopen0⟩
    · by_cases heq : e.1 = gid
      · rw [openWindows_count_keep clock gid rest _
          (by rw [count_ids_snoc_eq acc _ gid heq]; omega),
          count_ids_snoc_eq acc _ gid heq, hacc]
      · rcases List.mem_cons.mp he0 with h | h
        · rw [h] at hid0
          exact absurd hid0 heq
        · exact ih _ (by rw [count_ids_snoc_ne acc _ gid heq]; exact hacc)
            ⟨e0, h, hid0, hact0, hopen0⟩
    · rcases List.mem_cons.mp he0 with h | h
      · rw [h] at hact0 hopen0
        exact absurd ⟨hact0, hopen0⟩ hc
      · exact ih acc hacc ⟨e0, h, hid0, hact0, hopen0⟩

/-- How often a visible active window is listed in the slice: once per
membership row of the store when the student is a member, once when the
window is open to all and the student is not a member. -/
theorem activeWindows_count {F : Type} (st : State F) (ms : List (Option String))
    (clock : String → Int) (gid : String) (g : GroupData F)
    (hvis : VisibleWindow st ms gid g) :
    ((activeWindowsOf st ms clock).map (fun w => w.group_id)).count gid
      = if some gid ∈ ms then ms.count (some gid) else 1 := by
  obtain ⟨hget, hact, hor⟩ := hvis
  have hm := memberWindows_count st clock gid g hget hact ms []
  simp only [List.map_nil, List.count_nil, Nat.zero_add] at hm
  unfold activeWindowsOf
  split_ifs with hmem
  · have hpos : ms.count (some gid) ≠ 0 := Nat.pos_iff_ne_zero.mp (List.count_pos_iff.mpr hmem)
    rw [openWindows_count_keep clock gid st.groups _ (by rw [hm]; exact hpos), hm]
  · have hopen : g.GroupOnly = false := by
      rcases hor with h | h
      · exact absurd h hmem
      · exact h
    apply openWindows_count_add clock gid st.groups _
    · rw [hm]
      exact List.count_eq_zero.mpr hmem
    · exact ⟨(gid, g), mem_of_mapGet st.groups gid g hget, rfl, hact, hopen⟩

theorem firstById_sub (l : List ActiveWindow) :
    ∀ seen w, w ∈ firstById l seen → w ∈ l ∧ w.group_id ∉ seen := by
  induction l with
  | nil => intro seen w hw; exact absurd hw (List.not_mem_nil w)
  | cons x rest ih =>
    intro seen w hw
    unfold firstById at hw
    split_ifs at hw with hx
    · obtain ⟨h1, h2⟩ := ih seen w hw
      exact ⟨List.mem_cons_of_mem _ h1, h2⟩
    · rcases List.mem_cons.mp hw with rfl | hw
      · exact ⟨List.mem_cons_self _ _, hx⟩
      · obtain ⟨h1, h2⟩ := ih _ w hw
        exact ⟨List.mem_cons_of_mem _ h1, fun h => h2 (List.mem_cons_of_mem _ h)⟩

theorem firstById_nodup (l : List ActiveWindow) :
    ∀ seen, ((firstById l seen).map (fun w => w.group_id)).Nodup := by
  induction l with
  | nil => intro seen; exact List.nodup_nil
  | cons x rest ih =>
    intro seen
    unfold firstById
    split_ifs with hx
    · exact ih seen
    · rw [List.map_cons, List.nodup_cons]
      refine ⟨?_, ih _⟩
      intro hmem
      obtain ⟨w, hw, hid⟩ := List.mem_map.mp hmem
      exact (firstById_sub rest _ w hw).2 (by rw [hid]; exact List.mem_cons_self _ _)

theorem firstById_ids (l : List ActiveWindow) :
    ∀ seen gid, gid ∈ l.map (fun w => w.group_id) → gid ∉ seen →
      gid ∈ (firstById l seen).map (fun w => w.group_id) := by
  induction l with
  | nil => intro seen gid h; exact absurd h (List.not_mem_nil gid)
  | cons x rest ih =>
    intro seen gid h hseen
    rw [List.map_cons] at h
    unfold firstById
    split_ifs with hx
    · rcases List.mem_cons.mp h with heq | h
      · rw [heq] at hseen
        exact absurd hx hseen
      · exact ih seen gid h hseen
    · rw [List.map_cons]
      by_cases heq : gid = x.group_id
      · rw [heq]
        exact List.mem_cons_self _ _
      · rcases List.mem_cons.mp h with h | h
        · exact absurd h heq
        · apply List.mem_cons_of_mem
          apply ih _ gid h
          intro hm
          rcases List.mem_cons.mp hm with hm | hm
          · exact heq hm
          · exact hseen hm

/-- Dropping the entries whose session was listed earlier does not change the
window the selection loop picks, when entries of the same session carry the
same remaining seconds. -/
theorem bestWindow_firstById (l : List ActiveWindow) :
    ∀ (b : ActiveWindow) (seen : List String),
      (∀ x ∈ l, ∀ y ∈ l, x.group_id = y.group_id →
        x.remaining_seconds = y.remaining_seconds) →
      (∀ x ∈ l, x.group_id ∈ seen → x.remaining_seconds ≤ b.remaining_seconds) →
      bestWindow b (firstById l seen) = bestWindow b l := by
  induction l with
  | nil => intro b seen _ _; rfl
  | cons w rest ih =>
    intro b seen hsame hseen
    have hsame2 : ∀ x ∈ rest, ∀ y ∈ rest, x.group_id = y.group_id →
        x.remaining_seconds = y.remaining_seconds :=
      fun x hx y hy => hsame x (List.mem_cons_of_mem _ hx) y (List.mem_cons_of_mem _ hy)
    unfold firstById
    split_ifs with hw
    · have hle := hseen w (List.mem_cons_self _ _) hw
      have h1 : bestWindow b (w :: rest) = bestWindow b rest := by
        show (if w.remaining_seconds > b.remaining_seconds then bestWindow w rest
          else bestWindow b rest) = bestWindow b rest
        rw [if_neg (by omega)]
      rw [h1]
      exact ih b seen hsame2 (fun x hx => hseen x (List.mem_cons_of_mem _ hx))
    · show (if w.remaining_seconds > b.remaining_seconds
          then bestWindow w (firstById rest (w.group_id :: seen))
          else bestWindow b (firstById rest (w.group_id :: seen)))
        = (if w.remaining_seconds > b.remaining_seconds then bestWindow w rest
          else bestWindow b rest)
      split_ifs with hgt
      · apply ih w _ hsame2
        intro x hx hmem
        rcases List.mem_cons.mp hmem with hid | hmem
        · have := hsame x (List.mem_cons_of_mem _ hx) w (List.mem_cons_self _ _) hid
          omega
        · have := hseen x (List.mem_cons_of_mem _ hx) hmem
          omega
      · apply ih b _ hsame2
        intro x hx hmem
        rcases List.mem_cons.mp hmem with hid | hmem
        · have := hsame x (List.mem_cons_of_mem _ hx) w (List.mem_cons_self _ _) hid
          omega
        · exact hseen x (List.mem_cons_of_mem _ hx) hmem

/-! ## C30 -/

/-- C30. Best-window selection.  When the status read carries a student id the
store resolves, and the registry holds at least one active window the student
may use (a session the student is a member of, or one open to all), the
response is active and reports one entry `best` of the slice of visible active
windows: its remaining seconds, group id and name.  That entry describes a
visible active window.  The seconds reported are 600 minus the whole seconds
elapsed since the start of that window, and 0 once that is negative (600 plus
the whole seconds to go when the window is inspected before its start); no
visible active window has more left; every entry before `best` in the slice
has strictly fewer, so it is the first found with the maximum.  A visible
window is listed once, except that a session the student is a member of is
listed once per membership row of the store; when the store lists each
membership once no session is listed twice, and in every case the window
picked is the one picked from the slice in which each session is listed once.
The remaining seconds lie in 0..600 whenever the session is inspected at or
after its start time. -/
theorem best_window_selection {F : Type} (st : State F) (studentID uuid : String)
    (ms : List (Option String)) (clock : String → Int) (gid0 : String) (g0 : GroupData F)
    (hsid : studentID ≠ "") (huuid : uuid ≠ "")
    (hkeys : (st.groups.map Prod.fst).Nodup)
    (hvis : VisibleWindow st ms gid0 g0) :
    ∃ (resp : StatusResponse) (best : ActiveWindow) (gbest : GroupData F)
      (pre post : List ActiveWindow),
      statusByStudent st studentID uuid (some ms) clock = some resp ∧
      resp.active = true ∧ resp.remaining_seconds = best.remaining_seconds ∧
      resp.group_id = some best.group_id ∧ resp.session_name = best.group_name ∧
      VisibleWindow st ms best.group_id gbest ∧ Shows clock best best.group_id gbest ∧
      (∀ gid g, VisibleWindow st ms gid g →
        remainingSeconds g.WindowStartTime (clock gid) ≤ resp.remaining_seconds) ∧
      activeWindowsOf st ms clock = pre ++ best :: post ∧
      (∀ w ∈ pre, w.remaining_seconds < best.remaining_seconds) ∧
      (ms.Nodup → ((activeWindowsOf st ms clock).map (fun w => w.group_id)).Nodup) ∧
      0 ≤ resp.remaining_seconds ∧
      (gbest.WindowStartTime ≤ clock best.group_id → resp.remaining_seconds ≤ 600) ∧
      (∀ gid g, VisibleWindow st ms gid g →
        0 ≤ remainingSeconds g.WindowStartTime (clock gid) ∧
        (g.WindowStartTime ≤ clock gid →
          remainingSeconds g.WindowStartTime (clock gid) ≤ 600)) ∧
      (gbest.WindowStartTime ≤ clock best.group_id →
        resp.remaining_seconds
          = max 0 (600 - (clock best.group_id - gbest.WindowStartTime) / 1000000000)) ∧
      (clock best.group_id < gbest.WindowStartTime →
        resp.remaining_seconds
          = 600 + (gbest.WindowStartTime - clock best.group_id) / 1000000000) ∧
      (∀ gid g, VisibleWindow st ms gid g →
        (g.WindowStartTime ≤ clock gid →
          max 0 (600 - (clock gid - g.WindowStartTime) / 1000000000)
            ≤ resp.remaining_seconds) ∧
        (clock gid < g.WindowStartTime →
          600 + (g.WindowStartTime - clock gid) / 1000000000 ≤ resp.remaining_seconds)) ∧
      (∀ gid g, VisibleWindow st ms gid g →
        ((activeWindowsOf st ms clock).map (fun w => w.group_id)).count gid
          = if some gid ∈ ms then ms.count (some gid) else 1) ∧
      (∃ (w1 : ActiveWindow) (rest1 : List ActiveWindow),
        ((w1 :: rest1).map (fun w => w.group_id)).Nodup ∧
        (∀ w ∈ w1 :: rest1, w ∈ activeWindowsOf st ms clock) ∧
        (∀ w ∈ activeWindowsOf st ms clock,
          w.group_id ∈ (w1 :: rest1).map (fun w => w.group_id)) ∧
        bestWindow w1 (w1 :: rest1) = best) := by
  obtain ⟨wv, hwv, _⟩ := activeWindows_backward st ms clock gid0 g0 hvis
  have hcount : ∀ gid g, VisibleWindow st ms gid g →
      ((activeWindowsOf st ms clock).map (fun w => w.group_id)).count gid
        = if some gid ∈ ms then ms.count (some gid) else 1 :=
    fun gid g hv => activeWindows_count st ms clock gid g hv
  have hsame : ∀ x ∈ activeWindowsOf st ms clock, ∀ y ∈ activeWindowsOf st ms clock,
      x.group_id = y.group_id → x.remaining_seconds = y.remaining_seconds := by
    intro x hx y hy hid
    obtain ⟨gx, hvx, hsx⟩ := activeWindows_forward st ms clock hkeys x hx
    obtain ⟨gy, hvy, hsy⟩ := activeWindows_forward st ms clock hkeys y hy
    have hg : gx = gy := by
      have h1 := hvx.1
      rw [hid, hvy.1] at h1
      cases h1
      rfl
    rw [hsx.2.2, hsy.2.2, hg, hid]
  have hnodup : ms.Nodup →
      ((activeWindowsOf st ms clock).map (fun w => w.group_id)).Nodup :=
    fun hms => openWindows_nodup clock st.groups _
      (memberWindows_nodup st clock ms hms [] List.nodup_nil
        (fun w hw => absurd hw (List.not_mem_nil w)))
  cases hws : activeWindowsOf st ms clock with
  | nil =>
    rw [hws] at hwv
    exact absurd hwv (List.not_mem_nil wv)
  | cons w0 rest =>
    rw [hws] at hcount hsame hnodup
    have hbest : bestWindow w0 (w0 :: rest) = bestWindow w0 rest := by
      show (if w0.remaining_seconds > w0.remaining_seconds then bestWindow w0 rest
        else bestWindow w0 rest) = bestWindow w0 rest
      rw [if_neg (by omega)]
    have hresp : statusByStudent st studentID uuid (some ms) clock =
        some { active := true, remaining_seconds := (bestWindow w0 rest).remaining_seconds,
               group_id := some (bestWindow w0 rest).group_id,
               session_name := (bestWindow w0 rest).group_name } := by
      unfold activeWindowsOf at hws
      unfold statusByStudent
      simp only [hws, hbest]
      rw [if_pos ⟨hsid, huuid⟩]
    have hmem : bestWindow w0 rest ∈ activeWindowsOf st ms clock := by
      rw [hws]
      rcases bestWindow_mem rest w0 with h | h
      · rw [h]; exact List.mem_cons_self _ _
      · exact List.mem_cons_of_mem _ h
    obtain ⟨gbest, hbvis, hbshow⟩ :=
      activeWindows_forward st ms clock hkeys (bestWindow w0 rest) hmem
    have hmax : ∀ w ∈ activeWindowsOf st ms clock,
        w.remaining_seconds ≤ (bestWindow w0 rest).remaining_seconds := by
      intro w hw
      rw [hws] at hw
      rcases List.mem_cons.mp hw with rfl | hw
      · exact (bestWindow_max rest w).1
      · exact (bestWindow_max rest w0).2 w hw
    have hfirst : ∃ pre post, w0 :: rest = pre ++ bestWindow w0 rest :: post ∧
        ∀ w ∈ pre, w.remaining_seconds < (bestWindow w0 rest).remaining_seconds := by
      rcases bestWindow_first rest w0 with ⟨h1, _⟩ | ⟨pre, post, h1, h2, h3⟩
      · refine ⟨[], rest, ?_, ?_⟩
        · rw [h1]; rfl
        · intro w hw; exact absurd hw (List.not_mem_nil w)
      · refine ⟨w0 :: pre, post, ?_, ?_⟩
        · rw [List.cons_append, ← h1]
        · intro w hw
          rcases List.mem_cons.mp hw with rfl | hw
          · exact h2
          · exact h3 w hw
    obtain ⟨pre, post, hsplit, hpre⟩ := hfirst
    have hbound : ∀ gid g, VisibleWindow st ms gid g →
        remainingSeconds g.WindowStartTime (clock gid)
          ≤ (bestWindow w0 rest).remaining_seconds := by
      intro gid g hv
      obtain ⟨w, hw, hid⟩ := activeWindows_backward st ms clock gid g hv
      obtain ⟨g2, hv2, hs2⟩ := activeWindows_forward st ms clock hkeys w hw
      have hg : g2 = g := by
        have h1 := hv2.1
        rw [hid, hv.1] at h1
        cases h1
        rfl
      have hrem : w.remaining_seconds = remainingSeconds g.WindowStartTime (clock gid) := by
        rw [hs2.2.2, hg, hid]
      rw [← hrem]
      exact hmax w hw
    have honce : ∃ (w1 : ActiveWindow) (rest1 : List ActiveWindow),
        ((w1 :: rest1).map (fun w => w.group_id)).Nodup ∧
        (∀ w ∈ w1 :: rest1, w ∈ w0 :: rest) ∧
        (∀ w ∈ w0 :: rest, w.group_id ∈ (w1 :: rest1).map (fun w => w.group_id)) ∧
        bestWindow w1 (w1 :: rest1) = bestWindow w0 rest := by
      have hf : firstById (w0 :: rest) [] = w0 :: firstById rest [w0.group_id] := by
        show (if w0.group_id ∈ ([] : List String) then firstById rest []
          else w0 :: firstById rest [w0.group_id]) = w0 :: firstById rest [w0.group_id]
        rw [if_neg (List.not_mem_nil _)]
      refine ⟨w0, firstById rest [w0.group_id], ?_, ?_, ?_, ?_⟩
      · rw [← hf]
        exact firstById_nodup (w0 :: rest) []
      · intro w hw
        rw [← hf] at hw
        exact (firstById_sub (w0 :: rest) [] w hw).1
      · intro w hw
        rw [← hf]
        exact firstById_ids (w0 :: rest) [] w.group_id (List.mem_map_of_mem _ hw)
          (List.not_mem_nil _)
      · have h1 : bestWindow w0 (w0 :: firstById rest [w0.group_id])
            = bestWindow w0 (firstById rest [w0.group_id]) := by
          show (if w0.remaining_seconds > w0.remaining_seconds
              then bestWindow w0 (firstById rest [w0.group_id])
              else bestWindow w0 (firstById rest [w0.group_id]))
            = bestWindow w0 (firstById rest [w0.group_id])
          rw [if_neg (by omega)]
        rw [h1]
        apply bestWindow_firstById rest w0 [w0.group_id]
        · intro x hx y hy
          exact hsame x (List.mem_cons_of_mem _ hx) y (List.mem_cons_of_mem _ hy)
        · intro x hx hm
          have hid : x.group_id = w0.group_id := List.mem_singleton.mp hm
          have := hsame x (List.mem_cons_of_mem _ hx) w0 (List.mem_cons_self _ _) hid
          omega
    refine ⟨_, bestWindow w0 rest, gbest, pre, post, hresp, rfl, rfl, rfl, rfl, hbvis, hbshow,
      hbound, hsplit, hpre, hnodup, ?_, ?_, ?_, ?_, ?_, ?_, hcount, honce⟩
    · show 0 ≤ (bestWindow w0 rest).remaining_seconds
      rw [hbshow.2.2]
      exact (remainingSeconds_range _ _).1
    · intro hstart
      show (bestWindow w0 rest).remaining_seconds ≤ 600
      rw [hbshow.2.2]
      exact (remainingSeconds_range _ _).2 hstart
    · intro gid g _
      exact remainingSeconds_range _ _
    · intro hstart
      show (bestWindow w0 rest).remaining_seconds = _
      rw [hbshow.2.2]
      exact (remainingSeconds_value _ _).1 hstart
    · intro hstart
      show (bestWindow w0 rest).remaining_seconds = _
      rw [hbshow.2.2]
      exact (remainingSeconds_value _ _).2 hstart
    · intro gid g hv
      constructor
      · intro hstart
        rw [← (remainingSeconds_value _ _).1 hstart]
        exact hbound gid g hv
      · intro hstart
        rw [← (remainingSeconds_value _ _).2 hstart]
        exact hbound gid g hv

theorem best_window_selection_witness :
    VisibleWindow twoWindowState [some "g1"] "g1" demoOpenGroup ∧
    (twoWindowState.groups.map Prod.fst).Nodup ∧
    ∃ (resp : StatusResponse) (best : ActiveWindow),
      statusByStudent twoWindowState "ST1" "u-1" (some [some "g1"]) (fun _ => 61 * second)
        = some resp ∧
      resp = { active := true, remaining_seconds := 570, group_id := some "g2",
               session_name := "Lab" } ∧
      resp.active = true ∧ resp.remaining_seconds = best.remaining_seconds ∧
      resp.group_id = some best.group_id ∧
      best ∈ activeWindowsOf twoWindowState [some "g1"] (fun _ => 61 * second) ∧
      ∀ gid g, VisibleWindow twoWindowState [some "g1"] gid g →
        remainingSeconds g.WindowStartTime (61 * second) ≤ resp.remaining_seconds := by
  have hvis : VisibleWindow twoWindowState [some "g1"] "g1" demoOpenGroup :=
    ⟨rfl, rfl, Or.inl (List.mem_singleton.mpr rfl)⟩
  have hkeys : (twoWindowState.groups.map Prod.fst).Nodup := by
    have h : twoWindowState.groups.map Prod.fst = ["g1", "g2"] := rfl
    rw [h]
    decide
  obtain ⟨resp, best, gbest, pre, post, h1, h2, h3, h4, _, _, _, h8, h9, _⟩ :=
    best_window_selection twoWindowState "ST1" "u-1" [some "g1"] (fun _ => 61 * second)
      "g1" demoOpenGroup (by decide) (by decide) hkeys hvis
  have hval : statusByStudent twoWindowState "ST1" "u-1" (some [some "g1"])
      (fun _ => 61 * second)
      = some { active := true, remaining_seconds := 570, group_id := some "g2",
               session_name := "Lab" } := rfl
  refine ⟨hvis, hkeys, resp, best, h1, ?_, h2, h3, h4, ?_, h8⟩
  · exact Option.some.inj (h1.symm.trans hval)
  · rw [h9]
    exact List.mem_append_right _ (List.mem_cons_self _ _)

/-- The student branch on the two-window registry at second 61: session `g1`
has 540 seconds left, session `g2` has 570 and is the one reported; a
membership row the store returns twice lists `g1` twice and changes nothing in
the response. -/
theorem best_window_demo :
    activeWindowsOf twoWindowState [some "g1"] (fun _ => 61 * second)
      = [{ group_id := "g1", group_name := "Hall", group_only := true,
           remaining_seconds := 540 },
         { group_id := "g2", group_name := "Lab", group_only := false,
           remaining_seconds := 570 }] ∧
    statusByStudent twoWindowState "ST1" "u-1" (some [some "g1"]) (fun _ => 61 * second)
      = some { active := true, remaining_seconds := 570, group_id := some "g2",
               session_name := "Lab" } ∧
    (activeWindowsOf twoWindowState [some "g1", some "g1"] (fun _ => 61 * second)).map
        (fun w => w.group_id) = ["g1", "g1", "g2"] ∧
    statusByStudent twoWindowState "ST1" "u-1" (some [some "g1", some "g1"])
        (fun _ => 61 * second)
      = some { active := true, remaining_seconds := 570, group_id := some "g2",
               session_name := "Lab" } :=
  ⟨rfl, rfl, rfl, rfl⟩

/-! ## File objects and paths -/

/-- Two unnamed sessions started in the same second get file objects with the
same path: the registry is not `PathsApart`, and what the two logs hold is not
described by the objects. -/
theorem shared_path_demo :
    (allFiles (run testLib (State.init Int) sharedPathOps)).map (fun f => f.name)
      = ["Group_1.csv", "Group_1.csv"] ∧
    ¬ PathsApart (run testLib (State.init Int) sharedPathOps) := by
  refine ⟨rfl, ?_⟩
  intro h
  have h2 : (["Group_1.csv", "Group_1.csv"] : List String).Nodup := h
  exact absurd h2 (by decide)

/-! ## C13 -/

end Attendance
